import Mathlib

/-!
Verification of the alignment orchestrators of `spateo/alignment/morpho_alignment.py`
(`morpho_align` and `morpho_align_ref`).

The embedding models the mutable AnnData world explicitly: a `Store` is a heap of
sample objects addressed by natural numbers together with an allocation counter and
a trace of observable collaborator events.  The orchestrators are translated
statement by statement from the Python source; the out-of-file collaborators
(`Morpho_pairwise`, `BA_transform`, `downsampling`, `empty_cache`) are abstract
parameters, modelled from the spec as pure functions (the spec states the Engine
"does not mutate input samples" and has "no side effects beyond allocating the
result"); their invocations are recorded in the event trace.
-/

set_option maxHeartbeats 1000000
set_option linter.unusedSectionVars false

namespace Spateo

/-- Association-list update with Python dict semantics: overwrite in place when the
key is present, otherwise append a fresh entry at the end. -/
def dictSet {α : Type} : List (String × α) → String → α → List (String × α)
  | [], k, v => [(k, v)]
  | (k', v') :: rest, k, v =>
      if k' = k then (k, v) :: rest else (k', v') :: dictSet rest k v

/-- Association-list lookup, first matching key. -/
def dictGet {α : Type} : List (String × α) → String → Option α
  | [], _ => none
  | (k', v') :: rest, k => if k' = k then some v' else dictGet rest k

/-- A spatial sample as the orchestrators see an AnnData object: the `.obsm`
mapping from string keys to coordinate arrays (an abstract type `C`) and the
`.uns` mapping from string keys to metadata values, which are either a
per-iteration diagnostic trace (`T`, left injection) or a fitted vector field
(`V`, right injection). -/
structure SampleData (C T V : Type) where
  obsm : List (String × C)
  uns : List (String × (T ⊕ V))
deriving DecidableEq

instance {C T V : Type} : Inhabited (SampleData C T V) := ⟨⟨[], []⟩⟩

/-- Modelled from the spec: the result of one `Morpho_pairwise(...).run()` call of
the Registration Engine, whose implementation is not among the given sources.
Per the spec, the correspondence matrix `P` is N_A x N_B with one row per point of
the moving sample (`sampleA`) and one column per point of the fixed sample
(`sampleB`); `optimal_RnA` holds the rigid-aligned coordinates of the moving
sample, `XAHat` its non-rigid-aligned coordinates, `iter_added` the per-iteration
diagnostic trace, and `vecfld` the fitted vector field. -/
structure EngineOut (C T V R : Type) where
  P : List (List R)
  optimal_RnA : C
  XAHat : C
  iter_added : T
  vecfld : V
deriving DecidableEq

/-- Observable collaborator invocations of an orchestrator run: a Registration
Engine call (recording the spatial key it is told to read and the two sample
objects passed as moving `sampleA` and fixed `sampleB`), a device-cache release
(`empty_cache`), and a Field Evaluator call (`BA_transform`, recording the field
and the query coordinates). -/
inductive Event (C T V : Type) where
  | engineCall (spatialKey : String) (moving fixed : SampleData C T V)
  | emptyCache
  | evalCall (vecfld : V) (query : C)
deriving DecidableEq

/-- The mutable world: a heap of sample objects addressed by `Nat`, the next
fresh address, and the trace of collaborator events so far. -/
structure Store (C T V : Type) where
  heap : Nat → SampleData C T V
  next : Nat
  events : List (Event C T V)

variable {C T V R E : Type}

/-- Read the sample object at an address. -/
def readS (st : Store C T V) (a : Nat) : SampleData C T V := st.heap a

/-- Overwrite the sample object at an address. -/
def writeS (st : Store C T V) (a : Nat) (v : SampleData C T V) : Store C T V :=
  { st with heap := fun b => if b = a then v else st.heap b }

/-- Allocate a fresh sample object, returning its address. -/
def alloc (st : Store C T V) (v : SampleData C T V) : Store C T V × Nat :=
  ({ heap := fun b => if b = st.next then v else st.heap b
     next := st.next + 1
     events := st.events }, st.next)

/-- Record a collaborator event. -/
def addEvent (st : Store C T V) (e : Event C T V) : Store C T V :=
  { st with events := st.events ++ [e] }

/-- Allocate a list of fresh sample objects, in order. -/
def allocAll (st : Store C T V) (vs : List (SampleData C T V)) :
    Store C T V × List Nat :=
  match vs with
  | [] => (st, [])
  | v :: rest =>
      let p := alloc st v
      let q := allocAll p.1 rest
      (q.1, p.2 :: q.2)

/-- Translation of `[model.copy() for model in models]`: allocate a fresh deep
copy of every addressed object. -/
def copyAll (st : Store C T V) (addrs : List Nat) : Store C T V × List Nat :=
  allocAll st (addrs.map fun a => readS st a)

/-- The addresses `[L, L+1, ..., L+n-1]` handed out by `n` consecutive
allocations starting at counter `L`. -/
def addrSeq (L : Nat) : Nat → List Nat
  | 0 => []
  | n + 1 => L :: addrSeq (L + 1) n

/-- Modelled from the spec: the Registration Engine (`Morpho_pairwise(...).run()`)
as invoked by the orchestrators, abstracted to a pure, possibly failing function
of the spatial key it is told to read and the two sample objects (moving
`sampleA`, fixed `sampleB`); the remaining configuration arguments are constant
across a run and folded into the function.  Per the spec it does not mutate its
inputs and has no side effects beyond producing its result. -/
abbrev Engine (C T V R E : Type) :=
  String → SampleData C T V → SampleData C T V → Except E (EngineOut C T V R)

variable [Inhabited C]

/-- Translation of the per-model initialisation of `morpho_align` (and of
`morpho_align_ref`): `m.obsm[key_added] = m.obsm[spatial_key].copy()` and the
same for the `_rigid` and `_nonrigid` variants. -/
def initModel (sk ka : String) (m : SampleData C T V) : SampleData C T V :=
  let c := (dictGet m.obsm sk).getD default
  { m with obsm :=
      dictSet (dictSet (dictSet m.obsm ka c) (ka ++ "_rigid") c) (ka ++ "_nonrigid") c }

/-- Run `initModel` over a list of addressed objects, in place. -/
def initAll (st : Store C T V) (as' : List Nat) (sk ka : String) : Store C T V :=
  match as' with
  | [] => st
  | a :: rest => initAll (writeS st a (initModel sk ka (readS st a))) rest sk ka

/-- Translation of the `.obsm` writes of one pair of `morpho_align` (source lines
94-99): attach the rigid- and non-rigid-aligned coordinates to the later sample
and, when the mode is `"SN-S"` or `"SN-N"`, overwrite its working coordinate with
the corresponding branch; any other mode leaves the working coordinate alone. -/
def obsmWrite (ka mode : String) (m : SampleData C T V) (out : EngineOut C T V R) :
    SampleData C T V :=
  let m1 : SampleData C T V := { m with obsm := dictSet m.obsm (ka ++ "_rigid") out.optimal_RnA }
  let m2 : SampleData C T V := { m1 with obsm := dictSet m1.obsm (ka ++ "_nonrigid") out.XAHat }
  if mode = "SN-S" then
    { m2 with obsm := dictSet m2.obsm ka ((dictGet m2.obsm (ka ++ "_rigid")).getD default) }
  else if mode = "SN-N" then
    { m2 with obsm := dictSet m2.obsm ka ((dictGet m2.obsm (ka ++ "_nonrigid")).getD default) }
  else m2

/-- Translation of the `.uns` writes of one pair (source lines 101-104): attach
the per-iteration trace when `iter_key_added` is not `None`, then the fitted
vector field when `vecfld_key_added` is not `None`. -/
def unsWrite (ik vk : Option String) (m : SampleData C T V) (out : EngineOut C T V R) :
    SampleData C T V :=
  let m1 : SampleData C T V :=
    match ik with
    | some k => { m with uns := dictSet m.uns k (Sum.inl out.iter_added) }
    | none => m
  match vk with
  | some k => { m1 with uns := dictSet m1.uns k (Sum.inr out.vecfld) }
  | none => m1

/-- All writes one pair of `morpho_align` performs on the later sample, in source
order: the `.obsm` writes followed by the `.uns` writes. -/
def pairWrite (ka : String) (ik vk : Option String) (mode : String)
    (m : SampleData C T V) (out : EngineOut C T V R) : SampleData C T V :=
  unsWrite ik vk (obsmWrite ka mode m out) out

/-- One iteration of the `morpho_align` loop (source lines 72-106): read the two
adjacent samples, invoke the Registration Engine with moving = the later sample
and fixed = the earlier one (the `# reverse` arguments of `Morpho_pairwise`),
write the results onto the later sample, release the device cache, and return
`P.T` for the `pis` list.  When the engine fails the error propagates and no
write of this iteration happens. -/
def stepPair (engine : Engine C T V R E) (ka : String) (ik vk : Option String)
    (mode : String) (addrs : List Nat) (i : Nat) (st : Store C T V) :
    Store C T V × Except E (List (List R)) :=
  let mA := readS st (addrs.getD i 0)
  let mB := readS st (addrs.getD (i + 1) 0)
  let st1 := addEvent st (Event.engineCall ka mB mA)
  match engine ka mB mA with
  | Except.error e => (st1, Except.error e)
  | Except.ok out =>
      let st2 := writeS st1 (addrs.getD (i + 1) 0) (pairWrite ka ik vk mode mB out)
      let st3 := addEvent st2 Event.emptyCache
      (st3, Except.ok out.P.transpose)

/-- The `morpho_align` loop: process `k` remaining adjacent pairs starting at pair
index `i`, accumulating the `pis` list; stop and report the error of the first
failing pair, keeping no partial pair. -/
def alignPairs (engine : Engine C T V R E) (ka : String) (ik vk : Option String)
    (mode : String) (addrs : List Nat) :
    Nat → Nat → Store C T V → List (List (List R)) →
    Store C T V × List (List (List R)) × Option E
  | 0, _, st, pis => (st, pis, none)
  | k + 1, i, st, pis =>
      match stepPair engine ka ik vk mode addrs i st with
      | (st', Except.ok P) => alignPairs engine ka ik vk mode addrs k (i + 1) st' (pis ++ [P])
      | (st', Except.error e) => (st', pis, some e)

/-- Translation of `morpho_align` (source lines 19-108): copy every input model,
initialise the working / rigid / non-rigid coordinate slots from the raw spatial
coordinates, then walk the adjacent pairs.  On success it returns the addresses
of the aligned copies and the `pis` list; a failing pair makes the whole call
fail with that error (the heap, with whatever the earlier pairs wrote to the
fresh copies, persists in the returned store). -/
def morpho_align (engine : Engine C T V R E) (sk ka : String) (ik vk : Option String)
    (mode : String) (modelAddrs : List Nat) (st0 : Store C T V) :
    Store C T V × Except E (List Nat × List (List (List R))) :=
  let p := copyAll st0 modelAddrs
  let st2 := initAll p.1 p.2 sk ka
  let q := alignPairs engine ka ik vk mode p.2 (p.2.length - 1) 0 st2 []
  match q.2.2 with
  | some e => (q.1, Except.error e)
  | none => (q.1, Except.ok (p.2, q.2.1))

/-- Modelled from the spec: the Field Evaluator `BA_transform`, whose
implementation is not among the given sources.  Given a fitted vector field and
query coordinates it deterministically returns the triple (non-rigid
coordinates, displacement, rigid coordinates) with no side effects; the device
and dtype arguments are constant across a run and folded into the function. -/
abbrev Evaluator (C V : Type) := V → C → C × C × C

/-- Translation of the full-resolution `.obsm` writes of one pair of
`morpho_align_ref` (source lines 253-262): the tuple assignment stores the
evaluator's non-rigid then rigid coordinates, then the mode choice overwrites
the working coordinate from the corresponding slot (or leaves it alone for any
other mode). -/
def fullWrite (ka mode : String) (m : SampleData C T V) (nr rg : C) :
    SampleData C T V :=
  let m1 : SampleData C T V := { m with obsm := dictSet m.obsm (ka ++ "_nonrigid") nr }
  let m2 : SampleData C T V := { m1 with obsm := dictSet m1.obsm (ka ++ "_rigid") rg }
  if mode = "SN-S" then
    { m2 with obsm := dictSet m2.obsm ka ((dictGet m2.obsm (ka ++ "_rigid")).getD default) }
  else if mode = "SN-N" then
    { m2 with obsm := dictSet m2.obsm ka ((dictGet m2.obsm (ka ++ "_nonrigid")).getD default) }
  else m2

/-- One iteration of the `morpho_align_ref` loop (source lines 193-264), in
source order: invoke the Registration Engine on the adjacent pair of landmark
(reference) samples, write its results onto the later landmark sample, attach
the per-iteration trace and the fitted field to both the landmark sample and its
full-resolution counterpart, then obtain the full-resolution rigid and non-rigid
coordinates by evaluating the fitted field at the full-resolution sample's
working coordinates via `BA_transform`.  No cache release occurs.  The returned
matrix is appended (untransposed) to both `pis` and `pis_ref` by the loop. -/
def stepPairRef (engine : Engine C T V R E) (ba : Evaluator C V) (ka : String)
    (ik vk : Option String) (mode : String) (refAddrs fullAddrs : List Nat)
    (i : Nat) (st : Store C T V) : Store C T V × Except E (List (List R)) :=
  let mAr := readS st (refAddrs.getD i 0)
  let mBr := readS st (refAddrs.getD (i + 1) 0)
  let st1 := addEvent st (Event.engineCall ka mBr mAr)
  match engine ka mBr mAr with
  | Except.error e => (st1, Except.error e)
  | Except.ok out =>
      let st2 := writeS st1 (refAddrs.getD (i + 1) 0) (obsmWrite ka mode mBr out)
      let st3 := writeS st2 (refAddrs.getD (i + 1) 0)
        (unsWrite ik vk (readS st2 (refAddrs.getD (i + 1) 0)) out)
      let st4 := writeS st3 (fullAddrs.getD (i + 1) 0)
        (unsWrite ik vk (readS st3 (fullAddrs.getD (i + 1) 0)) out)
      let q := (dictGet (readS st4 (fullAddrs.getD (i + 1) 0)).obsm ka).getD default
      let st5 := addEvent st4 (Event.evalCall out.vecfld q)
      let res := ba out.vecfld q
      let st6 := writeS st5 (fullAddrs.getD (i + 1) 0)
        (fullWrite ka mode (readS st5 (fullAddrs.getD (i + 1) 0)) res.1 res.2.2)
      (st6, Except.ok out.P)

/-- The `morpho_align_ref` loop: process `k` remaining adjacent pairs starting at
pair index `i`, accumulating `pis` and `pis_ref` (each pair appends the same
matrix to both); stop and report the error of the first failing pair. -/
def refPairs (engine : Engine C T V R E) (ba : Evaluator C V) (ka : String)
    (ik vk : Option String) (mode : String) (refAddrs fullAddrs : List Nat) :
    Nat → Nat → Store C T V → List (List (List R)) → List (List (List R)) →
    Store C T V × List (List (List R)) × List (List (List R)) × Option E
  | 0, _, st, pis, pisRef => (st, pis, pisRef, none)
  | k + 1, i, st, pis, pisRef =>
      match stepPairRef engine ba ka ik vk mode refAddrs fullAddrs i st with
      | (st', Except.ok P) =>
          refPairs engine ba ka ik vk mode refAddrs fullAddrs k (i + 1) st'
            (pis ++ [P]) (pisRef ++ [P])
      | (st', Except.error e) => (st', pis, pisRef, some e)

/-- Modelled from the spec: the downsampling collaborator, whose implementation
is not among the given sources, reduces one sample to a bounded landmark subset;
the landmark count and sampling method are constant across a run and folded into
the function, and the result is a fresh object. -/
abbrev Downsampler (C T V : Type) := SampleData C T V → SampleData C T V

/-- Translation of `morpho_align_ref` (source lines 112-266): when no reference
models are supplied, derive them by downsampling a copy of every input model;
copy and initialise the full-resolution models, then copy and initialise the
reference models; walk the adjacent pairs with `stepPairRef`.  On success it
returns the addresses of the aligned full-resolution copies, the addresses of
the aligned reference copies, and the `pis` and `pis_ref` lists; a failing pair
makes the whole call fail with that error. -/
def morpho_align_ref (engine : Engine C T V R E) (ba : Evaluator C V)
    (ds : Downsampler C T V) (sk ka : String) (ik vk : Option String)
    (mode : String) (modelAddrs : List Nat) (refIn : Option (List Nat))
    (st0 : Store C T V) :
    Store C T V × Except E (List Nat × List Nat × List (List (List R)) × List (List (List R))) :=
  let pA :=
    match refIn with
    | some ra => (st0, ra)
    | none =>
        let s := copyAll st0 modelAddrs
        allocAll s.1 (s.2.map fun a => ds (readS s.1 a))
  let pB := copyAll pA.1 modelAddrs
  let stC := initAll pB.1 pB.2 sk ka
  let pD := copyAll stC pA.2
  let stE := initAll pD.1 pD.2 sk ka
  let q := refPairs engine ba ka ik vk mode pD.2 pB.2 (pB.2.length - 1) 0 stE [] []
  match q.2.2.2 with
  | some e => (q.1, Except.error e)
  | none => (q.1, Except.ok (pB.2, pD.2, q.2.1, q.2.2.1))

/-- A total (never failing) engine, lifted to the `Except` interface. -/
def okE (eng0 : String → SampleData C T V → SampleData C T V → EngineOut C T V R) :
    Engine C T V R E :=
  fun s a b => Except.ok (eng0 s a b)

/-- The initialised state of the `j`-th copied sample, before any pair touched
it: all three coordinate slots hold the raw spatial coordinates. -/
def initSample (sk ka : String) (inits : List (SampleData C T V)) (j : Nat) :
    SampleData C T V :=
  initModel sk ka (inits.getD j default)

/-- Closed-form final state of the `j`-th sample in a successful `morpho_align`
run over original sample contents `inits`: sample `0` keeps its initialised
state; sample `j+1` is its initialised state with pair `j`'s writes applied,
where pair `j`'s engine output is computed from the untouched initialised state
of sample `j+1` (moving) and the final state of sample `j` (fixed). -/
def chainSample (eng0 : String → SampleData C T V → SampleData C T V → EngineOut C T V R)
    (sk ka : String) (ik vk : Option String) (mode : String)
    (inits : List (SampleData C T V)) : Nat → SampleData C T V
  | 0 => initSample sk ka inits 0
  | j + 1 =>
      pairWrite ka ik vk mode (initSample sk ka inits (j + 1))
        (eng0 ka (initSample sk ka inits (j + 1))
          (chainSample eng0 sk ka ik vk mode inits j))

/-- The engine output of pair `j` in a successful `morpho_align` run. -/
def chainOut (eng0 : String → SampleData C T V → SampleData C T V → EngineOut C T V R)
    (sk ka : String) (ik vk : Option String) (mode : String)
    (inits : List (SampleData C T V)) (j : Nat) : EngineOut C T V R :=
  eng0 ka (initSample sk ka inits (j + 1)) (chainSample eng0 sk ka ik vk mode inits j)

/-- The event trace contributed by pairs `i, i+1, ..., i+k-1` of `morpho_align`:
each pair records its engine call followed by the cache release. -/
def chainEvents (eng0 : String → SampleData C T V → SampleData C T V → EngineOut C T V R)
    (sk ka : String) (ik vk : Option String) (mode : String)
    (inits : List (SampleData C T V)) : Nat → Nat → List (Event C T V)
  | _, 0 => []
  | i, k + 1 =>
      Event.engineCall ka (initSample sk ka inits (i + 1))
          (chainSample eng0 sk ka ik vk mode inits i)
        :: Event.emptyCache
        :: chainEvents eng0 sk ka ik vk mode inits (i + 1) k

/-- The `pis` entries contributed by pairs `i, ..., i+k-1` of `morpho_align`:
each pair appends the transpose of its engine's correspondence matrix. -/
def chainPis (eng0 : String → SampleData C T V → SampleData C T V → EngineOut C T V R)
    (sk ka : String) (ik vk : Option String) (mode : String)
    (inits : List (SampleData C T V)) : Nat → Nat → List (List (List R))
  | _, 0 => []
  | i, k + 1 =>
      (chainOut eng0 sk ka ik vk mode inits i).P.transpose
        :: chainPis eng0 sk ka ik vk mode inits (i + 1) k

/-- Closed-form final state of the `j`-th landmark (reference) sample in a
successful `morpho_align_ref` run over landmark contents `initsR`: the same
chain recursion as `morpho_align`, since the landmark sample receives exactly
the `obsm` writes followed by the `uns` writes. -/
def refChain (eng0 : String → SampleData C T V → SampleData C T V → EngineOut C T V R)
    (sk ka : String) (ik vk : Option String) (mode : String)
    (initsR : List (SampleData C T V)) : Nat → SampleData C T V :=
  chainSample eng0 sk ka ik vk mode initsR

/-- The engine output of pair `j` of a successful `morpho_align_ref` run, fitted
on the landmark pair. -/
def refOut (eng0 : String → SampleData C T V → SampleData C T V → EngineOut C T V R)
    (sk ka : String) (ik vk : Option String) (mode : String)
    (initsR : List (SampleData C T V)) (j : Nat) : EngineOut C T V R :=
  chainOut eng0 sk ka ik vk mode initsR j

/-- The query coordinates `modelB.obsm[key_added]` handed to the Field Evaluator
at pair `j` of `morpho_align_ref`: the full-resolution later sample's working
coordinates, read after the `uns` writes (which leave `.obsm` alone). -/
def fullQuery (eng0 : String → SampleData C T V → SampleData C T V → EngineOut C T V R)
    (sk ka : String) (ik vk : Option String) (mode : String)
    (inits initsR : List (SampleData C T V)) (j : Nat) : C :=
  (dictGet (unsWrite ik vk (initSample sk ka inits (j + 1))
      (refOut eng0 sk ka ik vk mode initsR j)).obsm ka).getD default

/-- Closed-form final state of the `j`-th full-resolution sample in a successful
`morpho_align_ref` run: sample `0` keeps its initialised state; sample `j+1` is
its initialised state with pair `j`'s `uns` writes applied, followed by the
coordinate writes taken from evaluating the landmark-fitted field at its working
coordinates. -/
def fullFinal (eng0 : String → SampleData C T V → SampleData C T V → EngineOut C T V R)
    (ba : Evaluator C V) (sk ka : String) (ik vk : Option String) (mode : String)
    (inits initsR : List (SampleData C T V)) : Nat → SampleData C T V
  | 0 => initSample sk ka inits 0
  | j + 1 =>
      let out := refOut eng0 sk ka ik vk mode initsR j
      let m1 := unsWrite ik vk (initSample sk ka inits (j + 1)) out
      let res := ba out.vecfld (fullQuery eng0 sk ka ik vk mode inits initsR j)
      fullWrite ka mode m1 res.1 res.2.2

/-- The event trace contributed by pairs `i, ..., i+k-1` of `morpho_align_ref`:
each pair records its engine call on the landmark pair followed by the field
evaluation on the full-resolution working coordinates; no cache release. -/
def refEvents (eng0 : String → SampleData C T V → SampleData C T V → EngineOut C T V R)
    (sk ka : String) (ik vk : Option String) (mode : String)
    (inits initsR : List (SampleData C T V)) : Nat → Nat → List (Event C T V)
  | _, 0 => []
  | i, k + 1 =>
      Event.engineCall ka (initSample sk ka initsR (i + 1))
          (refChain eng0 sk ka ik vk mode initsR i)
        :: Event.evalCall (refOut eng0 sk ka ik vk mode initsR i).vecfld
            (fullQuery eng0 sk ka ik vk mode inits initsR i)
        :: refEvents eng0 sk ka ik vk mode inits initsR (i + 1) k

/-- The `pis` (and identical `pis_ref`) entries contributed by pairs
`i, ..., i+k-1` of `morpho_align_ref`: each pair appends its engine's
correspondence matrix untransposed. -/
def refPis (eng0 : String → SampleData C T V → SampleData C T V → EngineOut C T V R)
    (sk ka : String) (ik vk : Option String) (mode : String)
    (initsR : List (SampleData C T V)) : Nat → Nat → List (List (List R))
  | _, 0 => []
  | i, k + 1 =>
      (refOut eng0 sk ka ik vk mode initsR i).P
        :: refPis eng0 sk ka ik vk mode initsR (i + 1) k

/-! Basic lemmas about the dictionary, the store and the address bookkeeping. -/

theorem dictGet_dictSet_self {α : Type} (m : List (String × α)) (k : String) (v : α) :
    dictGet (dictSet m k v) k = some v := by
  induction m with
  | nil => simp [dictSet, dictGet]
  | cons p rest ih =>
      by_cases h : p.1 = k
      · simp [dictSet, dictGet, h]
      · simp [dictSet, dictGet, h, ih]

theorem dictGet_dictSet_ne {α : Type} (m : List (String × α)) {k k' : String}
    (h : k' ≠ k) (v : α) : dictGet (dictSet m k v) k' = dictGet m k' := by
  induction m with
  | nil => simp [dictSet, dictGet, Ne.symm h]
  | cons p rest ih =>
      obtain ⟨k1, v1⟩ := p
      by_cases hp : k1 = k
      · subst hp
        simp [dictSet, dictGet, Ne.symm h]
      · by_cases hp' : k1 = k'
        · simp [dictSet, dictGet, hp, hp', h]
        · simp [dictSet, dictGet, hp, hp', ih]

theorem string_append_ne_self {s t : String} (ht : t.data ≠ []) : s ++ t ≠ s := by
  intro h
  have hd := congrArg String.data h
  rw [String.data_append] at hd
  have : s.data ++ t.data = s.data ++ [] := by simpa using hd
  exact ht (List.append_cancel_left this)

theorem string_append_ne_append {s a b : String} (hab : a.data ≠ b.data) :
    s ++ a ≠ s ++ b := by
  intro h
  have hd := congrArg String.data h
  rw [String.data_append, String.data_append] at hd
  exact hab (List.append_cancel_left hd)

theorem rigid_ne_base (ka : String) : ka ++ "_rigid" ≠ ka :=
  string_append_ne_self (by decide)

theorem nonrigid_ne_base (ka : String) : ka ++ "_nonrigid" ≠ ka :=
  string_append_ne_self (by decide)

theorem rigid_ne_nonrigid (ka : String) : ka ++ "_rigid" ≠ ka ++ "_nonrigid" :=
  string_append_ne_append (by decide)

@[simp] theorem readS_writeS_self (st : Store C T V) (a : Nat) (v : SampleData C T V) :
    readS (writeS st a v) a = v := by
  simp [readS, writeS]

theorem readS_writeS_ne (st : Store C T V) {a b : Nat} (h : b ≠ a)
    (v : SampleData C T V) : readS (writeS st a v) b = readS st b := by
  simp [readS, writeS, h]

theorem readS_writeS (st : Store C T V) (a b : Nat) (v : SampleData C T V) :
    readS (writeS st a v) b = if b = a then v else readS st b := rfl

@[simp] theorem readS_addEvent (st : Store C T V) (e : Event C T V) (b : Nat) :
    readS (addEvent st e) b = readS st b := rfl

@[simp] theorem next_writeS (st : Store C T V) (a : Nat) (v : SampleData C T V) :
    (writeS st a v).next = st.next := rfl

@[simp] theorem next_addEvent (st : Store C T V) (e : Event C T V) :
    (addEvent st e).next = st.next := rfl

@[simp] theorem events_writeS (st : Store C T V) (a : Nat) (v : SampleData C T V) :
    (writeS st a v).events = st.events := rfl

@[simp] theorem events_addEvent (st : Store C T V) (e : Event C T V) :
    (addEvent st e).events = st.events ++ [e] := rfl

theorem addrSeq_length (L n : Nat) : (addrSeq L n).length = n := by
  induction n generalizing L with
  | zero => rfl
  | succ n ih => simp [addrSeq, ih]

theorem addrSeq_getD {n : Nat} (L : Nat) {i : Nat} (h : i < n) :
    (addrSeq L n).getD i 0 = L + i := by
  induction n generalizing L i with
  | zero => omega
  | succ n ih =>
      cases i with
      | zero => simp [addrSeq]
      | succ i =>
          have h' : i < n := by omega
          have hstep : (addrSeq L (n + 1)).getD (i + 1) 0
              = (addrSeq (L + 1) n).getD i 0 := rfl
          rw [hstep, ih (L + 1) h']
          omega

theorem mem_addrSeq {b L n : Nat} : b ∈ addrSeq L n ↔ L ≤ b ∧ b < L + n := by
  induction n generalizing L with
  | zero => simp [addrSeq]
  | succ n ih =>
      simp only [addrSeq, List.mem_cons, ih]
      omega

theorem getD_map_of_lt {α β : Type} (f : α → β) (l : List α) {i : Nat}
    (h : i < l.length) (d : α) (d' : β) : (l.map f).getD i d' = f (l.getD i d) := by
  induction l generalizing i with
  | nil => simp at h
  | cons x xs ih =>
      cases i with
      | zero => simp [List.getD]
      | succ i => simpa [List.getD] using ih (by simpa using Nat.lt_of_succ_lt_succ h)

theorem list_eq_of_getD {α : Type} (d : α) (l1 l2 : List α)
    (hlen : l1.length = l2.length)
    (h : ∀ j, j < l1.length → l1.getD j d = l2.getD j d) : l1 = l2 := by
  apply List.ext_getElem hlen
  intro i h1 h2
  have := h i h1
  rwa [List.getD_eq_getElem _ d h1, List.getD_eq_getElem _ d h2] at this

theorem allocAll_next (st : Store C T V) (vs : List (SampleData C T V)) :
    (allocAll st vs).1.next = st.next + vs.length := by
  induction vs generalizing st with
  | nil => simp [allocAll]
  | cons v rest ih => simp [allocAll, alloc, ih]; omega

theorem allocAll_events (st : Store C T V) (vs : List (SampleData C T V)) :
    (allocAll st vs).1.events = st.events := by
  induction vs generalizing st with
  | nil => rfl
  | cons v rest ih => simp [allocAll, alloc, ih]

theorem allocAll_addrs (st : Store C T V) (vs : List (SampleData C T V)) :
    (allocAll st vs).2 = addrSeq st.next vs.length := by
  induction vs generalizing st with
  | nil => rfl
  | cons v rest ih => simp [allocAll, alloc, ih, addrSeq]

theorem allocAll_read_old (st : Store C T V) (vs : List (SampleData C T V))
    {b : Nat} (hb : b < st.next) : readS (allocAll st vs).1 b = readS st b := by
  induction vs generalizing st with
  | nil => rfl
  | cons v rest ih =>
      have h1 : readS (alloc st v).1 b = readS st b := by
        simp [readS, alloc]
        intro h; omega
      calc readS (allocAll st (v :: rest)).1 b
          = readS (allocAll (alloc st v).1 rest).1 b := rfl
        _ = readS (alloc st v).1 b := ih (alloc st v).1 (by simp [alloc]; omega)
        _ = readS st b := h1

theorem allocAll_read_new (st : Store C T V) (vs : List (SampleData C T V))
    {j : Nat} (hj : j < vs.length) :
    readS (allocAll st vs).1 (st.next + j) = vs.getD j default := by
  induction vs generalizing st j with
  | nil => simp at hj
  | cons v rest ih =>
      cases j with
      | zero =>
          have : readS (alloc st v).1 st.next = v := by simp [readS, alloc]
          have hlt : st.next < (alloc st v).1.next := by simp [alloc]
          calc readS (allocAll st (v :: rest)).1 (st.next + 0)
              = readS (allocAll (alloc st v).1 rest).1 st.next := rfl
            _ = readS (alloc st v).1 st.next := allocAll_read_old _ _ hlt
            _ = v := this
            _ = (v :: rest).getD 0 default := rfl
      | succ j =>
          have hj' : j < rest.length := by simpa using Nat.lt_of_succ_lt_succ hj
          have hnx : st.next + (j + 1) = (alloc st v).1.next + j := by
            simp [alloc]; omega
          calc readS (allocAll st (v :: rest)).1 (st.next + (j + 1))
              = readS (allocAll (alloc st v).1 rest).1 (st.next + (j + 1)) := rfl
            _ = readS (allocAll (alloc st v).1 rest).1 ((alloc st v).1.next + j) := by
                rw [hnx]
            _ = rest.getD j default := ih (alloc st v).1 hj'
            _ = (v :: rest).getD (j + 1) default := rfl

theorem initAll_next (st : Store C T V) (as' : List Nat) (sk ka : String) :
    (initAll st as' sk ka).next = st.next := by
  induction as' generalizing st with
  | nil => rfl
  | cons a rest ih => simp [initAll, ih]

theorem initAll_events (st : Store C T V) (as' : List Nat) (sk ka : String) :
    (initAll st as' sk ka).events = st.events := by
  induction as' generalizing st with
  | nil => rfl
  | cons a rest ih => simp [initAll, ih]

theorem initAll_read_out (st : Store C T V) (as' : List Nat) (sk ka : String)
    {b : Nat} (hb : ∀ a ∈ as', b ≠ a) :
    readS (initAll st as' sk ka) b = readS st b := by
  induction as' generalizing st with
  | nil => rfl
  | cons a rest ih =>
      have hba : b ≠ a := hb a (by simp)
      calc readS (initAll st (a :: rest) sk ka) b
          = readS (initAll (writeS st a (initModel sk ka (readS st a))) rest sk ka) b := rfl
        _ = readS (writeS st a (initModel sk ka (readS st a))) b :=
            ih _ (fun x hx => hb x (by simp [hx]))
        _ = readS st b := readS_writeS_ne st hba _

theorem initAll_read_addrSeq (st : Store C T V) (sk ka : String) {L n j : Nat}
    (hj : j < n) :
    readS (initAll st (addrSeq L n) sk ka) (L + j)
      = initModel sk ka (readS st (L + j)) := by
  induction n generalizing L j st with
  | zero => omega
  | succ n ih =>
      cases j with
      | zero =>
          have hout : ∀ a ∈ addrSeq (L + 1) n, L ≠ a := by
            intro a ha
            have := mem_addrSeq.mp ha
            omega
          calc readS (initAll st (addrSeq L (n + 1)) sk ka) (L + 0)
              = readS (initAll (writeS st L (initModel sk ka (readS st L)))
                  (addrSeq (L + 1) n) sk ka) L := by simp [addrSeq, initAll]
            _ = readS (writeS st L (initModel sk ka (readS st L))) L :=
                initAll_read_out _ _ _ _ hout
            _ = initModel sk ka (readS st L) := readS_writeS_self _ _ _
            _ = initModel sk ka (readS st (L + 0)) := rfl
      | succ j =>
          have hj' : j < n := by omega
          have hw : readS (writeS st L (initModel sk ka (readS st L))) (L + 1 + j)
              = readS st (L + 1 + j) := readS_writeS_ne st (by omega) _
          calc readS (initAll st (addrSeq L (n + 1)) sk ka) (L + (j + 1))
              = readS (initAll (writeS st L (initModel sk ka (readS st L)))
                  (addrSeq (L + 1) n) sk ka) (L + 1 + j) := by
                simp [addrSeq, initAll]; ring_nf
            _ = initModel sk ka
                  (readS (writeS st L (initModel sk ka (readS st L))) (L + 1 + j)) :=
                ih _ hj'
            _ = initModel sk ka (readS st (L + 1 + j)) := by rw [hw]
            _ = initModel sk ka (readS st (L + (j + 1))) := by ring_nf

theorem unsWrite_obsm (ik vk : Option String) (m : SampleData C T V)
    (out : EngineOut C T V R) : (unsWrite ik vk m out).obsm = m.obsm := by
  cases ik <;> cases vk <;> rfl

/-! Characterisation of a successful `morpho_align` loop by induction along the
chain: every sample's final state is the closed-form `chainSample`, the `pis`
and event lists are the closed-form `chainPis` and `chainEvents`, and no cell
outside the freshly copied block is touched. -/

theorem alignPairs_run
    (eng0 : String → SampleData C T V → SampleData C T V → EngineOut C T V R)
    (sk ka : String) (ik vk : Option String) (mode : String)
    (inits : List (SampleData C T V)) (L : Nat) :
    ∀ (k i : Nat) (st : Store C T V) (pis : List (List (List R))),
      i + k + 1 = inits.length →
      (∀ j, j < inits.length → readS st (L + j) =
        (if j ≤ i then chainSample eng0 sk ka ik vk mode inits j
         else initSample sk ka inits j)) →
      (alignPairs (okE eng0 : Engine C T V R E) ka ik vk mode
          (addrSeq L inits.length) k i st pis).2.2 = none
      ∧ (alignPairs (okE eng0 : Engine C T V R E) ka ik vk mode
          (addrSeq L inits.length) k i st pis).2.1
          = pis ++ chainPis eng0 sk ka ik vk mode inits i k
      ∧ (∀ j, j < inits.length →
          readS (alignPairs (okE eng0 : Engine C T V R E) ka ik vk mode
            (addrSeq L inits.length) k i st pis).1 (L + j)
          = chainSample eng0 sk ka ik vk mode inits j)
      ∧ (∀ b, b < L ∨ L + inits.length ≤ b →
          readS (alignPairs (okE eng0 : Engine C T V R E) ka ik vk mode
            (addrSeq L inits.length) k i st pis).1 b = readS st b)
      ∧ (alignPairs (okE eng0 : Engine C T V R E) ka ik vk mode
          (addrSeq L inits.length) k i st pis).1.next = st.next
      ∧ (alignPairs (okE eng0 : Engine C T V R E) ka ik vk mode
          (addrSeq L inits.length) k i st pis).1.events
          = st.events ++ chainEvents eng0 sk ka ik vk mode inits i k := by
  intro k
  induction k with
  | zero =>
      intro i st pis hbound hheap
      refine ⟨rfl, by simp [alignPairs, chainPis], ?_, fun b _ => rfl, rfl,
        by simp [alignPairs, chainEvents]⟩
      intro j hj
      have := hheap j hj
      rwa [if_pos (by omega)] at this
  | succ k ih =>
      intro i st pis hbound hheap
      have hilt : i < inits.length := by omega
      have hi1lt : i + 1 < inits.length := by omega
      have hga : (addrSeq L inits.length).getD i 0 = L + i := addrSeq_getD L hilt
      have hgb : (addrSeq L inits.length).getD (i + 1) 0 = L + (i + 1) :=
        addrSeq_getD L hi1lt
      have hra : readS st (L + i) = chainSample eng0 sk ka ik vk mode inits i := by
        have := hheap i hilt
        rwa [if_pos (by omega)] at this
      have hrb : readS st (L + (i + 1)) = initSample sk ka inits (i + 1) := by
        have := hheap (i + 1) hi1lt
        rwa [if_neg (by omega)] at this
      have hstep : stepPair (okE eng0 : Engine C T V R E) ka ik vk mode
          (addrSeq L inits.length) i st =
          (addEvent (writeS (addEvent st (Event.engineCall ka
              (initSample sk ka inits (i + 1))
              (chainSample eng0 sk ka ik vk mode inits i))) (L + (i + 1))
              (chainSample eng0 sk ka ik vk mode inits (i + 1))) Event.emptyCache,
           Except.ok (chainOut eng0 sk ka ik vk mode inits i).P.transpose) := by
        simp only [stepPair, hga, hgb, hra, hrb, okE, chainOut]
        simp only [chainSample]
      have key : alignPairs (okE eng0 : Engine C T V R E) ka ik vk mode
          (addrSeq L inits.length) (k + 1) i st pis
          = alignPairs (okE eng0 : Engine C T V R E) ka ik vk mode
            (addrSeq L inits.length) k (i + 1)
            (addEvent (writeS (addEvent st (Event.engineCall ka
              (initSample sk ka inits (i + 1))
              (chainSample eng0 sk ka ik vk mode inits i))) (L + (i + 1))
              (chainSample eng0 sk ka ik vk mode inits (i + 1))) Event.emptyCache)
            (pis ++ [(chainOut eng0 sk ka ik vk mode inits i).P.transpose]) := by
        simp only [alignPairs, hstep]
      have hheap' : ∀ j, j < inits.length →
          readS (addEvent (writeS (addEvent st (Event.engineCall ka
              (initSample sk ka inits (i + 1))
              (chainSample eng0 sk ka ik vk mode inits i))) (L + (i + 1))
              (chainSample eng0 sk ka ik vk mode inits (i + 1))) Event.emptyCache)
            (L + j)
          = (if j ≤ i + 1 then chainSample eng0 sk ka ik vk mode inits j
             else initSample sk ka inits j) := by
        intro j hj
        by_cases hji : j = i + 1
        · subst hji
          rw [if_pos (by omega)]
          simp
        · have hne : L + j ≠ L + (i + 1) := by omega
          rw [readS_addEvent, readS_writeS_ne _ hne, readS_addEvent, hheap j hj]
          by_cases hle : j ≤ i
          · rw [if_pos hle, if_pos (by omega)]
          · rw [if_neg hle, if_neg (by omega)]
      obtain ⟨h1, h2, h3, h4, h5, h6⟩ :=
        ih (i + 1) _ (pis ++ [(chainOut eng0 sk ka ik vk mode inits i).P.transpose])
          (by omega) hheap'
      refine ⟨by rw [key]; exact h1, ?_, ?_, ?_, ?_, ?_⟩
      · rw [key, h2]
        simp [chainPis]
      · intro j hj
        rw [key]
        exact h3 j hj
      · intro b hb
        rw [key]
        have hbne : b ≠ L + (i + 1) := by omega
        rw [h4 b hb, readS_addEvent, readS_writeS_ne _ hbne, readS_addEvent]
      · rw [key, h5]
        simp
      · rw [key, h6]
        simp [chainEvents]

/-- Characterisation of a successful `morpho_align` call with a never-failing
engine: the result is the freshly copied address block and the closed-form
`pis`; the copies' final states are the closed-form chain; no pre-existing heap
cell changes; the event trace is the closed-form pair trace. -/
theorem morpho_align_spec
    (eng0 : String → SampleData C T V → SampleData C T V → EngineOut C T V R)
    (sk ka : String) (ik vk : Option String) (mode : String)
    (modelAddrs : List Nat) (st0 : Store C T V) (hn : 1 ≤ modelAddrs.length) :
    (morpho_align (okE eng0 : Engine C T V R E) sk ka ik vk mode modelAddrs st0).2
      = Except.ok (addrSeq st0.next modelAddrs.length,
          chainPis eng0 sk ka ik vk mode (modelAddrs.map (readS st0)) 0
            (modelAddrs.length - 1))
    ∧ (∀ j, j < modelAddrs.length →
        readS (morpho_align (okE eng0 : Engine C T V R E) sk ka ik vk mode
            modelAddrs st0).1 (st0.next + j)
          = chainSample eng0 sk ka ik vk mode (modelAddrs.map (readS st0)) j)
    ∧ (∀ b, b < st0.next →
        readS (morpho_align (okE eng0 : Engine C T V R E) sk ka ik vk mode
          modelAddrs st0).1 b = readS st0 b)
    ∧ (morpho_align (okE eng0 : Engine C T V R E) sk ka ik vk mode
        modelAddrs st0).1.events
        = st0.events ++ chainEvents eng0 sk ka ik vk mode
            (modelAddrs.map (readS st0)) 0 (modelAddrs.length - 1)
    ∧ (morpho_align (okE eng0 : Engine C T V R E) sk ka ik vk mode
        modelAddrs st0).1.next = st0.next + modelAddrs.length := by
  have hlen : (modelAddrs.map (readS st0)).length = modelAddrs.length := by simp
  have haddrs : (copyAll st0 modelAddrs).2 = addrSeq st0.next modelAddrs.length := by
    rw [copyAll, allocAll_addrs, hlen]
  have hnext1 : (copyAll st0 modelAddrs).1.next = st0.next + modelAddrs.length := by
    rw [copyAll, allocAll_next, hlen]
  have hev1 : (copyAll st0 modelAddrs).1.events = st0.events := allocAll_events _ _
  have hread1new : ∀ j, j < modelAddrs.length →
      readS (copyAll st0 modelAddrs).1 (st0.next + j)
        = (modelAddrs.map (readS st0)).getD j default := by
    intro j hj
    exact allocAll_read_new st0 _ (by rwa [hlen])
  have hread1old : ∀ b, b < st0.next →
      readS (copyAll st0 modelAddrs).1 b = readS st0 b := fun b hb =>
    allocAll_read_old st0 _ hb
  have hlen2 : (copyAll st0 modelAddrs).2.length = modelAddrs.length := by
    rw [haddrs, addrSeq_length]
  have hread2new : ∀ j, j < modelAddrs.length →
      readS (initAll (copyAll st0 modelAddrs).1 (copyAll st0 modelAddrs).2 sk ka)
          (st0.next + j)
        = initSample sk ka (modelAddrs.map (readS st0)) j := by
    intro j hj
    rw [haddrs, initAll_read_addrSeq _ _ _ hj, hread1new j hj]
    rfl
  have hread2old : ∀ b, b < st0.next →
      readS (initAll (copyAll st0 modelAddrs).1 (copyAll st0 modelAddrs).2 sk ka) b
        = readS st0 b := by
    intro b hb
    rw [haddrs, initAll_read_out _ _ _ _ ?_, hread1old b hb]
    intro a ha
    have := mem_addrSeq.mp ha
    omega
  have hheap0 : ∀ j, j < (modelAddrs.map (readS st0)).length →
      readS (initAll (copyAll st0 modelAddrs).1 (copyAll st0 modelAddrs).2 sk ka)
          (st0.next + j)
        = (if j ≤ 0 then chainSample eng0 sk ka ik vk mode (modelAddrs.map (readS st0)) j
           else initSample sk ka (modelAddrs.map (readS st0)) j) := by
    intro j hj
    rw [hlen] at hj
    rcases Nat.eq_zero_or_pos j with hj0 | hj0
    · subst hj0
      rw [if_pos (by omega), hread2new 0 (by omega)]
      rfl
    · rw [if_neg (by omega), hread2new j hj]
  obtain ⟨h1, h2, h3, h4, h5, h6⟩ :=
    @alignPairs_run C T V R E _ eng0 sk ka ik vk mode (modelAddrs.map (readS st0))
      st0.next ((modelAddrs.map (readS st0)).length - 1) 0
      (initAll (copyAll st0 modelAddrs).1 (copyAll st0 modelAddrs).2 sk ka) []
      (by rw [hlen]; omega) hheap0
  rw [hlen] at h1 h2 h3 h4 h5 h6
  rw [← haddrs] at h1 h2 h3 h4 h5 h6
  have hun : morpho_align (okE eng0 : Engine C T V R E) sk ka ik vk mode modelAddrs st0
      = ((alignPairs (okE eng0 : Engine C T V R E) ka ik vk mode
            (copyAll st0 modelAddrs).2 (modelAddrs.length - 1) 0
            (initAll (copyAll st0 modelAddrs).1 (copyAll st0 modelAddrs).2 sk ka) []).1,
         Except.ok ((copyAll st0 modelAddrs).2,
           (alignPairs (okE eng0 : Engine C T V R E) ka ik vk mode
            (copyAll st0 modelAddrs).2 (modelAddrs.length - 1) 0
            (initAll (copyAll st0 modelAddrs).1 (copyAll st0 modelAddrs).2 sk ka) []).2.1)) := by
    rw [morpho_align]
    simp only [hlen2]
    rw [h1]
  refine ⟨?_, ?_, ?_, ?_, ?_⟩
  · simp only [hun]
    rw [h2, haddrs]
    simp
  · intro j hj
    simp only [hun]
    exact h3 j hj
  · intro b hb
    simp only [hun]
    rw [h4 b (Or.inl (by omega)), hread2old b hb]
  · simp only [hun]
    rw [h6, initAll_events, hev1]
  · simp only [hun]
    rw [h5, initAll_next, hnext1]

/-- The `morpho_align` loop only ever writes inside the freshly copied address
block, whatever the engine does (including failing at any pair). -/
theorem alignPairs_frame (engine : Engine C T V R E) (ka : String)
    (ik vk : Option String) (mode : String) (L n : Nat) :
    ∀ (k i : Nat) (st : Store C T V) (pis : List (List (List R))),
      i + k ≤ n - 1 →
      ∀ b, (b < L ∨ L + n ≤ b) →
        readS (alignPairs engine ka ik vk mode (addrSeq L n) k i st pis).1 b
          = readS st b := by
  intro k
  induction k with
  | zero => intro i st pis _ b _; rfl
  | succ k ih =>
      intro i st pis hbound b hb
      have hi1lt : i + 1 < n := by omega
      have hgb : (addrSeq L n).getD (i + 1) 0 = L + (i + 1) := addrSeq_getD L hi1lt
      have hbne : b ≠ L + (i + 1) := by omega
      rw [alignPairs]
      rcases hstep : stepPair engine ka ik vk mode (addrSeq L n) i st with ⟨st', r⟩
      have hfr : readS st' b = readS st b := by
        rw [stepPair] at hstep
        rcases heng : engine ka (readS st ((addrSeq L n).getD (i + 1) 0))
            (readS st ((addrSeq L n).getD i 0)) with e | out
        · rw [heng] at hstep
          cases hstep
          rfl
        · rw [heng] at hstep
          cases hstep
          rw [hgb, readS_addEvent, readS_writeS_ne _ hbne, readS_addEvent]
      rcases r with e | P
      · simpa using hfr
      · simp only []
        rw [ih (i + 1) st' (pis ++ [P]) (by omega) b hb, hfr]

/-- The store component of a `morpho_align` result is the loop's final store,
in the success case and in the error case alike. -/
theorem morpho_align_store (engine : Engine C T V R E) (sk ka : String)
    (ik vk : Option String) (mode : String) (modelAddrs : List Nat)
    (st0 : Store C T V) :
    (morpho_align engine sk ka ik vk mode modelAddrs st0).1
      = (alignPairs engine ka ik vk mode (copyAll st0 modelAddrs).2
          ((copyAll st0 modelAddrs).2.length - 1) 0
          (initAll (copyAll st0 modelAddrs).1 (copyAll st0 modelAddrs).2 sk ka) []).1 := by
  rw [morpho_align]
  rcases h : (alignPairs engine ka ik vk mode (copyAll st0 modelAddrs).2
      ((copyAll st0 modelAddrs).2.length - 1) 0
      (initAll (copyAll st0 modelAddrs).1 (copyAll st0 modelAddrs).2 sk ka) []).2.2 with _ | e
  · simp [h]
  · simp [h]

/-- Whatever the engine does, a `morpho_align` call leaves every pre-existing
heap cell unchanged: all its writes land on the fresh copies. -/
theorem morpho_align_frame (engine : Engine C T V R E) (sk ka : String)
    (ik vk : Option String) (mode : String) (modelAddrs : List Nat)
    (st0 : Store C T V) :
    ∀ b, b < st0.next →
      readS (morpho_align engine sk ka ik vk mode modelAddrs st0).1 b
        = readS st0 b := by
  intro b hb
  have hlen : (modelAddrs.map (readS st0)).length = modelAddrs.length := by simp
  have haddrs : (copyAll st0 modelAddrs).2 = addrSeq st0.next modelAddrs.length := by
    rw [copyAll, allocAll_addrs, hlen]
  have hlen2 : (copyAll st0 modelAddrs).2.length = modelAddrs.length := by
    rw [haddrs, addrSeq_length]
  rw [morpho_align_store, hlen2, haddrs]
  rw [alignPairs_frame engine ka ik vk mode st0.next modelAddrs.length
      (modelAddrs.length - 1) 0 _ [] (by omega) b (Or.inl (by omega))]
  rw [initAll_read_out _ _ _ _ ?_, copyAll, allocAll_read_old _ _ hb]
  intro a ha
  have := mem_addrSeq.mp ha
  omega

/-- When the engine fails at pair `j` after succeeding (with the outputs of the
total engine `eng0`) on all earlier pairs, the `morpho_align` loop stops with
that error. -/
theorem alignPairs_error (engine : Engine C T V R E)
    (eng0 : String → SampleData C T V → SampleData C T V → EngineOut C T V R)
    (sk ka : String) (ik vk : Option String) (mode : String)
    (inits : List (SampleData C T V)) (L : Nat) (j : Nat) (e : E) :
    ∀ (k i : Nat) (st : Store C T V) (pis : List (List (List R))),
      i + k + 1 = inits.length →
      (∀ j', j' < inits.length → readS st (L + j') =
        (if j' ≤ i then chainSample eng0 sk ka ik vk mode inits j'
         else initSample sk ka inits j')) →
      i ≤ j → j < i + k →
      (∀ m, i ≤ m → m < j →
        engine ka (initSample sk ka inits (m + 1))
            (chainSample eng0 sk ka ik vk mode inits m)
          = Except.ok (eng0 ka (initSample sk ka inits (m + 1))
              (chainSample eng0 sk ka ik vk mode inits m))) →
      engine ka (initSample sk ka inits (j + 1))
          (chainSample eng0 sk ka ik vk mode inits j) = Except.error e →
      (alignPairs engine ka ik vk mode (addrSeq L inits.length) k i st pis).2.2
        = some e := by
  intro k
  induction k with
  | zero => intro i st pis _ _ hij hjk _ _; omega
  | succ k ih =>
      intro i st pis hbound hheap hij hjk hagree herr
      have hilt : i < inits.length := by omega
      have hi1lt : i + 1 < inits.length := by omega
      have hga : (addrSeq L inits.length).getD i 0 = L + i := addrSeq_getD L hilt
      have hgb : (addrSeq L inits.length).getD (i + 1) 0 = L + (i + 1) :=
        addrSeq_getD L hi1lt
      have hra : readS st (L + i) = chainSample eng0 sk ka ik vk mode inits i := by
        have := hheap i hilt
        rwa [if_pos (by omega)] at this
      have hrb : readS st (L + (i + 1)) = initSample sk ka inits (i + 1) := by
        have := hheap (i + 1) hi1lt
        rwa [if_neg (by omega)] at this
      by_cases hieq : i = j
      · subst hieq
        have hstep : stepPair engine ka ik vk mode (addrSeq L inits.length) i st
            = (addEvent st (Event.engineCall ka (initSample sk ka inits (i + 1))
                (chainSample eng0 sk ka ik vk mode inits i)), Except.error e) := by
          simp only [stepPair, hga, hgb, hra, hrb, herr]
        rw [alignPairs, hstep]
      · have hagi := hagree i (by omega) (by omega)
        have hstep : stepPair engine ka ik vk mode (addrSeq L inits.length) i st =
            (addEvent (writeS (addEvent st (Event.engineCall ka
                (initSample sk ka inits (i + 1))
                (chainSample eng0 sk ka ik vk mode inits i))) (L + (i + 1))
                (chainSample eng0 sk ka ik vk mode inits (i + 1))) Event.emptyCache,
             Except.ok (chainOut eng0 sk ka ik vk mode inits i).P.transpose) := by
          simp only [stepPair, hga, hgb, hra, hrb, hagi, chainOut]
          simp only [chainSample]
        rw [alignPairs, hstep]
        have hheap' : ∀ j', j' < inits.length →
            readS (addEvent (writeS (addEvent st (Event.engineCall ka
                (initSample sk ka inits (i + 1))
                (chainSample eng0 sk ka ik vk mode inits i))) (L + (i + 1))
                (chainSample eng0 sk ka ik vk mode inits (i + 1))) Event.emptyCache)
              (L + j')
            = (if j' ≤ i + 1 then chainSample eng0 sk ka ik vk mode inits j'
               else initSample sk ka inits j') := by
          intro j' hj'
          by_cases hji : j' = i + 1
          · subst hji
            rw [if_pos (by omega)]
            simp
          · have hne : L + j' ≠ L + (i + 1) := by omega
            rw [readS_addEvent, readS_writeS_ne _ hne, readS_addEvent, hheap j' hj']
            by_cases hle : j' ≤ i
            · rw [if_pos hle, if_pos (by omega)]
            · rw [if_neg hle, if_neg (by omega)]
        exact ih (i + 1) _ _ (by omega) hheap' (by omega) (by omega)
          (fun m hm1 hm2 => hagree m (by omega) hm2) herr

/-- A `morpho_align` call whose engine fails at pair `j`, after succeeding with
the outputs of the total engine `eng0` on the earlier pairs, returns exactly
that error (and, by `morpho_align_frame`, leaves every input cell unchanged). -/
theorem morpho_align_error (engine : Engine C T V R E)
    (eng0 : String → SampleData C T V → SampleData C T V → EngineOut C T V R)
    (sk ka : String) (ik vk : Option String) (mode : String)
    (modelAddrs : List Nat) (st0 : Store C T V) (j : Nat) (e : E)
    (hj : j + 1 < modelAddrs.length)
    (hagree : ∀ m, m < j →
      engine ka (initSample sk ka (modelAddrs.map (readS st0)) (m + 1))
          (chainSample eng0 sk ka ik vk mode (modelAddrs.map (readS st0)) m)
        = Except.ok (eng0 ka (initSample sk ka (modelAddrs.map (readS st0)) (m + 1))
            (chainSample eng0 sk ka ik vk mode (modelAddrs.map (readS st0)) m)))
    (herr : engine ka (initSample sk ka (modelAddrs.map (readS st0)) (j + 1))
        (chainSample eng0 sk ka ik vk mode (modelAddrs.map (readS st0)) j)
      = Except.error e) :
    (morpho_align engine sk ka ik vk mode modelAddrs st0).2 = Except.error e := by
  have hlen : (modelAddrs.map (readS st0)).length = modelAddrs.length := by simp
  have haddrs : (copyAll st0 modelAddrs).2 = addrSeq st0.next modelAddrs.length := by
    rw [copyAll, allocAll_addrs, hlen]
  have hlen2 : (copyAll st0 modelAddrs).2.length = modelAddrs.length := by
    rw [haddrs, addrSeq_length]
  have hread1new : ∀ j', j' < modelAddrs.length →
      readS (copyAll st0 modelAddrs).1 (st0.next + j')
        = (modelAddrs.map (readS st0)).getD j' default := by
    intro j' hj'
    exact allocAll_read_new st0 _ (by rwa [hlen])
  have hread2new : ∀ j', j' < modelAddrs.length →
      readS (initAll (copyAll st0 modelAddrs).1 (copyAll st0 modelAddrs).2 sk ka)
          (st0.next + j')
        = initSample sk ka (modelAddrs.map (readS st0)) j' := by
    intro j' hj'
    rw [haddrs, initAll_read_addrSeq _ _ _ hj', hread1new j' hj']
    rfl
  have hheap0 : ∀ j', j' < (modelAddrs.map (readS st0)).length →
      readS (initAll (copyAll st0 modelAddrs).1 (copyAll st0 modelAddrs).2 sk ka)
          (st0.next + j')
        = (if j' ≤ 0 then chainSample eng0 sk ka ik vk mode (modelAddrs.map (readS st0)) j'
           else initSample sk ka (modelAddrs.map (readS st0)) j') := by
    intro j' hj'
    rw [hlen] at hj'
    rcases Nat.eq_zero_or_pos j' with hj0 | hj0
    · subst hj0
      rw [if_pos (by omega), hread2new 0 (by omega)]
      rfl
    · rw [if_neg (by omega), hread2new j' hj']
  have herrl := alignPairs_error engine eng0 sk ka ik vk mode
    (modelAddrs.map (readS st0)) st0.next j e ((modelAddrs.map (readS st0)).length - 1)
    0 (initAll (copyAll st0 modelAddrs).1 (copyAll st0 modelAddrs).2 sk ka) []
    (by omega) hheap0 (by omega) (by omega)
    (fun m _ hm2 => hagree m hm2) herr
  rw [hlen] at herrl
  rw [← haddrs] at herrl
  rw [morpho_align]
  simp only [hlen2]
  rw [herrl]

/-- Observable characterisation of one successful `morpho_align_ref` pair: the
later landmark sample receives the same composite write as a `morpho_align`
pair, the later full-resolution sample receives the `uns` writes followed by the
evaluator-derived coordinate writes, nothing else changes, and the pair records
its engine call and its evaluator call. -/
theorem stepPairRef_ok (engine : Engine C T V R E) (ba : Evaluator C V)
    (ka : String) (ik vk : Option String) (mode : String)
    (refAddrs fullAddrs : List Nat) (i : Nat) (st : Store C T V)
    (out : EngineOut C T V R)
    (heng : engine ka (readS st (refAddrs.getD (i + 1) 0))
        (readS st (refAddrs.getD i 0)) = Except.ok out)
    (hne : fullAddrs.getD (i + 1) 0 ≠ refAddrs.getD (i + 1) 0) :
    (stepPairRef engine ba ka ik vk mode refAddrs fullAddrs i st).2 = Except.ok out.P
    ∧ readS (stepPairRef engine ba ka ik vk mode refAddrs fullAddrs i st).1
        (refAddrs.getD (i + 1) 0)
      = pairWrite ka ik vk mode (readS st (refAddrs.getD (i + 1) 0)) out
    ∧ readS (stepPairRef engine ba ka ik vk mode refAddrs fullAddrs i st).1
        (fullAddrs.getD (i + 1) 0)
      = fullWrite ka mode (unsWrite ik vk (readS st (fullAddrs.getD (i + 1) 0)) out)
          (ba out.vecfld ((dictGet (unsWrite ik vk
              (readS st (fullAddrs.getD (i + 1) 0)) out).obsm ka).getD default)).1
          (ba out.vecfld ((dictGet (unsWrite ik vk
              (readS st (fullAddrs.getD (i + 1) 0)) out).obsm ka).getD default)).2.2
    ∧ (∀ b, b ≠ refAddrs.getD (i + 1) 0 → b ≠ fullAddrs.getD (i + 1) 0 →
        readS (stepPairRef engine ba ka ik vk mode refAddrs fullAddrs i st).1 b
          = readS st b)
    ∧ (stepPairRef engine ba ka ik vk mode refAddrs fullAddrs i st).1.next = st.next
    ∧ (stepPairRef engine ba ka ik vk mode refAddrs fullAddrs i st).1.events
      = st.events ++ [Event.engineCall ka (readS st (refAddrs.getD (i + 1) 0))
            (readS st (refAddrs.getD i 0)),
          Event.evalCall out.vecfld ((dictGet (unsWrite ik vk
            (readS st (fullAddrs.getD (i + 1) 0)) out).obsm ka).getD default)] := by
  have hne' : refAddrs.getD (i + 1) 0 ≠ fullAddrs.getD (i + 1) 0 := Ne.symm hne
  have hne2 := hne
  have hne2' := hne'
  simp only [List.getD_eq_getElem?_getD] at hne2 hne2'
  simp only [stepPairRef, heng]
  refine ⟨by simp, ?_, ?_, ?_, by simp, ?_⟩
  · simp [readS_writeS, hne2', pairWrite]
  · simp [readS_writeS, hne2, hne2']
  · intro b hbr hbf
    have hbr2 := hbr
    have hbf2 := hbf
    simp only [List.getD_eq_getElem?_getD] at hbr2 hbf2
    simp [readS_writeS, hbr2, hbf2]
  · simp [readS_writeS, hne2, hne2']

/-- Characterisation of a successful `morpho_align_ref` loop: the landmark block
ends in the `refChain` states, the full-resolution block ends in the `fullFinal`
states, both returned matrix lists are the closed-form `refPis`, no cell outside
the two blocks is touched, and the event trace is the closed-form `refEvents`
(engine call then evaluator call per pair; no cache release). -/
theorem refPairs_run
    (eng0 : String → SampleData C T V → SampleData C T V → EngineOut C T V R)
    (ba : Evaluator C V) (sk ka : String) (ik vk : Option String) (mode : String)
    (inits initsR : List (SampleData C T V)) (Lf Lr : Nat)
    (hLL : Lf + inits.length ≤ Lr) :
    ∀ (k i : Nat) (st : Store C T V) (pis pisRef : List (List (List R))),
      i + k + 1 = inits.length →
      (∀ j, j < inits.length → readS st (Lf + j) =
        (if j ≤ i then fullFinal eng0 ba sk ka ik vk mode inits initsR j
         else initSample sk ka inits j)) →
      (∀ j, j < inits.length → readS st (Lr + j) =
        (if j ≤ i then refChain eng0 sk ka ik vk mode initsR j
         else initSample sk ka initsR j)) →
      (refPairs (okE eng0 : Engine C T V R E) ba ka ik vk mode
          (addrSeq Lr inits.length) (addrSeq Lf inits.length) k i st pis pisRef).2.2.2
        = none
      ∧ (refPairs (okE eng0 : Engine C T V R E) ba ka ik vk mode
          (addrSeq Lr inits.length) (addrSeq Lf inits.length) k i st pis pisRef).2.1
        = pis ++ refPis eng0 sk ka ik vk mode initsR i k
      ∧ (refPairs (okE eng0 : Engine C T V R E) ba ka ik vk mode
          (addrSeq Lr inits.length) (addrSeq Lf inits.length) k i st pis pisRef).2.2.1
        = pisRef ++ refPis eng0 sk ka ik vk mode initsR i k
      ∧ (∀ j, j < inits.length →
          readS (refPairs (okE eng0 : Engine C T V R E) ba ka ik vk mode
            (addrSeq Lr inits.length) (addrSeq Lf inits.length) k i st pis pisRef).1
            (Lf + j)
          = fullFinal eng0 ba sk ka ik vk mode inits initsR j)
      ∧ (∀ j, j < inits.length →
          readS (refPairs (okE eng0 : Engine C T V R E) ba ka ik vk mode
            (addrSeq Lr inits.length) (addrSeq Lf inits.length) k i st pis pisRef).1
            (Lr + j)
          = refChain eng0 sk ka ik vk mode initsR j)
      ∧ (∀ b, (b < Lf ∨ Lf + inits.length ≤ b) → (b < Lr ∨ Lr + inits.length ≤ b) →
          readS (refPairs (okE eng0 : Engine C T V R E) ba ka ik vk mode
            (addrSeq Lr inits.length) (addrSeq Lf inits.length) k i st pis pisRef).1 b
          = readS st b)
      ∧ (refPairs (okE eng0 : Engine C T V R E) ba ka ik vk mode
          (addrSeq Lr inits.length) (addrSeq Lf inits.length) k i st pis pisRef).1.next
        = st.next
      ∧ (refPairs (okE eng0 : Engine C T V R E) ba ka ik vk mode
          (addrSeq Lr inits.length) (addrSeq Lf inits.length) k i st pis pisRef).1.events
        = st.events ++ refEvents eng0 sk ka ik vk mode inits initsR i k := by
  intro k
  induction k with
  | zero =>
      intro i st pis pisRef hbound hheF hheR
      refine ⟨rfl, by simp [refPairs, refPis], by simp [refPairs, refPis],
        ?_, ?_, fun b _ _ => rfl, rfl, by simp [refPairs, refEvents]⟩
      · intro j hj
        have := hheF j hj
        rwa [if_pos (by omega)] at this
      · intro j hj
        have := hheR j hj
        rwa [if_pos (by omega)] at this
  | succ k ih =>
      intro i st pis pisRef hbound hheF hheR
      have hilt : i < inits.length := by omega
      have hi1lt : i + 1 < inits.length := by omega
      have hgaR : (addrSeq Lr inits.length).getD i 0 = Lr + i := addrSeq_getD Lr hilt
      have hgbR : (addrSeq Lr inits.length).getD (i + 1) 0 = Lr + (i + 1) :=
        addrSeq_getD Lr hi1lt
      have hgbF : (addrSeq Lf inits.length).getD (i + 1) 0 = Lf + (i + 1) :=
        addrSeq_getD Lf hi1lt
      have hrAr : readS st (Lr + i) = refChain eng0 sk ka ik vk mode initsR i := by
        have := hheR i hilt
        rwa [if_pos (by omega)] at this
      have hrBr : readS st (Lr + (i + 1)) = initSample sk ka initsR (i + 1) := by
        have := hheR (i + 1) hi1lt
        rwa [if_neg (by omega)] at this
      have hrBf : readS st (Lf + (i + 1)) = initSample sk ka inits (i + 1) := by
        have := hheF (i + 1) hi1lt
        rwa [if_neg (by omega)] at this
      have heng : (okE eng0 : Engine C T V R E) ka
          (readS st ((addrSeq Lr inits.length).getD (i + 1) 0))
          (readS st ((addrSeq Lr inits.length).getD i 0))
          = Except.ok (refOut eng0 sk ka ik vk mode initsR i) := by
        rw [hgbR, hgaR, hrBr, hrAr]
        rfl
      have hne : (addrSeq Lf inits.length).getD (i + 1) 0
          ≠ (addrSeq Lr inits.length).getD (i + 1) 0 := by
        rw [hgbF, hgbR]
        omega
      obtain ⟨s1, s2, s3, s4, s5, s6⟩ :=
        stepPairRef_ok (okE eng0 : Engine C T V R E) ba ka ik vk mode
          (addrSeq Lr inits.length) (addrSeq Lf inits.length) i st
          (refOut eng0 sk ka ik vk mode initsR i) heng hne
      have hpair : stepPairRef (okE eng0 : Engine C T V R E) ba ka ik vk mode
          (addrSeq Lr inits.length) (addrSeq Lf inits.length) i st
          = ((stepPairRef (okE eng0 : Engine C T V R E) ba ka ik vk mode
              (addrSeq Lr inits.length) (addrSeq Lf inits.length) i st).1,
             Except.ok (refOut eng0 sk ka ik vk mode initsR i).P) := by
        rw [← s1]
      have key : refPairs (okE eng0 : Engine C T V R E) ba ka ik vk mode
          (addrSeq Lr inits.length) (addrSeq Lf inits.length) (k + 1) i st pis pisRef
          = refPairs (okE eng0 : Engine C T V R E) ba ka ik vk mode
            (addrSeq Lr inits.length) (addrSeq Lf inits.length) k (i + 1)
            (stepPairRef (okE eng0 : Engine C T V R E) ba ka ik vk mode
              (addrSeq Lr inits.length) (addrSeq Lf inits.length) i st).1
            (pis ++ [(refOut eng0 sk ka ik vk mode initsR i).P])
            (pisRef ++ [(refOut eng0 sk ka ik vk mode initsR i).P]) := by
        rw [refPairs, hpair]
      have hrefNew : readS (stepPairRef (okE eng0 : Engine C T V R E) ba ka ik vk mode
          (addrSeq Lr inits.length) (addrSeq Lf inits.length) i st).1 (Lr + (i + 1))
          = refChain eng0 sk ka ik vk mode initsR (i + 1) := by
        rw [← hgbR, s2, hgbR, hrBr]
        simp only [refChain, chainSample, refOut, chainOut]
      have hfullNew : readS (stepPairRef (okE eng0 : Engine C T V R E) ba ka ik vk mode
          (addrSeq Lr inits.length) (addrSeq Lf inits.length) i st).1 (Lf + (i + 1))
          = fullFinal eng0 ba sk ka ik vk mode inits initsR (i + 1) := by
        rw [← hgbF, s3, hgbF, hrBf]
        simp only [fullFinal, fullQuery]
      have hheF' : ∀ j, j < inits.length →
          readS (stepPairRef (okE eng0 : Engine C T V R E) ba ka ik vk mode
            (addrSeq Lr inits.length) (addrSeq Lf inits.length) i st).1 (Lf + j)
          = (if j ≤ i + 1 then fullFinal eng0 ba sk ka ik vk mode inits initsR j
             else initSample sk ka inits j) := by
        intro j hj
        by_cases hji : j = i + 1
        · subst hji
          rw [if_pos (by omega)]
          exact hfullNew
        · rw [s4 (Lf + j) (by rw [hgbR]; omega) (by rw [hgbF]; omega), hheF j hj]
          by_cases hle : j ≤ i
          · rw [if_pos hle, if_pos (by omega)]
          · rw [if_neg hle, if_neg (by omega)]
      have hheR' : ∀ j, j < inits.length →
          readS (stepPairRef (okE eng0 : Engine C T V R E) ba ka ik vk mode
            (addrSeq Lr inits.length) (addrSeq Lf inits.length) i st).1 (Lr + j)
          = (if j ≤ i + 1 then refChain eng0 sk ka ik vk mode initsR j
             else initSample sk ka initsR j) := by
        intro j hj
        by_cases hji : j = i + 1
        · subst hji
          rw [if_pos (by omega)]
          exact hrefNew
        · rw [s4 (Lr + j) (by rw [hgbR]; omega) (by rw [hgbF]; omega), hheR j hj]
          by_cases hle : j ≤ i
          · rw [if_pos hle, if_pos (by omega)]
          · rw [if_neg hle, if_neg (by omega)]
      obtain ⟨h1, h2, h3, h4, h5, h6, h7, h8⟩ :=
        ih (i + 1) _ (pis ++ [(refOut eng0 sk ka ik vk mode initsR i).P])
          (pisRef ++ [(refOut eng0 sk ka ik vk mode initsR i).P])
          (by omega) hheF' hheR'
      refine ⟨by rw [key]; exact h1, ?_, ?_, ?_, ?_, ?_, ?_, ?_⟩
      · rw [key, h2]
        simp [refPis]
      · rw [key, h3]
        simp [refPis]
      · intro j hj
        rw [key]
        exact h4 j hj
      · intro j hj
        rw [key]
        exact h5 j hj
      · intro b hbf hbr
        rw [key, h6 b hbf hbr,
          s4 b (by rw [hgbR]; omega) (by rw [hgbF]; omega)]
      · rw [key, h7, s5]
      · rw [key, h8, s6, hgbR, hgaR, hgbF, hrBr, hrAr, hrBf]
        simp [refEvents, refChain, refOut, chainOut, fullQuery]

/-- A `morpho_align_ref` call with no supplied reference models equals the same
call on the store extended with the sampling copies and their downsampled
landmark objects, with those landmark addresses supplied as the reference. -/
theorem morpho_align_ref_none_eq (engine : Engine C T V R E) (ba : Evaluator C V)
    (ds : Downsampler C T V) (sk ka : String) (ik vk : Option String)
    (mode : String) (modelAddrs : List Nat) (st0 : Store C T V) :
    morpho_align_ref engine ba ds sk ka ik vk mode modelAddrs none st0
      = morpho_align_ref engine ba ds sk ka ik vk mode modelAddrs
          (some (allocAll (copyAll st0 modelAddrs).1
            ((copyAll st0 modelAddrs).2.map
              (fun a => ds (readS (copyAll st0 modelAddrs).1 a)))).2)
          (allocAll (copyAll st0 modelAddrs).1
            ((copyAll st0 modelAddrs).2.map
              (fun a => ds (readS (copyAll st0 modelAddrs).1 a)))).1 := rfl

/-- Characterisation of a successful `morpho_align_ref` call with supplied
reference models and a never-failing engine: it returns the fresh
full-resolution address block, the fresh landmark address block, and two
identical untransposed `pis` lists; the landmark copies end in the `refChain`
states and the full-resolution copies in the evaluator-derived `fullFinal`
states; no pre-existing cell changes; the events are the per-pair engine and
evaluator calls, with no cache release. -/
theorem morpho_align_ref_spec
    (eng0 : String → SampleData C T V → SampleData C T V → EngineOut C T V R)
    (ba : Evaluator C V) (ds : Downsampler C T V) (sk ka : String)
    (ik vk : Option String) (mode : String) (modelAddrs ra : List Nat)
    (st1 : Store C T V) (hn : 1 ≤ modelAddrs.length)
    (hlenR : ra.length = modelAddrs.length)
    (hvalM : ∀ a ∈ modelAddrs, a < st1.next)
    (hvalR : ∀ a ∈ ra, a < st1.next) :
    (morpho_align_ref (okE eng0 : Engine C T V R E) ba ds sk ka ik vk mode
        modelAddrs (some ra) st1).2
      = Except.ok (addrSeq st1.next modelAddrs.length,
          addrSeq (st1.next + modelAddrs.length) modelAddrs.length,
          refPis eng0 sk ka ik vk mode (ra.map (readS st1)) 0 (modelAddrs.length - 1),
          refPis eng0 sk ka ik vk mode (ra.map (readS st1)) 0 (modelAddrs.length - 1))
    ∧ (∀ j, j < modelAddrs.length →
        readS (morpho_align_ref (okE eng0 : Engine C T V R E) ba ds sk ka ik vk mode
            modelAddrs (some ra) st1).1 (st1.next + j)
          = fullFinal eng0 ba sk ka ik vk mode (modelAddrs.map (readS st1))
              (ra.map (readS st1)) j)
    ∧ (∀ j, j < modelAddrs.length →
        readS (morpho_align_ref (okE eng0 : Engine C T V R E) ba ds sk ka ik vk mode
            modelAddrs (some ra) st1).1 (st1.next + modelAddrs.length + j)
          = refChain eng0 sk ka ik vk mode (ra.map (readS st1)) j)
    ∧ (∀ b, b < st1.next →
        readS (morpho_align_ref (okE eng0 : Engine C T V R E) ba ds sk ka ik vk mode
          modelAddrs (some ra) st1).1 b = readS st1 b)
    ∧ (morpho_align_ref (okE eng0 : Engine C T V R E) ba ds sk ka ik vk mode
        modelAddrs (some ra) st1).1.events
      = st1.events ++ refEvents eng0 sk ka ik vk mode (modelAddrs.map (readS st1))
          (ra.map (readS st1)) 0 (modelAddrs.length - 1)
    ∧ (morpho_align_ref (okE eng0 : Engine C T V R E) ba ds sk ka ik vk mode
        modelAddrs (some ra) st1).1.next
      = st1.next + modelAddrs.length + modelAddrs.length := by
  have hlenI : (modelAddrs.map (readS st1)).length = modelAddrs.length := by simp
  have hlenIR : (ra.map (readS st1)).length = modelAddrs.length := by
    simp [hlenR]
  have hB2 : (copyAll st1 modelAddrs).2 = addrSeq st1.next modelAddrs.length := by
    rw [copyAll, allocAll_addrs, hlenI]
  have hB2len : (copyAll st1 modelAddrs).2.length = modelAddrs.length := by
    rw [hB2, addrSeq_length]
  have hB1next : (copyAll st1 modelAddrs).1.next = st1.next + modelAddrs.length := by
    rw [copyAll, allocAll_next, hlenI]
  have hB1ev : (copyAll st1 modelAddrs).1.events = st1.events := allocAll_events _ _
  have hBnew : ∀ j, j < modelAddrs.length →
      readS (copyAll st1 modelAddrs).1 (st1.next + j)
        = (modelAddrs.map (readS st1)).getD j default := by
    intro j hj
    exact allocAll_read_new st1 _ (by rwa [hlenI])
  have hBold : ∀ b, b < st1.next →
      readS (copyAll st1 modelAddrs).1 b = readS st1 b := fun b hb =>
    allocAll_read_old st1 _ hb
  have hCnew : ∀ j, j < modelAddrs.length →
      readS (initAll (copyAll st1 modelAddrs).1 (copyAll st1 modelAddrs).2 sk ka)
          (st1.next + j)
        = initSample sk ka (modelAddrs.map (readS st1)) j := by
    intro j hj
    rw [hB2, initAll_read_addrSeq _ _ _ hj, hBnew j hj]
    rfl
  have hCout : ∀ b, b < st1.next →
      readS (initAll (copyAll st1 modelAddrs).1 (copyAll st1 modelAddrs).2 sk ka) b
        = readS st1 b := by
    intro b hb
    rw [hB2, initAll_read_out _ _ _ _ ?_, hBold b hb]
    intro a ha
    have := mem_addrSeq.mp ha
    omega
  have hCev : (initAll (copyAll st1 modelAddrs).1 (copyAll st1 modelAddrs).2 sk ka).events
      = st1.events := by
    rw [initAll_events, hB1ev]
  have hCnext : (initAll (copyAll st1 modelAddrs).1 (copyAll st1 modelAddrs).2 sk ka).next
      = st1.next + modelAddrs.length := by
    rw [initAll_next, hB1next]
  have hDvals : ra.map (readS (initAll (copyAll st1 modelAddrs).1
        (copyAll st1 modelAddrs).2 sk ka))
      = ra.map (readS st1) := by
    apply List.map_congr_left
    intro a ha
    exact hCout a (hvalR a ha)
  have hD2 : (copyAll (initAll (copyAll st1 modelAddrs).1 (copyAll st1 modelAddrs).2
        sk ka) ra).2
      = addrSeq (st1.next + modelAddrs.length) modelAddrs.length := by
    rw [copyAll, allocAll_addrs, hCnext]
    simp [hlenR]
  have hD2len : (copyAll (initAll (copyAll st1 modelAddrs).1 (copyAll st1 modelAddrs).2
        sk ka) ra).2.length = modelAddrs.length := by
    rw [hD2, addrSeq_length]
  have hD1next : (copyAll (initAll (copyAll st1 modelAddrs).1 (copyAll st1 modelAddrs).2
        sk ka) ra).1.next = st1.next + modelAddrs.length + modelAddrs.length := by
    rw [copyAll, allocAll_next, hCnext]
    simp [hlenR]
  have hD1ev : (copyAll (initAll (copyAll st1 modelAddrs).1 (copyAll st1 modelAddrs).2
        sk ka) ra).1.events = st1.events := by
    rw [copyAll, allocAll_events, hCev]
  have hDnew : ∀ j, j < modelAddrs.length →
      readS (copyAll (initAll (copyAll st1 modelAddrs).1 (copyAll st1 modelAddrs).2
          sk ka) ra).1 (st1.next + modelAddrs.length + j)
        = (ra.map (readS st1)).getD j default := by
    intro j hj
    rw [copyAll, ← hCnext, allocAll_read_new _ _ (by rw [List.length_map, hlenR]; exact hj)]
    rw [hDvals]
  have hDoldF : ∀ j, j < modelAddrs.length →
      readS (copyAll (initAll (copyAll st1 modelAddrs).1 (copyAll st1 modelAddrs).2
          sk ka) ra).1 (st1.next + j)
        = initSample sk ka (modelAddrs.map (readS st1)) j := by
    intro j hj
    rw [copyAll, allocAll_read_old _ _ (by rw [hCnext]; omega), hCnew j hj]
  have hDold : ∀ b, b < st1.next →
      readS (copyAll (initAll (copyAll st1 modelAddrs).1 (copyAll st1 modelAddrs).2
          sk ka) ra).1 b = readS st1 b := by
    intro b hb
    rw [copyAll, allocAll_read_old _ _ (by rw [hCnext]; omega), hCout b hb]
  have hEref : ∀ j, j < modelAddrs.length →
      readS (initAll (copyAll (initAll (copyAll st1 modelAddrs).1
          (copyAll st1 modelAddrs).2 sk ka) ra).1
          (copyAll (initAll (copyAll st1 modelAddrs).1
          (copyAll st1 modelAddrs).2 sk ka) ra).2 sk ka)
          (st1.next + modelAddrs.length + j)
        = initSample sk ka (ra.map (readS st1)) j := by
    intro j hj
    rw [hD2, initAll_read_addrSeq _ _ _ hj, hDnew j hj]
    rfl
  have hEfull : ∀ j, j < modelAddrs.length →
      readS (initAll (copyAll (initAll (copyAll st1 modelAddrs).1
          (copyAll st1 modelAddrs).2 sk ka) ra).1
          (copyAll (initAll (copyAll st1 modelAddrs).1
          (copyAll st1 modelAddrs).2 sk ka) ra).2 sk ka)
          (st1.next + j)
        = initSample sk ka (modelAddrs.map (readS st1)) j := by
    intro j hj
    rw [hD2, initAll_read_out _ _ _ _ ?_, hDoldF j hj]
    intro a ha
    have := mem_addrSeq.mp ha
    omega
  have hEold : ∀ b, b < st1.next →
      readS (initAll (copyAll (initAll (copyAll st1 modelAddrs).1
          (copyAll st1 modelAddrs).2 sk ka) ra).1
          (copyAll (initAll (copyAll st1 modelAddrs).1
          (copyAll st1 modelAddrs).2 sk ka) ra).2 sk ka) b
        = readS st1 b := by
    intro b hb
    rw [hD2, initAll_read_out _ _ _ _ ?_, hDold b hb]
    intro a ha
    have := mem_addrSeq.mp ha
    omega
  have hEev : (initAll (copyAll (initAll (copyAll st1 modelAddrs).1
      (copyAll st1 modelAddrs).2 sk ka) ra).1
      (copyAll (initAll (copyAll st1 modelAddrs).1
      (copyAll st1 modelAddrs).2 sk ka) ra).2 sk ka).events = st1.events := by
    rw [initAll_events, hD1ev]
  have hEnext : (initAll (copyAll (initAll (copyAll st1 modelAddrs).1
      (copyAll st1 modelAddrs).2 sk ka) ra).1
      (copyAll (initAll (copyAll st1 modelAddrs).1
      (copyAll st1 modelAddrs).2 sk ka) ra).2 sk ka).next
      = st1.next + modelAddrs.length + modelAddrs.length := by
    rw [initAll_next, hD1next]
  have hheF0 : ∀ j, j < (modelAddrs.map (readS st1)).length →
      readS (initAll (copyAll (initAll (copyAll st1 modelAddrs).1
          (copyAll st1 modelAddrs).2 sk ka) ra).1
          (copyAll (initAll (copyAll st1 modelAddrs).1
          (copyAll st1 modelAddrs).2 sk ka) ra).2 sk ka) (st1.next + j)
        = (if j ≤ 0 then fullFinal eng0 ba sk ka ik vk mode
            (modelAddrs.map (readS st1)) (ra.map (readS st1)) j
           else initSample sk ka (modelAddrs.map (readS st1)) j) := by
    intro j hj
    rw [hlenI] at hj
    rcases Nat.eq_zero_or_pos j with hj0 | hj0
    · subst hj0
      rw [if_pos (by omega), hEfull 0 (by omega)]
      rfl
    · rw [if_neg (by omega), hEfull j hj]
  have hheR0 : ∀ j, j < (modelAddrs.map (readS st1)).length →
      readS (initAll (copyAll (initAll (copyAll st1 modelAddrs).1
          (copyAll st1 modelAddrs).2 sk ka) ra).1
          (copyAll (initAll (copyAll st1 modelAddrs).1
          (copyAll st1 modelAddrs).2 sk ka) ra).2 sk ka)
          (st1.next + modelAddrs.length + j)
        = (if j ≤ 0 then refChain eng0 sk ka ik vk mode (ra.map (readS st1)) j
           else initSample sk ka (ra.map (readS st1)) j) := by
    intro j hj
    rw [hlenI] at hj
    rcases Nat.eq_zero_or_pos j with hj0 | hj0
    · subst hj0
      rw [if_pos (by omega), hEref 0 (by omega)]
      rfl
    · rw [if_neg (by omega), hEref j hj]
  obtain ⟨h1, h2, h3, h4, h5, h6, h7, h8⟩ :=
    @refPairs_run C T V R E _ eng0 ba sk ka ik vk mode (modelAddrs.map (readS st1))
      (ra.map (readS st1)) st1.next (st1.next + modelAddrs.length)
      (by rw [hlenI]) (modelAddrs.length - 1) 0
      (initAll (copyAll (initAll (copyAll st1 modelAddrs).1
          (copyAll st1 modelAddrs).2 sk ka) ra).1
          (copyAll (initAll (copyAll st1 modelAddrs).1
          (copyAll st1 modelAddrs).2 sk ka) ra).2 sk ka) [] []
      (by rw [hlenI]; omega) hheF0 hheR0
  rw [hlenI] at h1 h2 h3 h4 h5 h6 h7 h8
  rw [← hB2, ← hD2] at h1 h2 h3 h4 h5 h6 h7 h8
  have hun : morpho_align_ref (okE eng0 : Engine C T V R E) ba ds sk ka ik vk mode
      modelAddrs (some ra) st1
      = ((refPairs (okE eng0 : Engine C T V R E) ba ka ik vk mode
            (copyAll (initAll (copyAll st1 modelAddrs).1 (copyAll st1 modelAddrs).2
              sk ka) ra).2 (copyAll st1 modelAddrs).2 (modelAddrs.length - 1) 0
            (initAll (copyAll (initAll (copyAll st1 modelAddrs).1
              (copyAll st1 modelAddrs).2 sk ka) ra).1
              (copyAll (initAll (copyAll st1 modelAddrs).1
              (copyAll st1 modelAddrs).2 sk ka) ra).2 sk ka) [] []).1,
         Except.ok ((copyAll st1 modelAddrs).2,
           (copyAll (initAll (copyAll st1 modelAddrs).1 (copyAll st1 modelAddrs).2
              sk ka) ra).2,
           (refPairs (okE eng0 : Engine C T V R E) ba ka ik vk mode
            (copyAll (initAll (copyAll st1 modelAddrs).1 (copyAll st1 modelAddrs).2
              sk ka) ra).2 (copyAll st1 modelAddrs).2 (modelAddrs.length - 1) 0
            (initAll (copyAll (initAll (copyAll st1 modelAddrs).1
              (copyAll st1 modelAddrs).2 sk ka) ra).1
              (copyAll (initAll (copyAll st1 modelAddrs).1
              (copyAll st1 modelAddrs).2 sk ka) ra).2 sk ka) [] []).2.1,
           (refPairs (okE eng0 : Engine C T V R E) ba ka ik vk mode
            (copyAll (initAll (copyAll st1 modelAddrs).1 (copyAll st1 modelAddrs).2
              sk ka) ra).2 (copyAll st1 modelAddrs).2 (modelAddrs.length - 1) 0
            (initAll (copyAll (initAll (copyAll st1 modelAddrs).1
              (copyAll st1 modelAddrs).2 sk ka) ra).1
              (copyAll (initAll (copyAll st1 modelAddrs).1
              (copyAll st1 modelAddrs).2 sk ka) ra).2 sk ka) [] []).2.2.1)) := by
    rw [morpho_align_ref]
    simp only [hB2len]
    rw [h1]
  refine ⟨?_, ?_, ?_, ?_, ?_, ?_⟩
  · simp only [hun]
    rw [h2, h3, hD2, hB2]
    simp
  · intro j hj
    simp only [hun]
    exact h4 j hj
  · intro j hj
    simp only [hun]
    exact h5 j hj
  · intro b hb
    simp only [hun]
    rw [h6 b (Or.inl (by omega)) (Or.inl (by omega)), hEold b hb]
  · simp only [hun]
    rw [h8, hEev]
  · simp only [hun]
    rw [h7, hEnext]

/-- Characterisation of a successful `morpho_align_ref` call with no supplied
reference models: the reference sequence is derived by downsampling (a copy of)
every input sample, and the run then behaves as with a supplied reference whose
contents are exactly the downsampled samples. -/
theorem morpho_align_ref_spec_none
    (eng0 : String → SampleData C T V → SampleData C T V → EngineOut C T V R)
    (ba : Evaluator C V) (ds : Downsampler C T V) (sk ka : String)
    (ik vk : Option String) (mode : String) (modelAddrs : List Nat)
    (st0 : Store C T V) (hn : 1 ≤ modelAddrs.length)
    (hval : ∀ a ∈ modelAddrs, a < st0.next) :
    (morpho_align_ref (okE eng0 : Engine C T V R E) ba ds sk ka ik vk mode
        modelAddrs none st0).2
      = Except.ok (addrSeq (st0.next + modelAddrs.length + modelAddrs.length)
            modelAddrs.length,
          addrSeq (st0.next + modelAddrs.length + modelAddrs.length
            + modelAddrs.length) modelAddrs.length,
          refPis eng0 sk ka ik vk mode ((modelAddrs.map (readS st0)).map ds) 0
            (modelAddrs.length - 1),
          refPis eng0 sk ka ik vk mode ((modelAddrs.map (readS st0)).map ds) 0
            (modelAddrs.length - 1))
    ∧ (∀ j, j < modelAddrs.length →
        readS (morpho_align_ref (okE eng0 : Engine C T V R E) ba ds sk ka ik vk mode
            modelAddrs none st0).1
            (st0.next + modelAddrs.length + modelAddrs.length + j)
          = fullFinal eng0 ba sk ka ik vk mode (modelAddrs.map (readS st0))
              ((modelAddrs.map (readS st0)).map ds) j)
    ∧ (∀ j, j < modelAddrs.length →
        readS (morpho_align_ref (okE eng0 : Engine C T V R E) ba ds sk ka ik vk mode
            modelAddrs none st0).1
            (st0.next + modelAddrs.length + modelAddrs.length + modelAddrs.length + j)
          = refChain eng0 sk ka ik vk mode ((modelAddrs.map (readS st0)).map ds) j)
    ∧ (∀ b, b < st0.next →
        readS (morpho_align_ref (okE eng0 : Engine C T V R E) ba ds sk ka ik vk mode
          modelAddrs none st0).1 b = readS st0 b)
    ∧ (morpho_align_ref (okE eng0 : Engine C T V R E) ba ds sk ka ik vk mode
        modelAddrs none st0).1.events
      = st0.events ++ refEvents eng0 sk ka ik vk mode (modelAddrs.map (readS st0))
          ((modelAddrs.map (readS st0)).map ds) 0 (modelAddrs.length - 1) := by
  have hlenI : (modelAddrs.map (readS st0)).length = modelAddrs.length := by simp
  have hB2 : (copyAll st0 modelAddrs).2 = addrSeq st0.next modelAddrs.length := by
    rw [copyAll, allocAll_addrs, hlenI]
  have hB2len : (copyAll st0 modelAddrs).2.length = modelAddrs.length := by
    rw [hB2, addrSeq_length]
  have hS1next : (copyAll st0 modelAddrs).1.next = st0.next + modelAddrs.length := by
    rw [copyAll, allocAll_next, hlenI]
  have hS1ev : (copyAll st0 modelAddrs).1.events = st0.events := allocAll_events _ _
  have hS1old : ∀ b, b < st0.next →
      readS (copyAll st0 modelAddrs).1 b = readS st0 b := fun b hb =>
    allocAll_read_old st0 _ hb
  have hS1new : ∀ j, j < modelAddrs.length →
      readS (copyAll st0 modelAddrs).1 (st0.next + j)
        = (modelAddrs.map (readS st0)).getD j default := by
    intro j hj
    exact allocAll_read_new st0 _ (by rwa [hlenI])
  have hvslen : ((copyAll st0 modelAddrs).2.map
      (fun a => ds (readS (copyAll st0 modelAddrs).1 a))).length
      = modelAddrs.length := by
    rw [List.length_map, hB2len]
  have hst1next : (allocAll (copyAll st0 modelAddrs).1
      ((copyAll st0 modelAddrs).2.map
        (fun a => ds (readS (copyAll st0 modelAddrs).1 a)))).1.next
      = st0.next + modelAddrs.length + modelAddrs.length := by
    rw [allocAll_next, hvslen, hS1next]
  have hst1ev : (allocAll (copyAll st0 modelAddrs).1
      ((copyAll st0 modelAddrs).2.map
        (fun a => ds (readS (copyAll st0 modelAddrs).1 a)))).1.events
      = st0.events := by
    rw [allocAll_events, hS1ev]
  have hst1old : ∀ b, b < st0.next →
      readS (allocAll (copyAll st0 modelAddrs).1
        ((copyAll st0 modelAddrs).2.map
          (fun a => ds (readS (copyAll st0 modelAddrs).1 a)))).1 b
      = readS st0 b := by
    intro b hb
    rw [allocAll_read_old _ _ (by omega : b < (copyAll st0 modelAddrs).1.next),
      hS1old b hb]
  have hra : (allocAll (copyAll st0 modelAddrs).1
      ((copyAll st0 modelAddrs).2.map
        (fun a => ds (readS (copyAll st0 modelAddrs).1 a)))).2
      = addrSeq (st0.next + modelAddrs.length) modelAddrs.length := by
    rw [allocAll_addrs, hvslen, hS1next]
  have hralen : (allocAll (copyAll st0 modelAddrs).1
      ((copyAll st0 modelAddrs).2.map
        (fun a => ds (readS (copyAll st0 modelAddrs).1 a)))).2.length
      = modelAddrs.length := by
    rw [hra, addrSeq_length]
  have hmapM : modelAddrs.map (readS (allocAll (copyAll st0 modelAddrs).1
      ((copyAll st0 modelAddrs).2.map
        (fun a => ds (readS (copyAll st0 modelAddrs).1 a)))).1)
      = modelAddrs.map (readS st0) := by
    apply List.map_congr_left
    intro a ha
    exact hst1old a (hval a ha)
  have hmapR : (allocAll (copyAll st0 modelAddrs).1
      ((copyAll st0 modelAddrs).2.map
        (fun a => ds (readS (copyAll st0 modelAddrs).1 a)))).2.map
        (readS (allocAll (copyAll st0 modelAddrs).1
          ((copyAll st0 modelAddrs).2.map
            (fun a => ds (readS (copyAll st0 modelAddrs).1 a)))).1)
      = (modelAddrs.map (readS st0)).map ds := by
    apply list_eq_of_getD default
    · simp [hralen]
    · intro j hj1
      have hjn : j < modelAddrs.length := by
        rw [List.length_map, hralen] at hj1
        exact hj1
      have hgetra : (allocAll (copyAll st0 modelAddrs).1
          ((copyAll st0 modelAddrs).2.map
            (fun a => ds (readS (copyAll st0 modelAddrs).1 a)))).2.getD j 0
          = st0.next + modelAddrs.length + j := by
        rw [hra, addrSeq_getD _ hjn]
      rw [getD_map_of_lt _ _ (by rwa [hralen]) 0, hgetra]
      rw [getD_map_of_lt _ _ (by simpa using hjn) default]
      rw [← hS1next]
      rw [allocAll_read_new _ _ (by rwa [hvslen])]
      rw [getD_map_of_lt _ _ (by rwa [hB2len]) 0]
      rw [hB2, addrSeq_getD _ hjn, hS1new j hjn]
  obtain ⟨r1, r2, r3, r4, r5, r6⟩ :=
    @morpho_align_ref_spec C T V R E _ eng0 ba ds sk ka ik vk mode modelAddrs
      (allocAll (copyAll st0 modelAddrs).1
        ((copyAll st0 modelAddrs).2.map
          (fun a => ds (readS (copyAll st0 modelAddrs).1 a)))).2
      (allocAll (copyAll st0 modelAddrs).1
        ((copyAll st0 modelAddrs).2.map
          (fun a => ds (readS (copyAll st0 modelAddrs).1 a)))).1
      hn hralen
      (fun a ha => by rw [hst1next]; exact Nat.lt_of_lt_of_le (hval a ha) (by omega))
      (fun a ha => by
        rw [hst1next]
        rw [hra] at ha
        have := mem_addrSeq.mp ha
        omega)
  simp only [hmapM, hmapR, hst1next, hst1ev] at r1 r2 r3 r4 r5 r6
  rw [morpho_align_ref_none_eq]
  refine ⟨r1, r2, r3, ?_, r5⟩
  intro b hb
  rw [r4 b (by omega), hst1old b hb]

/-- One `morpho_align_ref` pair only ever writes the later landmark cell and the
later full-resolution cell, whatever the engine does. -/
theorem stepPairRef_frame (engine : Engine C T V R E) (ba : Evaluator C V)
    (ka : String) (ik vk : Option String) (mode : String)
    (refAddrs fullAddrs : List Nat) (i : Nat) (st : Store C T V) :
    ∀ b, b ≠ refAddrs.getD (i + 1) 0 → b ≠ fullAddrs.getD (i + 1) 0 →
      readS (stepPairRef engine ba ka ik vk mode refAddrs fullAddrs i st).1 b
        = readS st b := by
  intro b h1 h2
  rcases heng : engine ka (readS st (refAddrs.getD (i + 1) 0))
      (readS st (refAddrs.getD i 0)) with e | out
  all_goals
    have heng' := heng
    have h1' := h1
    have h2' := h2
    simp only [List.getD_eq_getElem?_getD] at heng' h1' h2'
    simp [stepPairRef, heng', readS_writeS, h1', h2']

/-- The `morpho_align_ref` loop only ever writes inside the two fresh address
blocks, whatever the engine does. -/
theorem refPairs_frame (engine : Engine C T V R E) (ba : Evaluator C V)
    (ka : String) (ik vk : Option String) (mode : String) (Lf Lr n nR : Nat)
    (hnR : n ≤ nR) :
    ∀ (k i : Nat) (st : Store C T V) (pis pisRef : List (List (List R))),
      i + k ≤ n - 1 →
      ∀ b, (b < Lf ∨ Lf + n ≤ b) → (b < Lr ∨ Lr + nR ≤ b) →
        readS (refPairs engine ba ka ik vk mode (addrSeq Lr nR) (addrSeq Lf n)
          k i st pis pisRef).1 b = readS st b := by
  intro k
  induction k with
  | zero => intro i st pis pisRef _ b _ _; rfl
  | succ k ih =>
      intro i st pis pisRef hbound b hbf hbr
      have hi1n : i + 1 < n := by omega
      have hgF : (addrSeq Lf n).getD (i + 1) 0 = Lf + (i + 1) := addrSeq_getD Lf hi1n
      have hgR : (addrSeq Lr nR).getD (i + 1) 0 = Lr + (i + 1) :=
        addrSeq_getD Lr (by omega)
      have hfr := stepPairRef_frame engine ba ka ik vk mode (addrSeq Lr nR)
        (addrSeq Lf n) i st b (by rw [hgR]; omega) (by rw [hgF]; omega)
      rcases hstep : stepPairRef engine ba ka ik vk mode (addrSeq Lr nR)
          (addrSeq Lf n) i st with ⟨st', r⟩
      rw [hstep] at hfr
      rcases r with e | P
      · rw [refPairs, hstep]
        exact hfr
      · rw [refPairs, hstep]
        simp only []
        rw [ih (i + 1) st' (pis ++ [P]) (pisRef ++ [P]) (by omega) b hbf hbr, hfr]

/-- The store component of a `morpho_align_ref` result with supplied reference
models is the loop's final store, in the success and error cases alike. -/
theorem morpho_align_ref_store (engine : Engine C T V R E) (ba : Evaluator C V)
    (ds : Downsampler C T V) (sk ka : String) (ik vk : Option String)
    (mode : String) (modelAddrs ra : List Nat) (st1 : Store C T V) :
    (morpho_align_ref engine ba ds sk ka ik vk mode modelAddrs (some ra) st1).1
      = (refPairs engine ba ka ik vk mode
          (copyAll (initAll (copyAll st1 modelAddrs).1 (copyAll st1 modelAddrs).2
            sk ka) ra).2
          (copyAll st1 modelAddrs).2 ((copyAll st1 modelAddrs).2.length - 1) 0
          (initAll (copyAll (initAll (copyAll st1 modelAddrs).1
            (copyAll st1 modelAddrs).2 sk ka) ra).1
            (copyAll (initAll (copyAll st1 modelAddrs).1
            (copyAll st1 modelAddrs).2 sk ka) ra).2 sk ka) [] []).1 := by
  rw [morpho_align_ref]
  rcases h : (refPairs engine ba ka ik vk mode
      (copyAll (initAll (copyAll st1 modelAddrs).1 (copyAll st1 modelAddrs).2
        sk ka) ra).2
      (copyAll st1 modelAddrs).2 ((copyAll st1 modelAddrs).2.length - 1) 0
      (initAll (copyAll (initAll (copyAll st1 modelAddrs).1
        (copyAll st1 modelAddrs).2 sk ka) ra).1
        (copyAll (initAll (copyAll st1 modelAddrs).1
        (copyAll st1 modelAddrs).2 sk ka) ra).2 sk ka) [] []).2.2.2 with _ | e
  · simp [h]
  · simp [h]

/-- Whatever the engine does, a `morpho_align_ref` call with supplied reference
models (at least as many as input models) leaves every pre-existing heap cell
unchanged. -/
theorem morpho_align_ref_frame_some (engine : Engine C T V R E)
    (ba : Evaluator C V) (ds : Downsampler C T V) (sk ka : String)
    (ik vk : Option String) (mode : String) (modelAddrs ra : List Nat)
    (st1 : Store C T V) (hran : modelAddrs.length ≤ ra.length) :
    ∀ b, b < st1.next →
      readS (morpho_align_ref engine ba ds sk ka ik vk mode modelAddrs
        (some ra) st1).1 b = readS st1 b := by
  intro b hb
  have hlenI : (modelAddrs.map (readS st1)).length = modelAddrs.length := by simp
  have hB2 : (copyAll st1 modelAddrs).2 = addrSeq st1.next modelAddrs.length := by
    rw [copyAll, allocAll_addrs, hlenI]
  have hB2len : (copyAll st1 modelAddrs).2.length = modelAddrs.length := by
    rw [hB2, addrSeq_length]
  have hCnext : (initAll (copyAll st1 modelAddrs).1 (copyAll st1 modelAddrs).2
      sk ka).next = st1.next + modelAddrs.length := by
    rw [initAll_next, copyAll, allocAll_next, hlenI]
  have hD2 : (copyAll (initAll (copyAll st1 modelAddrs).1 (copyAll st1 modelAddrs).2
        sk ka) ra).2
      = addrSeq (st1.next + modelAddrs.length) ra.length := by
    rw [copyAll, allocAll_addrs, hCnext]
    simp
  have hframe := refPairs_frame engine ba ka ik vk mode st1.next
    (st1.next + modelAddrs.length) modelAddrs.length ra.length hran
    (modelAddrs.length - 1) 0
    (initAll (copyAll (initAll (copyAll st1 modelAddrs).1
      (copyAll st1 modelAddrs).2 sk ka) ra).1
      (copyAll (initAll (copyAll st1 modelAddrs).1
      (copyAll st1 modelAddrs).2 sk ka) ra).2 sk ka) [] [] (by omega)
    b (Or.inl (by omega)) (Or.inl (by omega))
  rw [← hD2, ← hB2] at hframe
  rw [morpho_align_ref_store, hB2len, hframe]
  rw [initAll_read_out _ _ _ _ ?_]
  · rw [copyAll, allocAll_read_old _ _ (by rw [hCnext]; omega)]
    rw [initAll_read_out _ _ _ _ ?_]
    · rw [copyAll, allocAll_read_old _ _ hb]
    · intro a ha
      rw [hB2] at ha
      have := mem_addrSeq.mp ha
      omega
  · intro a ha
    rw [hD2] at ha
    have := mem_addrSeq.mp ha
    omega

/-- Whatever the engine does, and whether the reference models are supplied (at
least as many as input models) or derived by downsampling, a `morpho_align_ref`
call leaves every pre-existing heap cell unchanged. -/
theorem morpho_align_ref_frame (engine : Engine C T V R E) (ba : Evaluator C V)
    (ds : Downsampler C T V) (sk ka : String) (ik vk : Option String)
    (mode : String) (modelAddrs : List Nat) (refIn : Option (List Nat))
    (st0 : Store C T V)
    (hlen : ∀ ra, refIn = some ra → modelAddrs.length ≤ ra.length) :
    ∀ b, b < st0.next →
      readS (morpho_align_ref engine ba ds sk ka ik vk mode modelAddrs
        refIn st0).1 b = readS st0 b := by
  intro b hb
  rcases refIn with _ | ra
  · rw [morpho_align_ref_none_eq]
    have hralen : (allocAll (copyAll st0 modelAddrs).1
        ((copyAll st0 modelAddrs).2.map
          (fun a => ds (readS (copyAll st0 modelAddrs).1 a)))).2.length
        = modelAddrs.length := by
      rw [allocAll_addrs, addrSeq_length, List.length_map, copyAll,
        allocAll_addrs, addrSeq_length, List.length_map]
    have hst1next : st0.next ≤ (allocAll (copyAll st0 modelAddrs).1
        ((copyAll st0 modelAddrs).2.map
          (fun a => ds (readS (copyAll st0 modelAddrs).1 a)))).1.next := by
      rw [allocAll_next, copyAll, allocAll_next]
      omega
    rw [morpho_align_ref_frame_some engine ba ds sk ka ik vk mode modelAddrs _ _
      (by rw [hralen]) b (by omega)]
    rw [allocAll_read_old _ _ ?_, copyAll, allocAll_read_old _ _ hb]
    rw [copyAll, allocAll_next]
    omega
  · exact morpho_align_ref_frame_some engine ba ds sk ka ik vk mode modelAddrs ra
      st0 (hlen ra rfl) b hb

/-- Number of device-cache releases recorded in an event trace. -/
def cacheCount (es : List (Event C T V)) : Nat :=
  es.countP (fun e => match e with | Event.emptyCache => true | _ => false)

theorem cacheCount_append (es es' : List (Event C T V)) :
    cacheCount (es ++ es') = cacheCount es + cacheCount es' := by
  simp [cacheCount, List.countP_append]

/-- One `morpho_align_ref` pair records no cache release, whatever the engine
does. -/
theorem cacheCount_stepPairRef (engine : Engine C T V R E) (ba : Evaluator C V)
    (ka : String) (ik vk : Option String) (mode : String)
    (refAddrs fullAddrs : List Nat) (i : Nat) (st : Store C T V) :
    cacheCount (stepPairRef engine ba ka ik vk mode refAddrs fullAddrs
      i st).1.events = cacheCount st.events := by
  rcases heng : engine ka (readS st (refAddrs.getD (i + 1) 0))
      (readS st (refAddrs.getD i 0)) with e | out
  all_goals
    have heng' := heng
    simp only [List.getD_eq_getElem?_getD] at heng'
    simp [stepPairRef, heng', cacheCount, List.countP_append, List.countP_cons]

/-- The `morpho_align_ref` loop records no cache release, whatever the engine
does. -/
theorem cacheCount_refPairs (engine : Engine C T V R E) (ba : Evaluator C V)
    (ka : String) (ik vk : Option String) (mode : String)
    (refAddrs fullAddrs : List Nat) :
    ∀ (k i : Nat) (st : Store C T V) (pis pisRef : List (List (List R))),
      cacheCount (refPairs engine ba ka ik vk mode refAddrs fullAddrs
        k i st pis pisRef).1.events = cacheCount st.events := by
  intro k
  induction k with
  | zero => intro i st pis pisRef; rfl
  | succ k ih =>
      intro i st pis pisRef
      have hc := cacheCount_stepPairRef engine ba ka ik vk mode refAddrs fullAddrs i st
      rcases hstep : stepPairRef engine ba ka ik vk mode refAddrs fullAddrs i st
        with ⟨st', r⟩
      rw [hstep] at hc
      rcases r with e | P
      · rw [refPairs, hstep]
        exact hc
      · rw [refPairs, hstep]
        simp only []
        rw [ih (i + 1) st' (pis ++ [P]) (pisRef ++ [P]), hc]

/-- A whole `morpho_align_ref` call never releases the device cache: the event
trace's cache-release count is unchanged, whatever the engine does and whether
or not reference models are supplied. -/
theorem cacheCount_morpho_align_ref (engine : Engine C T V R E)
    (ba : Evaluator C V) (ds : Downsampler C T V) (sk ka : String)
    (ik vk : Option String) (mode : String) (modelAddrs : List Nat)
    (refIn : Option (List Nat)) (st0 : Store C T V) :
    cacheCount (morpho_align_ref engine ba ds sk ka ik vk mode modelAddrs
      refIn st0).1.events = cacheCount st0.events := by
  have hsome : ∀ (ra : List Nat) (st1 : Store C T V),
      cacheCount (morpho_align_ref engine ba ds sk ka ik vk mode modelAddrs
        (some ra) st1).1.events = cacheCount st1.events := by
    intro ra st1
    rw [morpho_align_ref_store, cacheCount_refPairs, initAll_events, copyAll,
      allocAll_events, initAll_events, copyAll, allocAll_events]
  rcases refIn with _ | ra
  · rw [morpho_align_ref_none_eq, hsome, allocAll_events, copyAll, allocAll_events]
  · exact hsome ra st0

/-! Slot-level reading lemmas for the write composites. -/

theorem initModel_ka (sk ka : String) (m : SampleData C T V) :
    dictGet (initModel sk ka m).obsm ka = some ((dictGet m.obsm sk).getD default) := by
  unfold initModel
  rw [dictGet_dictSet_ne _ (Ne.symm (nonrigid_ne_base ka)),
    dictGet_dictSet_ne _ (Ne.symm (rigid_ne_base ka)), dictGet_dictSet_self]

theorem initModel_rigid (sk ka : String) (m : SampleData C T V) :
    dictGet (initModel sk ka m).obsm (ka ++ "_rigid")
      = some ((dictGet m.obsm sk).getD default) := by
  unfold initModel
  rw [dictGet_dictSet_ne _ (rigid_ne_nonrigid ka), dictGet_dictSet_self]

theorem initModel_nonrigid (sk ka : String) (m : SampleData C T V) :
    dictGet (initModel sk ka m).obsm (ka ++ "_nonrigid")
      = some ((dictGet m.obsm sk).getD default) := by
  unfold initModel
  rw [dictGet_dictSet_self]

theorem initModel_uns (sk ka : String) (m : SampleData C T V) :
    (initModel sk ka m).uns = m.uns := rfl

theorem obsmWrite_rigid (ka mode : String) (m : SampleData C T V)
    (out : EngineOut C T V R) :
    dictGet (obsmWrite ka mode m out).obsm (ka ++ "_rigid")
      = some out.optimal_RnA := by
  unfold obsmWrite
  split_ifs
  · rw [dictGet_dictSet_ne _ (rigid_ne_base ka),
      dictGet_dictSet_ne _ (rigid_ne_nonrigid ka), dictGet_dictSet_self]
  · rw [dictGet_dictSet_ne _ (rigid_ne_base ka),
      dictGet_dictSet_ne _ (rigid_ne_nonrigid ka), dictGet_dictSet_self]
  · rw [dictGet_dictSet_ne _ (rigid_ne_nonrigid ka), dictGet_dictSet_self]

theorem obsmWrite_nonrigid (ka mode : String) (m : SampleData C T V)
    (out : EngineOut C T V R) :
    dictGet (obsmWrite ka mode m out).obsm (ka ++ "_nonrigid")
      = some out.XAHat := by
  unfold obsmWrite
  split_ifs
  · rw [dictGet_dictSet_ne _ (nonrigid_ne_base ka), dictGet_dictSet_self]
  · rw [dictGet_dictSet_ne _ (nonrigid_ne_base ka), dictGet_dictSet_self]
  · rw [dictGet_dictSet_self]

theorem obsmWrite_ka_SNS (ka : String) (m : SampleData C T V)
    (out : EngineOut C T V R) :
    dictGet (obsmWrite ka ("SN-S") m out).obsm ka = some out.optimal_RnA := by
  unfold obsmWrite
  rw [if_pos rfl, dictGet_dictSet_self]
  congr 1
  rw [dictGet_dictSet_ne _ (rigid_ne_nonrigid ka), dictGet_dictSet_self]
  rfl

theorem obsmWrite_ka_SNN (ka : String) (m : SampleData C T V)
    (out : EngineOut C T V R) :
    dictGet (obsmWrite ka ("SN-N") m out).obsm ka = some out.XAHat := by
  unfold obsmWrite
  rw [if_neg (by decide), if_pos rfl, dictGet_dictSet_self]
  congr 1
  rw [dictGet_dictSet_self]
  rfl

theorem obsmWrite_ka_other (ka mode : String) (h1 : mode ≠ "SN-S")
    (h2 : mode ≠ "SN-N") (m : SampleData C T V) (out : EngineOut C T V R) :
    dictGet (obsmWrite ka mode m out).obsm ka = dictGet m.obsm ka := by
  unfold obsmWrite
  rw [if_neg h1, if_neg h2, dictGet_dictSet_ne _ (Ne.symm (nonrigid_ne_base ka)),
    dictGet_dictSet_ne _ (Ne.symm (rigid_ne_base ka))]

theorem obsmWrite_uns (ka mode : String) (m : SampleData C T V)
    (out : EngineOut C T V R) : (obsmWrite ka mode m out).uns = m.uns := by
  unfold obsmWrite
  split_ifs <;> rfl

theorem unsWrite_uns_get (ik vk : Option String) (m : SampleData C T V)
    (out : EngineOut C T V R) (key : String) :
    dictGet (unsWrite ik vk m out).uns key
      = (if vk = some key then some (Sum.inr out.vecfld)
         else if ik = some key then some (Sum.inl out.iter_added)
         else dictGet m.uns key) := by
  rcases ik with _ | ki <;> rcases vk with _ | kv
  · simp [unsWrite]
  · by_cases hkv : kv = key
    · subst hkv
      simp [unsWrite, dictGet_dictSet_self]
    · simp only [unsWrite]
      rw [dictGet_dictSet_ne _ (fun h => hkv h.symm)]
      simp [hkv]
  · by_cases hki : ki = key
    · subst hki
      simp [unsWrite, dictGet_dictSet_self]
    · simp only [unsWrite]
      rw [dictGet_dictSet_ne _ (fun h => hki h.symm)]
      simp [hki]
  · by_cases hkv : kv = key
    · subst hkv
      simp [unsWrite, dictGet_dictSet_self]
    · by_cases hki : ki = key
      · subst hki
        simp only [unsWrite]
        rw [dictGet_dictSet_ne _ (fun h => hkv h.symm), dictGet_dictSet_self]
        simp [hkv]
      · simp only [unsWrite]
        rw [dictGet_dictSet_ne _ (fun h => hkv h.symm),
          dictGet_dictSet_ne _ (fun h => hki h.symm)]
        simp [hkv, hki]

theorem pairWrite_obsm_get (ka : String) (ik vk : Option String) (mode : String)
    (m : SampleData C T V) (out : EngineOut C T V R) (key : String) :
    dictGet (pairWrite ka ik vk mode m out).obsm key
      = dictGet (obsmWrite ka mode m out).obsm key := by
  rw [pairWrite, unsWrite_obsm]

theorem pairWrite_uns_get (ka : String) (ik vk : Option String) (mode : String)
    (m : SampleData C T V) (out : EngineOut C T V R) (key : String) :
    dictGet (pairWrite ka ik vk mode m out).uns key
      = (if vk = some key then some (Sum.inr out.vecfld)
         else if ik = some key then some (Sum.inl out.iter_added)
         else dictGet m.uns key) := by
  rw [pairWrite, unsWrite_uns_get, obsmWrite_uns]

theorem fullWrite_rigid (ka mode : String) (m : SampleData C T V) (nr rg : C) :
    dictGet (fullWrite ka mode m nr rg).obsm (ka ++ "_rigid") = some rg := by
  unfold fullWrite
  split_ifs
  · rw [dictGet_dictSet_ne _ (rigid_ne_base ka), dictGet_dictSet_self]
  · rw [dictGet_dictSet_ne _ (rigid_ne_base ka), dictGet_dictSet_self]
  · rw [dictGet_dictSet_self]

theorem fullWrite_nonrigid (ka mode : String) (m : SampleData C T V) (nr rg : C) :
    dictGet (fullWrite ka mode m nr rg).obsm (ka ++ "_nonrigid") = some nr := by
  unfold fullWrite
  split_ifs
  · rw [dictGet_dictSet_ne _ (nonrigid_ne_base ka),
      dictGet_dictSet_ne _ (Ne.symm (rigid_ne_nonrigid ka)), dictGet_dictSet_self]
  · rw [dictGet_dictSet_ne _ (nonrigid_ne_base ka),
      dictGet_dictSet_ne _ (Ne.symm (rigid_ne_nonrigid ka)), dictGet_dictSet_self]
  · rw [dictGet_dictSet_ne _ (Ne.symm (rigid_ne_nonrigid ka)), dictGet_dictSet_self]

theorem fullWrite_ka_SNS (ka : String) (m : SampleData C T V) (nr rg : C) :
    dictGet (fullWrite ka ("SN-S") m nr rg).obsm ka = some rg := by
  unfold fullWrite
  rw [if_pos rfl, dictGet_dictSet_self]
  congr 1
  rw [dictGet_dictSet_self]
  rfl

theorem fullWrite_ka_SNN (ka : String) (m : SampleData C T V) (nr rg : C) :
    dictGet (fullWrite ka ("SN-N") m nr rg).obsm ka = some nr := by
  unfold fullWrite
  rw [if_neg (by decide), if_pos rfl, dictGet_dictSet_self]
  congr 1
  rw [dictGet_dictSet_ne _ (Ne.symm (rigid_ne_nonrigid ka)), dictGet_dictSet_self]
  rfl

theorem fullWrite_ka_other (ka mode : String) (h1 : mode ≠ "SN-S")
    (h2 : mode ≠ "SN-N") (m : SampleData C T V) (nr rg : C) :
    dictGet (fullWrite ka mode m nr rg).obsm ka = dictGet m.obsm ka := by
  unfold fullWrite
  rw [if_neg h1, if_neg h2, dictGet_dictSet_ne _ (Ne.symm (rigid_ne_base ka)),
    dictGet_dictSet_ne _ (Ne.symm (nonrigid_ne_base ka))]

theorem fullWrite_uns (ka mode : String) (m : SampleData C T V) (nr rg : C) :
    (fullWrite ka mode m nr rg).uns = m.uns := by
  unfold fullWrite
  split_ifs <;> rfl

instance {E' α : Type} [DecidableEq E'] [DecidableEq α] : DecidableEq (Except E' α) :=
  fun a b =>
    match a, b with
    | Except.ok x, Except.ok y =>
        if h : x = y then isTrue (by rw [h])
        else isFalse (by intro hh; cases hh; exact h rfl)
    | Except.error x, Except.error y =>
        if h : x = y then isTrue (by rw [h])
        else isFalse (by intro hh; cases hh; exact h rfl)
    | Except.ok _, Except.error _ => isFalse (by intro hh; cases hh)
    | Except.error _, Except.ok _ => isFalse (by intro hh; cases hh)

/-- The Registration Engine invocations recorded in an event trace, each with
the spatial key it was told to read and the moving and fixed sample objects. -/
def engineCalls (es : List (Event C T V)) :
    List (String × SampleData C T V × SampleData C T V) :=
  es.filterMap (fun e => match e with
    | Event.engineCall s mv fx => some (s, mv, fx)
    | _ => none)

instance {C T V : Type} : Inhabited (Event C T V) := ⟨Event.emptyCache⟩

theorem engineCalls_chainEvents_length
    (eng0 : String → SampleData C T V → SampleData C T V → EngineOut C T V R)
    (sk ka : String) (ik vk : Option String) (mode : String)
    (inits : List (SampleData C T V)) :
    ∀ (k i : Nat),
      (engineCalls (chainEvents eng0 sk ka ik vk mode inits i k)).length = k := by
  intro k
  induction k with
  | zero => intro i; rfl
  | succ k ih =>
      intro i
      have hstep : engineCalls (chainEvents eng0 sk ka ik vk mode inits i (k + 1))
          = (ka, initSample sk ka inits (i + 1),
              chainSample eng0 sk ka ik vk mode inits i)
            :: engineCalls (chainEvents eng0 sk ka ik vk mode inits (i + 1) k) := rfl
      rw [hstep, List.length_cons, ih (i + 1)]

theorem engineCalls_chainEvents_getD
    (eng0 : String → SampleData C T V → SampleData C T V → EngineOut C T V R)
    (sk ka : String) (ik vk : Option String) (mode : String)
    (inits : List (SampleData C T V)) :
    ∀ (k i j : Nat), j < k →
      (engineCalls (chainEvents eng0 sk ka ik vk mode inits i k)).getD j default
        = (ka, initSample sk ka inits (i + j + 1),
            chainSample eng0 sk ka ik vk mode inits (i + j)) := by
  intro k
  induction k with
  | zero => intro i j hj; exact absurd hj (Nat.not_lt_zero j)
  | succ k ih =>
      intro i j hj
      have hstep : engineCalls (chainEvents eng0 sk ka ik vk mode inits i (k + 1))
          = (ka, initSample sk ka inits (i + 1),
              chainSample eng0 sk ka ik vk mode inits i)
            :: engineCalls (chainEvents eng0 sk ka ik vk mode inits (i + 1) k) := rfl
      cases j with
      | zero => rw [hstep]; rfl
      | succ j =>
          have hcons : ((ka, initSample sk ka inits (i + 1),
              chainSample eng0 sk ka ik vk mode inits i)
              :: engineCalls (chainEvents eng0 sk ka ik vk mode inits (i + 1) k)).getD
                (j + 1) default
              = (engineCalls (chainEvents eng0 sk ka ik vk mode inits
                  (i + 1) k)).getD j default := rfl
          rw [hstep, hcons, ih (i + 1) j (by omega)]
          have e1 : i + 1 + j = i + (j + 1) := by omega
          rw [e1]

theorem engineCalls_refEvents_length
    (eng0 : String → SampleData C T V → SampleData C T V → EngineOut C T V R)
    (ba : Evaluator C V) (sk ka : String) (ik vk : Option String) (mode : String)
    (inits initsR : List (SampleData C T V)) :
    ∀ (k i : Nat),
      (engineCalls (refEvents eng0 sk ka ik vk mode inits initsR i k)).length = k := by
  intro k
  induction k with
  | zero => intro i; rfl
  | succ k ih =>
      intro i
      have hstep : engineCalls (refEvents eng0 sk ka ik vk mode inits initsR i (k + 1))
          = (ka, initSample sk ka initsR (i + 1),
              refChain eng0 sk ka ik vk mode initsR i)
            :: engineCalls (refEvents eng0 sk ka ik vk mode inits initsR (i + 1) k) := rfl
      rw [hstep, List.length_cons, ih (i + 1)]

theorem engineCalls_refEvents_getD
    (eng0 : String → SampleData C T V → SampleData C T V → EngineOut C T V R)
    (ba : Evaluator C V) (sk ka : String) (ik vk : Option String) (mode : String)
    (inits initsR : List (SampleData C T V)) :
    ∀ (k i j : Nat), j < k →
      (engineCalls (refEvents eng0 sk ka ik vk mode inits initsR i k)).getD j default
        = (ka, initSample sk ka initsR (i + j + 1),
            refChain eng0 sk ka ik vk mode initsR (i + j)) := by
  intro k
  induction k with
  | zero => intro i j hj; exact absurd hj (Nat.not_lt_zero j)
  | succ k ih =>
      intro i j hj
      have hstep : engineCalls (refEvents eng0 sk ka ik vk mode inits initsR i (k + 1))
          = (ka, initSample sk ka initsR (i + 1),
              refChain eng0 sk ka ik vk mode initsR i)
            :: engineCalls (refEvents eng0 sk ka ik vk mode inits initsR (i + 1) k) := rfl
      cases j with
      | zero => rw [hstep]; rfl
      | succ j =>
          have hcons : ((ka, initSample sk ka initsR (i + 1),
              refChain eng0 sk ka ik vk mode initsR i)
              :: engineCalls (refEvents eng0 sk ka ik vk mode inits initsR (i + 1) k)).getD
                (j + 1) default
              = (engineCalls (refEvents eng0 sk ka ik vk mode inits initsR
                  (i + 1) k)).getD j default := rfl
          rw [hstep, hcons, ih (i + 1) j (by omega)]
          have e1 : i + 1 + j = i + (j + 1) := by omega
          rw [e1]

theorem chainPis_getD
    (eng0 : String → SampleData C T V → SampleData C T V → EngineOut C T V R)
    (sk ka : String) (ik vk : Option String) (mode : String)
    (inits : List (SampleData C T V)) :
    ∀ (k i j : Nat), j < k →
      (chainPis eng0 sk ka ik vk mode inits i k).getD j []
        = (chainOut eng0 sk ka ik vk mode inits (i + j)).P.transpose := by
  intro k
  induction k with
  | zero => intro i j hj; exact absurd hj (Nat.not_lt_zero j)
  | succ k ih =>
      intro i j hj
      cases j with
      | zero => rfl
      | succ j =>
          have hcons : (chainPis eng0 sk ka ik vk mode inits i (k + 1)).getD (j + 1) []
              = (chainPis eng0 sk ka ik vk mode inits (i + 1) k).getD j [] := rfl
          rw [hcons, ih (i + 1) j (by omega)]
          have e1 : i + 1 + j = i + (j + 1) := by omega
          rw [e1]

theorem chainPis_length
    (eng0 : String → SampleData C T V → SampleData C T V → EngineOut C T V R)
    (sk ka : String) (ik vk : Option String) (mode : String)
    (inits : List (SampleData C T V)) :
    ∀ (k i : Nat), (chainPis eng0 sk ka ik vk mode inits i k).length = k := by
  intro k
  induction k with
  | zero => intro i; rfl
  | succ k ih => intro i; simp [chainPis, ih (i + 1)]

theorem refPis_getD
    (eng0 : String → SampleData C T V → SampleData C T V → EngineOut C T V R)
    (sk ka : String) (ik vk : Option String) (mode : String)
    (initsR : List (SampleData C T V)) :
    ∀ (k i j : Nat), j < k →
      (refPis eng0 sk ka ik vk mode initsR i k).getD j []
        = (refOut eng0 sk ka ik vk mode initsR (i + j)).P := by
  intro k
  induction k with
  | zero => intro i j hj; exact absurd hj (Nat.not_lt_zero j)
  | succ k ih =>
      intro i j hj
      cases j with
      | zero => rfl
      | succ j =>
          have hcons : (refPis eng0 sk ka ik vk mode initsR i (k + 1)).getD (j + 1) []
              = (refPis eng0 sk ka ik vk mode initsR (i + 1) k).getD j [] := rfl
          rw [hcons, ih (i + 1) j (by omega)]
          have e1 : i + 1 + j = i + (j + 1) := by omega
          rw [e1]

theorem refPis_length
    (eng0 : String → SampleData C T V → SampleData C T V → EngineOut C T V R)
    (sk ka : String) (ik vk : Option String) (mode : String)
    (initsR : List (SampleData C T V)) :
    ∀ (k i : Nat), (refPis eng0 sk ka ik vk mode initsR i k).length = k := by
  intro k
  induction k with
  | zero => intro i; rfl
  | succ k ih => intro i; simp [refPis, ih (i + 1)]

theorem chainEvents_length
    (eng0 : String → SampleData C T V → SampleData C T V → EngineOut C T V R)
    (sk ka : String) (ik vk : Option String) (mode : String)
    (inits : List (SampleData C T V)) :
    ∀ (k i : Nat), (chainEvents eng0 sk ka ik vk mode inits i k).length = 2 * k := by
  intro k
  induction k with
  | zero => intro i; rfl
  | succ k ih =>
      intro i
      have hstep : chainEvents eng0 sk ka ik vk mode inits i (k + 1)
          = Event.engineCall ka (initSample sk ka inits (i + 1))
              (chainSample eng0 sk ka ik vk mode inits i)
            :: Event.emptyCache :: chainEvents eng0 sk ka ik vk mode inits (i + 1) k := rfl
      rw [hstep, List.length_cons, List.length_cons, ih (i + 1)]
      omega

/-- In the `morpho_align` per-pair event blocks, the event at position `2j` is
the engine call of pair `i+j`. -/
theorem chainEvents_getD_even
    (eng0 : String → SampleData C T V → SampleData C T V → EngineOut C T V R)
    (sk ka : String) (ik vk : Option String) (mode : String)
    (inits : List (SampleData C T V)) :
    ∀ (k i j : Nat), j < k →
      (chainEvents eng0 sk ka ik vk mode inits i k).getD (2 * j) default
        = Event.engineCall ka (initSample sk ka inits (i + j + 1))
            (chainSample eng0 sk ka ik vk mode inits (i + j)) := by
  intro k
  induction k with
  | zero => intro i j hj; exact absurd hj (Nat.not_lt_zero j)
  | succ k ih =>
      intro i j hj
      cases j with
      | zero => rfl
      | succ j =>
          have e1 : 2 * (j + 1) = 2 * j + 1 + 1 := by omega
          have hcons : (chainEvents eng0 sk ka ik vk mode inits i (k + 1)).getD
                (2 * j + 1 + 1) default
              = (chainEvents eng0 sk ka ik vk mode inits (i + 1) k).getD
                (2 * j) default := rfl
          rw [e1, hcons, ih (i + 1) j (by omega)]
          have e2 : i + 1 + j = i + (j + 1) := by omega
          rw [e2]

/-- In the `morpho_align` per-pair event blocks, the event at position `2j + 1`,
immediately after pair `i+j`'s engine call and before the next pair's, is the
cache release. -/
theorem chainEvents_getD_odd
    (eng0 : String → SampleData C T V → SampleData C T V → EngineOut C T V R)
    (sk ka : String) (ik vk : Option String) (mode : String)
    (inits : List (SampleData C T V)) :
    ∀ (k i j : Nat), j < k →
      (chainEvents eng0 sk ka ik vk mode inits i k).getD (2 * j + 1) default
        = Event.emptyCache := by
  intro k
  induction k with
  | zero => intro i j hj; exact absurd hj (Nat.not_lt_zero j)
  | succ k ih =>
      intro i j hj
      cases j with
      | zero => rfl
      | succ j =>
          have e1 : 2 * (j + 1) + 1 = 2 * j + 1 + 1 + 1 := by omega
          have hcons : (chainEvents eng0 sk ka ik vk mode inits i (k + 1)).getD
                (2 * j + 1 + 1 + 1) default
              = (chainEvents eng0 sk ka ik vk mode inits (i + 1) k).getD
                (2 * j + 1) default := rfl
          rw [e1, hcons, ih (i + 1) j (by omega)]

/-! Concrete fixtures used by the witnesses and counterexamples: two samples
with one coordinate slot each, a constant engine whose correspondence matrix
has two rows (one per point of the moving, i.e. later, sample) and one column,
a simple arithmetic evaluator and an identity downsampler. -/

def mA0 : SampleData Nat Nat Nat := ⟨[("spatial", 10)], [("old", Sum.inl 0)]⟩

def mB0 : SampleData Nat Nat Nat := ⟨[("spatial", 20)], []⟩

def st0C : Store Nat Nat Nat :=
  ⟨fun a => if a = 0 then mA0 else if a = 1 then mB0 else default, 2, []⟩

def eng0C : String → SampleData Nat Nat Nat → SampleData Nat Nat Nat →
    EngineOut Nat Nat Nat Nat :=
  fun _ _ _ => ⟨[[1], [2]], 5, 6, 7, 8⟩

def baC : Evaluator Nat Nat := fun v q => (v + q, q, v * q)

def dsC : Downsampler Nat Nat Nat := fun m => m

def engFailC : Engine Nat Nat Nat Nat Unit := fun _ _ _ => Except.error ()

def csC : Nat → Nat := fun j => if j = 0 then 10 else 20

/-- C1: chain consistency of `morpho_align`.  For every non-empty input list
and either mode, the first output sample's working, rigid and non-rigid
coordinates all equal its original spatial coordinates, and for every `k ≥ 1`
the `k`-th output sample's working coordinate equals exactly its chosen branch:
the rigid slot when the mode is `"SN-S"`, the non-rigid slot when it is
`"SN-N"`. -/
theorem morpho_align_chain_consistency
    (eng0 : String → SampleData C T V → SampleData C T V → EngineOut C T V R)
    (sk ka : String) (ik vk : Option String) (mode : String)
    (modelAddrs : List Nat) (st0 : Store C T V) (asOut : List Nat)
    (pis : List (List (List R))) (c0 : C)
    (hn : 1 ≤ modelAddrs.length)
    (hmode : mode = "SN-S" ∨ mode = "SN-N")
    (hok : (morpho_align (okE eng0 : Engine C T V R E) sk ka ik vk mode
      modelAddrs st0).2 = Except.ok (asOut, pis))
    (h0 : dictGet (readS st0 (modelAddrs.getD 0 0)).obsm sk = some c0) :
    (dictGet (readS (morpho_align (okE eng0 : Engine C T V R E) sk ka ik vk mode
        modelAddrs st0).1 (asOut.getD 0 0)).obsm ka = some c0
      ∧ dictGet (readS (morpho_align (okE eng0 : Engine C T V R E) sk ka ik vk mode
          modelAddrs st0).1 (asOut.getD 0 0)).obsm (ka ++ "_rigid") = some c0
      ∧ dictGet (readS (morpho_align (okE eng0 : Engine C T V R E) sk ka ik vk mode
          modelAddrs st0).1 (asOut.getD 0 0)).obsm (ka ++ "_nonrigid") = some c0)
    ∧ (∀ k, 1 ≤ k → k < modelAddrs.length →
        dictGet (readS (morpho_align (okE eng0 : Engine C T V R E) sk ka ik vk mode
            modelAddrs st0).1 (asOut.getD k 0)).obsm ka
          = (if mode = "SN-S" then
              dictGet (readS (morpho_align (okE eng0 : Engine C T V R E) sk ka ik vk
                mode modelAddrs st0).1 (asOut.getD k 0)).obsm (ka ++ "_rigid")
             else
              dictGet (readS (morpho_align (okE eng0 : Engine C T V R E) sk ka ik vk
                mode modelAddrs st0).1 (asOut.getD k 0)).obsm (ka ++ "_nonrigid"))) := by
  obtain ⟨h1, h2, h3, h4, h5⟩ :=
    @morpho_align_spec C T V R E _ eng0 sk ka ik vk mode modelAddrs st0 hn
  have hp := h1.symm.trans hok
  injection hp with hp
  have has : asOut = addrSeq st0.next modelAddrs.length := (congrArg Prod.fst hp).symm
  have hget : ∀ k, k < modelAddrs.length → asOut.getD k 0 = st0.next + k := by
    intro k hk
    rw [has, addrSeq_getD _ hk]
  have hi0 : (modelAddrs.map (readS st0)).getD 0 default
      = readS st0 (modelAddrs.getD 0 0) :=
    getD_map_of_lt (readS st0) modelAddrs (by omega) 0 default
  constructor
  · rw [hget 0 (by omega), h2 0 (by omega)]
    have hc : chainSample eng0 sk ka ik vk mode (modelAddrs.map (readS st0)) 0
        = initModel sk ka (readS st0 (modelAddrs.getD 0 0)) := by
      show initSample sk ka (modelAddrs.map (readS st0)) 0 = _
      rw [initSample, hi0]
    rw [hc]
    refine ⟨?_, ?_, ?_⟩
    · rw [initModel_ka, h0]
      rfl
    · rw [initModel_rigid, h0]
      rfl
    · rw [initModel_nonrigid, h0]
      rfl
  · intro k hk1 hk2
    obtain ⟨m, rfl⟩ : ∃ m, k = m + 1 := ⟨k - 1, by omega⟩
    rw [hget (m + 1) hk2, h2 (m + 1) hk2]
    have hc : chainSample eng0 sk ka ik vk mode (modelAddrs.map (readS st0)) (m + 1)
        = pairWrite ka ik vk mode
            (initSample sk ka (modelAddrs.map (readS st0)) (m + 1))
            (chainOut eng0 sk ka ik vk mode (modelAddrs.map (readS st0)) m) := rfl
    rw [hc, pairWrite_obsm_get, pairWrite_obsm_get, pairWrite_obsm_get]
    rcases hmode with hms | hmn
    · subst hms
      rw [if_pos rfl, obsmWrite_ka_SNS, obsmWrite_rigid]
    · subst hmn
      rw [if_neg (by decide), obsmWrite_ka_SNN, obsmWrite_nonrigid]

/-- Witness for C1 at a concrete two-sample input in mode `"SN-S"`. -/
theorem morpho_align_chain_consistency_witness :
    (1 ≤ ([0, 1] : List Nat).length)
    ∧ (("SN-S" : String) = "SN-S" ∨ ("SN-S" : String) = "SN-N")
    ∧ (morpho_align (okE eng0C : Engine Nat Nat Nat Nat Unit) ("spatial") ("align")
        (some ("iter")) (some ("vec")) ("SN-S") [0, 1] st0C).2
        = Except.ok ([2, 3], [[[1, 2]]])
    ∧ dictGet (readS st0C (([0, 1] : List Nat).getD 0 0)).obsm ("spatial") = some 10
    ∧ ((dictGet (readS (morpho_align (okE eng0C : Engine Nat Nat Nat Nat Unit)
          ("spatial") ("align") (some ("iter")) (some ("vec")) ("SN-S")
          [0, 1] st0C).1 (([2, 3] : List Nat).getD 0 0)).obsm ("align") = some 10
        ∧ dictGet (readS (morpho_align (okE eng0C : Engine Nat Nat Nat Nat Unit)
            ("spatial") ("align") (some ("iter")) (some ("vec")) ("SN-S")
            [0, 1] st0C).1 (([2, 3] : List Nat).getD 0 0)).obsm
            ("align" ++ "_rigid") = some 10
        ∧ dictGet (readS (morpho_align (okE eng0C : Engine Nat Nat Nat Nat Unit)
            ("spatial") ("align") (some ("iter")) (some ("vec")) ("SN-S")
            [0, 1] st0C).1 (([2, 3] : List Nat).getD 0 0)).obsm
            ("align" ++ "_nonrigid") = some 10)
      ∧ (∀ k, 1 ≤ k → k < ([0, 1] : List Nat).length →
          dictGet (readS (morpho_align (okE eng0C : Engine Nat Nat Nat Nat Unit)
              ("spatial") ("align") (some ("iter")) (some ("vec")) ("SN-S")
              [0, 1] st0C).1 (([2, 3] : List Nat).getD k 0)).obsm ("align")
            = (if ("SN-S" : String) = "SN-S" then
                dictGet (readS (morpho_align (okE eng0C : Engine Nat Nat Nat Nat Unit)
                  ("spatial") ("align") (some ("iter")) (some ("vec")) ("SN-S")
                  [0, 1] st0C).1 (([2, 3] : List Nat).getD k 0)).obsm
                  ("align" ++ "_rigid")
               else
                dictGet (readS (morpho_align (okE eng0C : Engine Nat Nat Nat Nat Unit)
                  ("spatial") ("align") (some ("iter")) (some ("vec")) ("SN-S")
                  [0, 1] st0C).1 (([2, 3] : List Nat).getD k 0)).obsm
                  ("align" ++ "_nonrigid")))) :=
  ⟨by decide, Or.inl rfl, by decide, by decide,
   morpho_align_chain_consistency eng0C ("spatial") ("align") (some ("iter"))
     (some ("vec")) ("SN-S") [0, 1] st0C [2, 3] [[[1, 2]]] 10 (by decide)
     (Or.inl rfl) (by decide) (by decide)⟩

/-- C2 counterexample: with an engine whose correspondence matrix is the 2x1
matrix `[[1],[2]]` (one row per point of the moving, i.e. later, sample, per
the spec's orientation of `P`), `morpho_align` returns the 1x2 transpose
`[[1,2]]` — rows indexed by the earlier sample — while `morpho_align_ref`
returns `[[1],[2]]` untransposed, so the sequential orchestrator's output is
not oriented from the later sample back to its predecessor and the two
orchestrators' orientations differ. -/
theorem pi_orientation_counterexample :
    (∀ s a b, (eng0C s a b).P = [[1], [2]])
    ∧ (morpho_align (okE eng0C : Engine Nat Nat Nat Nat Unit) ("spatial") ("align")
        (some ("iter")) (some ("vec")) ("SN-S") [0, 1] st0C).2
        = Except.ok ([2, 3], [[[1, 2]]])
    ∧ (morpho_align_ref (okE eng0C : Engine Nat Nat Nat Nat Unit) baC dsC ("spatial")
        ("align") (some ("iter")) (some ("vec")) ("SN-S") [0, 1] (some [0, 1]) st0C).2
        = Except.ok ([2, 3], [4, 5], [[[1], [2]]], [[[1], [2]]])
    ∧ ([[1, 2]] : List (List Nat)) ≠ [[1], [2]] :=
  ⟨fun _ _ _ => rfl, rfl, rfl, by decide⟩

/-- C2 amended: both orchestrators return one correspondence matrix per
consecutive pair, but with opposite orientations: `morpho_align` returns the
transpose of the engine's matrix (rows indexed by the earlier sample), while
`morpho_align_ref` returns the engine's matrix untransposed (rows indexed by
the later sample) in both of its identical `pis` and `pis_ref` lists. -/
theorem pi_orientation_amended
    (eng0 : String → SampleData C T V → SampleData C T V → EngineOut C T V R)
    (ba : Evaluator C V) (ds : Downsampler C T V) (sk ka : String)
    (ik vk : Option String) (mode : String) (modelAddrs ra : List Nat)
    (st0 : Store C T V) (as1 fa ra2 : List Nat)
    (pis1 pis2 pisRef2 : List (List (List R)))
    (hn : 1 ≤ modelAddrs.length)
    (hlenR : ra.length = modelAddrs.length)
    (hvalM : ∀ a ∈ modelAddrs, a < st0.next)
    (hvalR : ∀ a ∈ ra, a < st0.next)
    (hok1 : (morpho_align (okE eng0 : Engine C T V R E) sk ka ik vk mode
      modelAddrs st0).2 = Except.ok (as1, pis1))
    (hok2 : (morpho_align_ref (okE eng0 : Engine C T V R E) ba ds sk ka ik vk mode
      modelAddrs (some ra) st0).2 = Except.ok (fa, ra2, pis2, pisRef2)) :
    pis1.length = modelAddrs.length - 1
    ∧ pis2.length = modelAddrs.length - 1
    ∧ pisRef2 = pis2
    ∧ (∀ j, j < modelAddrs.length - 1 →
        pis1.getD j [] = (chainOut eng0 sk ka ik vk mode
          (modelAddrs.map (readS st0)) j).P.transpose)
    ∧ (∀ j, j < modelAddrs.length - 1 →
        pis2.getD j [] = (refOut eng0 sk ka ik vk mode (ra.map (readS st0)) j).P) := by
  obtain ⟨h1, _, _, _, _⟩ :=
    @morpho_align_spec C T V R E _ eng0 sk ka ik vk mode modelAddrs st0 hn
  obtain ⟨r1, _, _, _, _, _⟩ :=
    @morpho_align_ref_spec C T V R E _ eng0 ba ds sk ka ik vk mode modelAddrs ra st0
      hn hlenR hvalM hvalR
  have hp1 := h1.symm.trans hok1
  injection hp1 with hp1
  have hpis1 : pis1 = chainPis eng0 sk ka ik vk mode (modelAddrs.map (readS st0)) 0
      (modelAddrs.length - 1) := (congrArg Prod.snd hp1).symm
  have hp2 := r1.symm.trans hok2
  injection hp2 with hp2
  have hpis2 : pis2 = refPis eng0 sk ka ik vk mode (ra.map (readS st0)) 0
      (modelAddrs.length - 1) :=
    (congrArg (fun q => q.2.2.1) hp2).symm
  have hpisRef2 : pisRef2 = refPis eng0 sk ka ik vk mode (ra.map (readS st0)) 0
      (modelAddrs.length - 1) :=
    (congrArg (fun q => q.2.2.2) hp2).symm
  refine ⟨?_, ?_, ?_, ?_, ?_⟩
  · rw [hpis1, chainPis_length]
  · rw [hpis2, refPis_length]
  · rw [hpis2, hpisRef2]
  · intro j hj
    rw [hpis1, chainPis_getD _ _ _ _ _ _ _ _ _ _ hj, Nat.zero_add]
  · intro j hj
    rw [hpis2, refPis_getD _ _ _ _ _ _ _ _ _ _ hj, Nat.zero_add]

/-- Witness for the amended C2 at the concrete two-sample input. -/
theorem pi_orientation_amended_witness :
    (1 ≤ ([0, 1] : List Nat).length)
    ∧ ([0, 1] : List Nat).length = ([0, 1] : List Nat).length
    ∧ (∀ a ∈ ([0, 1] : List Nat), a < st0C.next)
    ∧ (morpho_align (okE eng0C : Engine Nat Nat Nat Nat Unit) ("spatial") ("align")
        (some ("iter")) (some ("vec")) ("SN-S") [0, 1] st0C).2
        = Except.ok ([2, 3], [[[1, 2]]])
    ∧ (morpho_align_ref (okE eng0C : Engine Nat Nat Nat Nat Unit) baC dsC ("spatial")
        ("align") (some ("iter")) (some ("vec")) ("SN-S") [0, 1] (some [0, 1]) st0C).2
        = Except.ok ([2, 3], [4, 5], [[[1], [2]]], [[[1], [2]]])
    ∧ (([[[1, 2]]] : List (List (List Nat))).length = ([0, 1] : List Nat).length - 1
      ∧ ([[[1], [2]]] : List (List (List Nat))).length = ([0, 1] : List Nat).length - 1
      ∧ ([[[1], [2]]] : List (List (List Nat))) = [[[1], [2]]]
      ∧ (∀ j, j < ([0, 1] : List Nat).length - 1 →
          ([[[1, 2]]] : List (List (List Nat))).getD j []
            = (chainOut eng0C ("spatial") ("align") (some ("iter")) (some ("vec"))
                ("SN-S") ([0, 1].map (readS st0C)) j).P.transpose)
      ∧ (∀ j, j < ([0, 1] : List Nat).length - 1 →
          ([[[1], [2]]] : List (List (List Nat))).getD j []
            = (refOut eng0C ("spatial") ("align") (some ("iter")) (some ("vec"))
                ("SN-S") ([0, 1].map (readS st0C)) j).P)) :=
  ⟨by decide, rfl, by decide, rfl, rfl,
   @pi_orientation_amended Nat Nat Nat Nat Unit _ eng0C baC dsC ("spatial")
     ("align") (some ("iter")) (some ("vec")) ("SN-S") [0, 1] [0, 1] st0C
     [2, 3] [2, 3] [4, 5] [[[1, 2]]] [[[1], [2]]] [[[1], [2]]] (by decide) rfl
     (by decide) (by decide) rfl rfl⟩

/-- C3: for every input of at least two samples, `morpho_align` succeeds after
processing exactly the adjacent pairs `0 .. N-2` in increasing order; the
`i`-th engine call passes the working-coordinate key and the current states
moving = sample `i+1` (still its initialised state) and fixed = sample `i`
(the state produced by pair `i-1`); and for `i ≥ 1` the fixed sample's working
coordinate is exactly the previous pair's chosen output, not its raw original
coordinate slot. -/
theorem morpho_align_pair_schedule
    (eng0 : String → SampleData C T V → SampleData C T V → EngineOut C T V R)
    (sk ka : String) (ik vk : Option String) (mode : String)
    (modelAddrs : List Nat) (st0 : Store C T V)
    (hn : 2 ≤ modelAddrs.length) (hev0 : st0.events = []) :
    (morpho_align (okE eng0 : Engine C T V R E) sk ka ik vk mode modelAddrs st0).2
      = Except.ok (addrSeq st0.next modelAddrs.length,
          chainPis eng0 sk ka ik vk mode (modelAddrs.map (readS st0)) 0
            (modelAddrs.length - 1))
    ∧ (engineCalls (morpho_align (okE eng0 : Engine C T V R E) sk ka ik vk mode
        modelAddrs st0).1.events).length = modelAddrs.length - 1
    ∧ (∀ i, i < modelAddrs.length - 1 →
        (engineCalls (morpho_align (okE eng0 : Engine C T V R E) sk ka ik vk mode
          modelAddrs st0).1.events).getD i default
          = (ka, initSample sk ka (modelAddrs.map (readS st0)) (i + 1),
              chainSample eng0 sk ka ik vk mode (modelAddrs.map (readS st0)) i))
    ∧ (∀ i, 1 ≤ i → i < modelAddrs.length - 1 →
        (mode = "SN-S" →
          dictGet (chainSample eng0 sk ka ik vk mode
              (modelAddrs.map (readS st0)) i).obsm ka
            = some (chainOut eng0 sk ka ik vk mode
                (modelAddrs.map (readS st0)) (i - 1)).optimal_RnA)
        ∧ (mode = "SN-N" →
          dictGet (chainSample eng0 sk ka ik vk mode
              (modelAddrs.map (readS st0)) i).obsm ka
            = some (chainOut eng0 sk ka ik vk mode
                (modelAddrs.map (readS st0)) (i - 1)).XAHat)) := by
  obtain ⟨h1, h2, h3, h4, h5⟩ :=
    @morpho_align_spec C T V R E _ eng0 sk ka ik vk mode modelAddrs st0 (by omega)
  have hev : (morpho_align (okE eng0 : Engine C T V R E) sk ka ik vk mode
      modelAddrs st0).1.events
      = chainEvents eng0 sk ka ik vk mode (modelAddrs.map (readS st0)) 0
          (modelAddrs.length - 1) := by
    rw [h4, hev0]
    rfl
  refine ⟨h1, ?_, ?_, ?_⟩
  · rw [hev, engineCalls_chainEvents_length]
  · intro i hi
    rw [hev, engineCalls_chainEvents_getD _ _ _ _ _ _ _ _ _ _ hi]
    have e1 : 0 + i + 1 = i + 1 := by omega
    have e2 : 0 + i = i := by omega
    rw [e1, e2]
  · intro i hi1 hi2
    obtain ⟨m, rfl⟩ : ∃ m, i = m + 1 := ⟨i - 1, by omega⟩
    have hc : chainSample eng0 sk ka ik vk mode (modelAddrs.map (readS st0)) (m + 1)
        = pairWrite ka ik vk mode
            (initSample sk ka (modelAddrs.map (readS st0)) (m + 1))
            (chainOut eng0 sk ka ik vk mode (modelAddrs.map (readS st0)) m) := rfl
    have e3 : m + 1 - 1 = m := by omega
    constructor
    · intro hms
      subst hms
      rw [hc, pairWrite_obsm_get, obsmWrite_ka_SNS, e3]
    · intro hmn
      subst hmn
      rw [hc, pairWrite_obsm_get, obsmWrite_ka_SNN, e3]

/-- Witness for C3 at the concrete two-sample input. -/
theorem morpho_align_pair_schedule_witness :
    (2 ≤ ([0, 1] : List Nat).length)
    ∧ st0C.events = []
    ∧ ((morpho_align (okE eng0C : Engine Nat Nat Nat Nat Unit) ("spatial") ("align")
        (some ("iter")) (some ("vec")) ("SN-S") [0, 1] st0C).2
        = Except.ok (addrSeq st0C.next ([0, 1] : List Nat).length,
            chainPis eng0C ("spatial") ("align") (some ("iter")) (some ("vec"))
              ("SN-S") ([0, 1].map (readS st0C)) 0 (([0, 1] : List Nat).length - 1))
      ∧ (engineCalls (morpho_align (okE eng0C : Engine Nat Nat Nat Nat Unit)
          ("spatial") ("align") (some ("iter")) (some ("vec")) ("SN-S")
          [0, 1] st0C).1.events).length = ([0, 1] : List Nat).length - 1
      ∧ (∀ i, i < ([0, 1] : List Nat).length - 1 →
          (engineCalls (morpho_align (okE eng0C : Engine Nat Nat Nat Nat Unit)
            ("spatial") ("align") (some ("iter")) (some ("vec")) ("SN-S")
            [0, 1] st0C).1.events).getD i default
            = (("align" : String),
                initSample ("spatial") ("align") ([0, 1].map (readS st0C)) (i + 1),
                chainSample eng0C ("spatial") ("align") (some ("iter")) (some ("vec"))
                  ("SN-S") ([0, 1].map (readS st0C)) i))
      ∧ (∀ i, 1 ≤ i → i < ([0, 1] : List Nat).length - 1 →
          (("SN-S" : String) = "SN-S" →
            dictGet (chainSample eng0C ("spatial") ("align") (some ("iter"))
                (some ("vec")) ("SN-S") ([0, 1].map (readS st0C)) i).obsm ("align")
              = some (chainOut eng0C ("spatial") ("align") (some ("iter"))
                  (some ("vec")) ("SN-S") ([0, 1].map (readS st0C)) (i - 1)).optimal_RnA)
          ∧ (("SN-S" : String) = "SN-N" →
            dictGet (chainSample eng0C ("spatial") ("align") (some ("iter"))
                (some ("vec")) ("SN-S") ([0, 1].map (readS st0C)) i).obsm ("align")
              = some (chainOut eng0C ("spatial") ("align") (some ("iter"))
                  (some ("vec")) ("SN-S") ([0, 1].map (readS st0C)) (i - 1)).XAHat))) :=
  ⟨by decide, rfl,
   morpho_align_pair_schedule eng0C ("spatial") ("align") (some ("iter"))
     (some ("vec")) ("SN-S") [0, 1] st0C (by decide) rfl⟩

/-- C4: with no supplied reference, `morpho_align_ref` derives one by
downsampling every input sample, invokes the Registration Engine only on the
landmark chain (every recorded engine call passes landmark-chain states), and
obtains each full-resolution later sample's rigid and non-rigid coordinates
solely by evaluating the landmark-fitted field at that sample's working
coordinates (its initial spatial copy) — no second optimisation pass. -/
theorem morpho_align_ref_evaluation_only
    (eng0 : String → SampleData C T V → SampleData C T V → EngineOut C T V R)
    (ba : Evaluator C V) (ds : Downsampler C T V) (sk ka : String)
    (ik vk : Option String) (mode : String) (modelAddrs : List Nat)
    (st0 : Store C T V) (cs : Nat → C)
    (hn : 1 ≤ modelAddrs.length)
    (hval : ∀ a ∈ modelAddrs, a < st0.next)
    (hev0 : st0.events = [])
    (hq : ∀ j, j < modelAddrs.length →
      dictGet (readS st0 (modelAddrs.getD j 0)).obsm sk = some (cs j)) :
    (morpho_align_ref (okE eng0 : Engine C T V R E) ba ds sk ka ik vk mode
        modelAddrs none st0).2
      = Except.ok (addrSeq (st0.next + modelAddrs.length + modelAddrs.length)
            modelAddrs.length,
          addrSeq (st0.next + modelAddrs.length + modelAddrs.length
            + modelAddrs.length) modelAddrs.length,
          refPis eng0 sk ka ik vk mode ((modelAddrs.map (readS st0)).map ds) 0
            (modelAddrs.length - 1),
          refPis eng0 sk ka ik vk mode ((modelAddrs.map (readS st0)).map ds) 0
            (modelAddrs.length - 1))
    ∧ (engineCalls (morpho_align_ref (okE eng0 : Engine C T V R E) ba ds sk ka ik vk
        mode modelAddrs none st0).1.events).length = modelAddrs.length - 1
    ∧ (∀ i, i < modelAddrs.length - 1 →
        (engineCalls (morpho_align_ref (okE eng0 : Engine C T V R E) ba ds sk ka ik vk
          mode modelAddrs none st0).1.events).getD i default
          = (ka, initSample sk ka ((modelAddrs.map (readS st0)).map ds) (i + 1),
              refChain eng0 sk ka ik vk mode ((modelAddrs.map (readS st0)).map ds) i))
    ∧ (∀ j, j + 1 < modelAddrs.length →
        dictGet (readS (morpho_align_ref (okE eng0 : Engine C T V R E) ba ds sk ka ik vk
            mode modelAddrs none st0).1
            (st0.next + modelAddrs.length + modelAddrs.length + (j + 1))).obsm
            (ka ++ "_rigid")
          = some (ba (refOut eng0 sk ka ik vk mode
              ((modelAddrs.map (readS st0)).map ds) j).vecfld (cs (j + 1))).2.2
        ∧ dictGet (readS (morpho_align_ref (okE eng0 : Engine C T V R E) ba ds sk ka
            ik vk mode modelAddrs none st0).1
            (st0.next + modelAddrs.length + modelAddrs.length + (j + 1))).obsm
            (ka ++ "_nonrigid")
          = some (ba (refOut eng0 sk ka ik vk mode
              ((modelAddrs.map (readS st0)).map ds) j).vecfld (cs (j + 1))).1) := by
  obtain ⟨r1, r2, r3, r4, r5⟩ :=
    @morpho_align_ref_spec_none C T V R E _ eng0 ba ds sk ka ik vk mode modelAddrs
      st0 hn hval
  have hfq : ∀ j, j + 1 < modelAddrs.length →
      fullQuery eng0 sk ka ik vk mode (modelAddrs.map (readS st0))
        ((modelAddrs.map (readS st0)).map ds) j = cs (j + 1) := by
    intro j hj
    rw [fullQuery, unsWrite_obsm]
    show (dictGet (initModel sk ka
        ((modelAddrs.map (readS st0)).getD (j + 1) default)).obsm ka).getD default
      = cs (j + 1)
    rw [initModel_ka,
      getD_map_of_lt (readS st0) modelAddrs (by omega : j + 1 < modelAddrs.length)
        0 default,
      hq (j + 1) (by omega)]
    rfl
  have hev : (morpho_align_ref (okE eng0 : Engine C T V R E) ba ds sk ka ik vk mode
      modelAddrs none st0).1.events
      = refEvents eng0 sk ka ik vk mode (modelAddrs.map (readS st0))
          ((modelAddrs.map (readS st0)).map ds) 0 (modelAddrs.length - 1) := by
    rw [r5, hev0]
    rfl
  refine ⟨r1, ?_, ?_, ?_⟩
  · rw [hev, engineCalls_refEvents_length _ ba]
  · intro i hi
    rw [hev, engineCalls_refEvents_getD _ ba _ _ _ _ _ _ _ _ _ _ hi,
      Nat.zero_add]
  · intro j hj
    have hfull := r2 (j + 1) (by omega)
    have hfin : fullFinal eng0 ba sk ka ik vk mode (modelAddrs.map (readS st0))
        ((modelAddrs.map (readS st0)).map ds) (j + 1)
        = fullWrite ka mode
            (unsWrite ik vk
              (initSample sk ka (modelAddrs.map (readS st0)) (j + 1))
              (refOut eng0 sk ka ik vk mode
                ((modelAddrs.map (readS st0)).map ds) j))
            (ba (refOut eng0 sk ka ik vk mode
                ((modelAddrs.map (readS st0)).map ds) j).vecfld
              (fullQuery eng0 sk ka ik vk mode (modelAddrs.map (readS st0))
                ((modelAddrs.map (readS st0)).map ds) j)).1
            (ba (refOut eng0 sk ka ik vk mode
                ((modelAddrs.map (readS st0)).map ds) j).vecfld
              (fullQuery eng0 sk ka ik vk mode (modelAddrs.map (readS st0))
                ((modelAddrs.map (readS st0)).map ds) j)).2.2 := rfl
    rw [hfull, hfin, hfq j hj]
    exact ⟨fullWrite_rigid _ _ _ _ _, fullWrite_nonrigid _ _ _ _ _⟩

/-- Witness for C4 at the concrete two-sample input with the identity
downsampler. -/
theorem morpho_align_ref_evaluation_only_witness :
    (1 ≤ ([0, 1] : List Nat).length)
    ∧ (∀ a ∈ ([0, 1] : List Nat), a < st0C.next)
    ∧ st0C.events = []
    ∧ (∀ j, j < ([0, 1] : List Nat).length →
        dictGet (readS st0C (([0, 1] : List Nat).getD j 0)).obsm ("spatial")
          = some (if j = 0 then 10 else 20))
    ∧ ((morpho_align_ref (okE eng0C : Engine Nat Nat Nat Nat Unit) baC dsC
          ("spatial") ("align") (some ("iter")) (some ("vec")) ("SN-S")
          [0, 1] none st0C).2
        = Except.ok (addrSeq (st0C.next + ([0, 1] : List Nat).length
              + ([0, 1] : List Nat).length) ([0, 1] : List Nat).length,
            addrSeq (st0C.next + ([0, 1] : List Nat).length
              + ([0, 1] : List Nat).length + ([0, 1] : List Nat).length)
              ([0, 1] : List Nat).length,
            refPis eng0C ("spatial") ("align") (some ("iter")) (some ("vec"))
              ("SN-S") (([0, 1].map (readS st0C)).map dsC) 0
              (([0, 1] : List Nat).length - 1),
            refPis eng0C ("spatial") ("align") (some ("iter")) (some ("vec"))
              ("SN-S") (([0, 1].map (readS st0C)).map dsC) 0
              (([0, 1] : List Nat).length - 1))
      ∧ (engineCalls (morpho_align_ref (okE eng0C : Engine Nat Nat Nat Nat Unit)
          baC dsC ("spatial") ("align") (some ("iter")) (some ("vec")) ("SN-S")
          [0, 1] none st0C).1.events).length = ([0, 1] : List Nat).length - 1
      ∧ (∀ i, i < ([0, 1] : List Nat).length - 1 →
          (engineCalls (morpho_align_ref (okE eng0C : Engine Nat Nat Nat Nat Unit)
            baC dsC ("spatial") ("align") (some ("iter")) (some ("vec")) ("SN-S")
            [0, 1] none st0C).1.events).getD i default
            = (("align" : String),
                initSample ("spatial") ("align") (([0, 1].map (readS st0C)).map dsC)
                  (i + 1),
                refChain eng0C ("spatial") ("align") (some ("iter")) (some ("vec"))
                  ("SN-S") (([0, 1].map (readS st0C)).map dsC) i))
      ∧ (∀ j, j + 1 < ([0, 1] : List Nat).length →
          dictGet (readS (morpho_align_ref (okE eng0C : Engine Nat Nat Nat Nat Unit)
              baC dsC ("spatial") ("align") (some ("iter")) (some ("vec")) ("SN-S")
              [0, 1] none st0C).1
              (st0C.next + ([0, 1] : List Nat).length + ([0, 1] : List Nat).length
                + (j + 1))).obsm ("align" ++ "_rigid")
            = some (baC (refOut eng0C ("spatial") ("align") (some ("iter"))
                (some ("vec")) ("SN-S") (([0, 1].map (readS st0C)).map dsC) j).vecfld
                (if j + 1 = 0 then 10 else 20)).2.2
          ∧ dictGet (readS (morpho_align_ref (okE eng0C : Engine Nat Nat Nat Nat Unit)
              baC dsC ("spatial") ("align") (some ("iter")) (some ("vec")) ("SN-S")
              [0, 1] none st0C).1
              (st0C.next + ([0, 1] : List Nat).length + ([0, 1] : List Nat).length
                + (j + 1))).obsm ("align" ++ "_nonrigid")
            = some (baC (refOut eng0C ("spatial") ("align") (some ("iter"))
                (some ("vec")) ("SN-S") (([0, 1].map (readS st0C)).map dsC) j).vecfld
                (if j + 1 = 0 then 10 else 20)).1)) :=
  ⟨by decide, by decide, rfl, by decide,
   @morpho_align_ref_evaluation_only Nat Nat Nat Nat Unit _ eng0C baC dsC
     ("spatial") ("align") (some ("iter")) (some ("vec")) ("SN-S") [0, 1] st0C
     (fun j => if j = 0 then 10 else 20) (by decide) (by decide) rfl (by decide)⟩

/-- On success, `morpho_align` returns exactly the freshly copied address
block. -/
theorem morpho_align_ok_addrs (engine : Engine C T V R E) (sk ka : String)
    (ik vk : Option String) (mode : String) (modelAddrs : List Nat)
    (st0 : Store C T V) :
    ∀ (as' : List Nat) (pis : List (List (List R))),
      (morpho_align engine sk ka ik vk mode modelAddrs st0).2 = Except.ok (as', pis) →
      as' = addrSeq st0.next modelAddrs.length := by
  intro as' pis h
  have haddrs : (copyAll st0 modelAddrs).2 = addrSeq st0.next modelAddrs.length := by
    rw [copyAll, allocAll_addrs]
    simp
  rw [morpho_align] at h
  rcases hq : (alignPairs engine ka ik vk mode (copyAll st0 modelAddrs).2
      ((copyAll st0 modelAddrs).2.length - 1) 0
      (initAll (copyAll st0 modelAddrs).1 (copyAll st0 modelAddrs).2 sk ka) []).2.2
    with _ | e
  · rw [hq] at h
    simp only [Except.ok.injEq, Prod.mk.injEq] at h
    rw [← h.1, haddrs]
  · rw [hq] at h
    simp at h

/-- On success, `morpho_align_ref` with supplied reference models returns
exactly the two freshly copied address blocks. -/
theorem morpho_align_ref_ok_addrs (engine : Engine C T V R E) (ba : Evaluator C V)
    (ds : Downsampler C T V) (sk ka : String) (ik vk : Option String)
    (mode : String) (modelAddrs ra : List Nat) (st1 : Store C T V) :
    ∀ (fa ra2 : List Nat) (pis pisRef : List (List (List R))),
      (morpho_align_ref engine ba ds sk ka ik vk mode modelAddrs (some ra) st1).2
        = Except.ok (fa, ra2, pis, pisRef) →
      fa = addrSeq st1.next modelAddrs.length
      ∧ ra2 = addrSeq (st1.next + modelAddrs.length) ra.length := by
  intro fa ra2 pis pisRef h
  have hlenI : (modelAddrs.map (readS st1)).length = modelAddrs.length := by simp
  have hB2 : (copyAll st1 modelAddrs).2 = addrSeq st1.next modelAddrs.length := by
    rw [copyAll, allocAll_addrs, hlenI]
  have hCnext : (initAll (copyAll st1 modelAddrs).1 (copyAll st1 modelAddrs).2
      sk ka).next = st1.next + modelAddrs.length := by
    rw [initAll_next, copyAll, allocAll_next, hlenI]
  have hD2 : (copyAll (initAll (copyAll st1 modelAddrs).1 (copyAll st1 modelAddrs).2
        sk ka) ra).2
      = addrSeq (st1.next + modelAddrs.length) ra.length := by
    rw [copyAll, allocAll_addrs, hCnext]
    simp
  rw [morpho_align_ref] at h
  rcases hq : (refPairs engine ba ka ik vk mode
      (copyAll (initAll (copyAll st1 modelAddrs).1 (copyAll st1 modelAddrs).2
        sk ka) ra).2
      (copyAll st1 modelAddrs).2 ((copyAll st1 modelAddrs).2.length - 1) 0
      (initAll (copyAll (initAll (copyAll st1 modelAddrs).1
        (copyAll st1 modelAddrs).2 sk ka) ra).1
        (copyAll (initAll (copyAll st1 modelAddrs).1
        (copyAll st1 modelAddrs).2 sk ka) ra).2 sk ka) [] []).2.2.2 with _ | e
  · rw [hq] at h
    simp only [Except.ok.injEq, Prod.mk.injEq] at h
    rw [← h.1, ← h.2.1, hD2, hB2]
    exact ⟨rfl, rfl⟩
  · rw [hq] at h
    simp at h

/-- C5: neither orchestrator mutates the caller's input samples.  Whatever the
engine does (succeed or fail at any pair), every heap cell that existed before
the call — in particular every input sample — is unchanged afterwards, and on
success the returned sample addresses are all freshly allocated (distinct from
every pre-existing cell). -/
theorem orchestrators_do_not_mutate_inputs
    (engine : Engine C T V R E) (ba : Evaluator C V) (ds : Downsampler C T V)
    (sk ka : String) (ik vk : Option String) (mode : String)
    (modelAddrs : List Nat) (refIn : Option (List Nat)) (st0 : Store C T V)
    (hlen : ∀ ra, refIn = some ra → modelAddrs.length ≤ ra.length) :
    (∀ b, b < st0.next →
      readS (morpho_align engine sk ka ik vk mode modelAddrs st0).1 b = readS st0 b)
    ∧ (∀ b, b < st0.next →
      readS (morpho_align_ref engine ba ds sk ka ik vk mode modelAddrs
        refIn st0).1 b = readS st0 b)
    ∧ (∀ (as' : List Nat) (pis : List (List (List R))),
        (morpho_align engine sk ka ik vk mode modelAddrs st0).2
          = Except.ok (as', pis) → ∀ a ∈ as', st0.next ≤ a)
    ∧ (∀ (fa ra2 : List Nat) (pis pisRef : List (List (List R))),
        (morpho_align_ref engine ba ds sk ka ik vk mode modelAddrs refIn st0).2
          = Except.ok (fa, ra2, pis, pisRef) →
        (∀ a ∈ fa, st0.next ≤ a) ∧ (∀ a ∈ ra2, st0.next ≤ a)) := by
  refine ⟨morpho_align_frame engine sk ka ik vk mode modelAddrs st0,
    morpho_align_ref_frame engine ba ds sk ka ik vk mode modelAddrs refIn st0 hlen,
    ?_, ?_⟩
  · intro as' pis h a ha
    rw [morpho_align_ok_addrs engine sk ka ik vk mode modelAddrs st0 as' pis h] at ha
    exact (mem_addrSeq.mp ha).1
  · rcases refIn with _ | ra
    · intro fa ra2 pis pisRef h
      rw [morpho_align_ref_none_eq] at h
      obtain ⟨hfa, hra2⟩ := morpho_align_ref_ok_addrs engine ba ds sk ka ik vk mode
        modelAddrs _ _ fa ra2 pis pisRef h
      have hnx : st0.next ≤ (allocAll (copyAll st0 modelAddrs).1
          ((copyAll st0 modelAddrs).2.map
            (fun a => ds (readS (copyAll st0 modelAddrs).1 a)))).1.next := by
        rw [allocAll_next, copyAll, allocAll_next]
        omega
      constructor
      · intro a ha
        rw [hfa] at ha
        have := (mem_addrSeq.mp ha).1
        omega
      · intro a ha
        rw [hra2] at ha
        have := (mem_addrSeq.mp ha).1
        omega
    · intro fa ra2 pis pisRef h
      obtain ⟨hfa, hra2⟩ := morpho_align_ref_ok_addrs engine ba ds sk ka ik vk mode
        modelAddrs ra st0 fa ra2 pis pisRef h
      constructor
      · intro a ha
        rw [hfa] at ha
        exact (mem_addrSeq.mp ha).1
      · intro a ha
        rw [hra2] at ha
        have := (mem_addrSeq.mp ha).1
        omega

/-- Witness for C5 at the concrete two-sample input with derived reference
models. -/
theorem orchestrators_do_not_mutate_inputs_witness :
    (∀ ra, (none : Option (List Nat)) = some ra → ([0, 1] : List Nat).length ≤ ra.length)
    ∧ ((∀ b, b < st0C.next →
        readS (morpho_align (okE eng0C : Engine Nat Nat Nat Nat Unit) ("spatial")
          ("align") (some ("iter")) (some ("vec")) ("SN-S") [0, 1] st0C).1 b
          = readS st0C b)
      ∧ (∀ b, b < st0C.next →
        readS (morpho_align_ref (okE eng0C : Engine Nat Nat Nat Nat Unit) baC dsC
          ("spatial") ("align") (some ("iter")) (some ("vec")) ("SN-S") [0, 1]
          none st0C).1 b = readS st0C b)
      ∧ (∀ (as' : List Nat) (pis : List (List (List Nat))),
          (morpho_align (okE eng0C : Engine Nat Nat Nat Nat Unit) ("spatial")
            ("align") (some ("iter")) (some ("vec")) ("SN-S") [0, 1] st0C).2
            = Except.ok (as', pis) → ∀ a ∈ as', st0C.next ≤ a)
      ∧ (∀ (fa ra2 : List Nat) (pis pisRef : List (List (List Nat))),
          (morpho_align_ref (okE eng0C : Engine Nat Nat Nat Nat Unit) baC dsC
            ("spatial") ("align") (some ("iter")) (some ("vec")) ("SN-S") [0, 1]
            none st0C).2 = Except.ok (fa, ra2, pis, pisRef) →
          (∀ a ∈ fa, st0C.next ≤ a) ∧ (∀ a ∈ ra2, st0C.next ≤ a))) :=
  ⟨(fun ra h => nomatch h),
   orchestrators_do_not_mutate_inputs (okE eng0C : Engine Nat Nat Nat Nat Unit)
     baC dsC ("spatial") ("align") (some ("iter")) (some ("vec")) ("SN-S")
     [0, 1] none st0C (fun ra h => nomatch h)⟩

theorem obsmWrite_ka_isSome (ka mode : String) (m : SampleData C T V)
    (out : EngineOut C T V R) (hm : (dictGet m.obsm ka).isSome) :
    (dictGet (obsmWrite ka mode m out).obsm ka).isSome := by
  by_cases h1 : mode = "SN-S"
  · subst h1
    rw [obsmWrite_ka_SNS]
    rfl
  · by_cases h2 : mode = "SN-N"
    · subst h2
      rw [obsmWrite_ka_SNN]
      rfl
    · rw [obsmWrite_ka_other ka mode h1 h2]
      exact hm

theorem fullWrite_ka_isSome (ka mode : String) (m : SampleData C T V) (nr rg : C)
    (hm : (dictGet m.obsm ka).isSome) :
    (dictGet (fullWrite ka mode m nr rg).obsm ka).isSome := by
  by_cases h1 : mode = "SN-S"
  · subst h1
    rw [fullWrite_ka_SNS]
    rfl
  · by_cases h2 : mode = "SN-N"
    · subst h2
      rw [fullWrite_ka_SNN]
      rfl
    · rw [fullWrite_ka_other ka mode h1 h2]
      exact hm

/-- C6: in both orchestrators, under every mode, every processed pair attaches
both the rigid- and the non-rigid-aligned coordinates to the later sample (the
landmark later sample gets the engine's two outputs; the full-resolution later
sample gets the evaluator's two outputs), and every returned sample — in the
sequential run as well as in both lists of the reference run — carries all
three coordinate variants: working, rigid and non-rigid. -/
theorem both_orchestrators_attach_both_variants
    (eng0 : String → SampleData C T V → SampleData C T V → EngineOut C T V R)
    (ba : Evaluator C V) (ds : Downsampler C T V) (sk ka : String)
    (ik vk : Option String) (mode : String) (modelAddrs ra : List Nat)
    (st0 : Store C T V)
    (hn : 1 ≤ modelAddrs.length) (hlenR : ra.length = modelAddrs.length)
    (hvalM : ∀ a ∈ modelAddrs, a < st0.next) (hvalR : ∀ a ∈ ra, a < st0.next) :
    (∀ k, k + 1 < modelAddrs.length →
        dictGet (readS (morpho_align (okE eng0 : Engine C T V R E) sk ka ik vk mode
            modelAddrs st0).1 (st0.next + (k + 1))).obsm (ka ++ "_rigid")
          = some (chainOut eng0 sk ka ik vk mode
              (modelAddrs.map (readS st0)) k).optimal_RnA
        ∧ dictGet (readS (morpho_align (okE eng0 : Engine C T V R E) sk ka ik vk mode
            modelAddrs st0).1 (st0.next + (k + 1))).obsm (ka ++ "_nonrigid")
          = some (chainOut eng0 sk ka ik vk mode
              (modelAddrs.map (readS st0)) k).XAHat)
    ∧ (∀ k, k < modelAddrs.length →
        (dictGet (readS (morpho_align (okE eng0 : Engine C T V R E) sk ka ik vk mode
            modelAddrs st0).1 (st0.next + k)).obsm ka).isSome
        ∧ (dictGet (readS (morpho_align (okE eng0 : Engine C T V R E) sk ka ik vk mode
            modelAddrs st0).1 (st0.next + k)).obsm (ka ++ "_rigid")).isSome
        ∧ (dictGet (readS (morpho_align (okE eng0 : Engine C T V R E) sk ka ik vk mode
            modelAddrs st0).1 (st0.next + k)).obsm (ka ++ "_nonrigid")).isSome)
    ∧ (∀ k, k + 1 < modelAddrs.length →
        dictGet (readS (morpho_align_ref (okE eng0 : Engine C T V R E) ba ds sk ka
            ik vk mode modelAddrs (some ra) st0).1
            (st0.next + modelAddrs.length + (k + 1))).obsm (ka ++ "_rigid")
          = some (refOut eng0 sk ka ik vk mode (ra.map (readS st0)) k).optimal_RnA
        ∧ dictGet (readS (morpho_align_ref (okE eng0 : Engine C T V R E) ba ds sk ka
            ik vk mode modelAddrs (some ra) st0).1
            (st0.next + modelAddrs.length + (k + 1))).obsm (ka ++ "_nonrigid")
          = some (refOut eng0 sk ka ik vk mode (ra.map (readS st0)) k).XAHat)
    ∧ (∀ k, k + 1 < modelAddrs.length →
        dictGet (readS (morpho_align_ref (okE eng0 : Engine C T V R E) ba ds sk ka
            ik vk mode modelAddrs (some ra) st0).1 (st0.next + (k + 1))).obsm
            (ka ++ "_rigid")
          = some (ba (refOut eng0 sk ka ik vk mode (ra.map (readS st0)) k).vecfld
              (fullQuery eng0 sk ka ik vk mode (modelAddrs.map (readS st0))
                (ra.map (readS st0)) k)).2.2
        ∧ dictGet (readS (morpho_align_ref (okE eng0 : Engine C T V R E) ba ds sk ka
            ik vk mode modelAddrs (some ra) st0).1 (st0.next + (k + 1))).obsm
            (ka ++ "_nonrigid")
          = some (ba (refOut eng0 sk ka ik vk mode (ra.map (readS st0)) k).vecfld
              (fullQuery eng0 sk ka ik vk mode (modelAddrs.map (readS st0))
                (ra.map (readS st0)) k)).1)
    ∧ (∀ k, k < modelAddrs.length →
        ((dictGet (readS (morpho_align_ref (okE eng0 : Engine C T V R E) ba ds sk ka
            ik vk mode modelAddrs (some ra) st0).1 (st0.next + k)).obsm ka).isSome
          ∧ (dictGet (readS (morpho_align_ref (okE eng0 : Engine C T V R E) ba ds
              sk ka ik vk mode modelAddrs (some ra) st0).1 (st0.next + k)).obsm
              (ka ++ "_rigid")).isSome
          ∧ (dictGet (readS (morpho_align_ref (okE eng0 : Engine C T V R E) ba ds
              sk ka ik vk mode modelAddrs (some ra) st0).1 (st0.next + k)).obsm
              (ka ++ "_nonrigid")).isSome)
        ∧ ((dictGet (readS (morpho_align_ref (okE eng0 : Engine C T V R E) ba ds
              sk ka ik vk mode modelAddrs (some ra) st0).1
              (st0.next + modelAddrs.length + k)).obsm ka).isSome
          ∧ (dictGet (readS (morpho_align_ref (okE eng0 : Engine C T V R E) ba ds
              sk ka ik vk mode modelAddrs (some ra) st0).1
              (st0.next + modelAddrs.length + k)).obsm (ka ++ "_rigid")).isSome
          ∧ (dictGet (readS (morpho_align_ref (okE eng0 : Engine C T V R E) ba ds
              sk ka ik vk mode modelAddrs (some ra) st0).1
              (st0.next + modelAddrs.length + k)).obsm
              (ka ++ "_nonrigid")).isSome)) := by
  obtain ⟨_, h2, _, _, _⟩ :=
    @morpho_align_spec C T V R E _ eng0 sk ka ik vk mode modelAddrs st0 hn
  obtain ⟨_, r2, r3, _, _, _⟩ :=
    @morpho_align_ref_spec C T V R E _ eng0 ba ds sk ka ik vk mode modelAddrs ra st0
      hn hlenR hvalM hvalR
  have hchain : ∀ k, chainSample eng0 sk ka ik vk mode (modelAddrs.map (readS st0))
      (k + 1)
      = pairWrite ka ik vk mode
          (initSample sk ka (modelAddrs.map (readS st0)) (k + 1))
          (chainOut eng0 sk ka ik vk mode (modelAddrs.map (readS st0)) k) :=
    fun k => rfl
  have hrchain : ∀ k, refChain eng0 sk ka ik vk mode (ra.map (readS st0)) (k + 1)
      = pairWrite ka ik vk mode
          (initSample sk ka (ra.map (readS st0)) (k + 1))
          (refOut eng0 sk ka ik vk mode (ra.map (readS st0)) k) :=
    fun k => rfl
  have hfull : ∀ k, fullFinal eng0 ba sk ka ik vk mode (modelAddrs.map (readS st0))
      (ra.map (readS st0)) (k + 1)
      = fullWrite ka mode
          (unsWrite ik vk (initSample sk ka (modelAddrs.map (readS st0)) (k + 1))
            (refOut eng0 sk ka ik vk mode (ra.map (readS st0)) k))
          (ba (refOut eng0 sk ka ik vk mode (ra.map (readS st0)) k).vecfld
            (fullQuery eng0 sk ka ik vk mode (modelAddrs.map (readS st0))
              (ra.map (readS st0)) k)).1
          (ba (refOut eng0 sk ka ik vk mode (ra.map (readS st0)) k).vecfld
            (fullQuery eng0 sk ka ik vk mode (modelAddrs.map (readS st0))
              (ra.map (readS st0)) k)).2.2 :=
    fun k => rfl
  have hinitSome : ∀ (inits : List (SampleData C T V)) (j : Nat),
      (dictGet (initSample sk ka inits j).obsm ka).isSome
      ∧ (dictGet (initSample sk ka inits j).obsm (ka ++ "_rigid")).isSome
      ∧ (dictGet (initSample sk ka inits j).obsm (ka ++ "_nonrigid")).isSome := by
    intro inits j
    refine ⟨?_, ?_, ?_⟩
    · rw [initSample, initModel_ka]
      rfl
    · rw [initSample, initModel_rigid]
      rfl
    · rw [initSample, initModel_nonrigid]
      rfl
  refine ⟨?_, ?_, ?_, ?_, ?_⟩
  · intro k hk
    rw [h2 (k + 1) hk, hchain k, pairWrite_obsm_get, pairWrite_obsm_get,
      obsmWrite_rigid, obsmWrite_nonrigid]
    exact ⟨rfl, rfl⟩
  · intro k hk
    rw [h2 k hk]
    cases k with
    | zero => exact hinitSome _ 0
    | succ m =>
        rw [hchain m, pairWrite_obsm_get, pairWrite_obsm_get, pairWrite_obsm_get,
          obsmWrite_rigid, obsmWrite_nonrigid]
        exact ⟨obsmWrite_ka_isSome ka mode _ _ (hinitSome _ (m + 1)).1, rfl, rfl⟩
  · intro k hk
    rw [r3 (k + 1) hk, hrchain k, pairWrite_obsm_get, pairWrite_obsm_get,
      obsmWrite_rigid, obsmWrite_nonrigid]
    exact ⟨rfl, rfl⟩
  · intro k hk
    rw [r2 (k + 1) hk, hfull k, fullWrite_rigid, fullWrite_nonrigid]
    exact ⟨rfl, rfl⟩
  · intro k hk
    constructor
    · rw [r2 k hk]
      cases k with
      | zero => exact hinitSome _ 0
      | succ m =>
          rw [hfull m, fullWrite_rigid, fullWrite_nonrigid]
          refine ⟨?_, rfl, rfl⟩
          apply fullWrite_ka_isSome
          rw [unsWrite_obsm]
          exact (hinitSome _ (m + 1)).1
    · rw [r3 k hk]
      cases k with
      | zero => exact hinitSome _ 0
      | succ m =>
          rw [hrchain m, pairWrite_obsm_get, pairWrite_obsm_get, pairWrite_obsm_get,
            obsmWrite_rigid, obsmWrite_nonrigid]
          exact ⟨obsmWrite_ka_isSome ka mode _ _ (hinitSome _ (m + 1)).1, rfl, rfl⟩

/-- Witness for C6 at the concrete two-sample input with supplied reference
models. -/
theorem both_orchestrators_attach_both_variants_witness :
    (1 ≤ ([0, 1] : List Nat).length)
    ∧ ([0, 1] : List Nat).length = ([0, 1] : List Nat).length
    ∧ (∀ a ∈ ([0, 1] : List Nat), a < st0C.next)
    ∧ (
    (∀ k, k + 1 < ([0, 1] : List Nat).length →
        dictGet (readS (morpho_align (okE eng0C : Engine Nat Nat Nat Nat Unit) ("spatial") ("align") (some ("iter")) (some ("vec")) ("SN-S")
            [0, 1] st0C).1 (st0C.next + (k + 1))).obsm (("align" : String) ++ "_rigid")
          = some (chainOut eng0C ("spatial") ("align") (some ("iter")) (some ("vec")) ("SN-S")
              (([0, 1] : List Nat).map (readS st0C)) k).optimal_RnA
        ∧ dictGet (readS (morpho_align (okE eng0C : Engine Nat Nat Nat Nat Unit) ("spatial") ("align") (some ("iter")) (some ("vec")) ("SN-S")
            [0, 1] st0C).1 (st0C.next + (k + 1))).obsm (("align" : String) ++ "_nonrigid")
          = some (chainOut eng0C ("spatial") ("align") (some ("iter")) (some ("vec")) ("SN-S")
              (([0, 1] : List Nat).map (readS st0C)) k).XAHat)
    ∧ (∀ k, k < ([0, 1] : List Nat).length →
        (dictGet (readS (morpho_align (okE eng0C : Engine Nat Nat Nat Nat Unit) ("spatial") ("align") (some ("iter")) (some ("vec")) ("SN-S")
            [0, 1] st0C).1 (st0C.next + k)).obsm ("align")).isSome
        ∧ (dictGet (readS (morpho_align (okE eng0C : Engine Nat Nat Nat Nat Unit) ("spatial") ("align") (some ("iter")) (some ("vec")) ("SN-S")
            [0, 1] st0C).1 (st0C.next + k)).obsm (("align" : String) ++ "_rigid")).isSome
        ∧ (dictGet (readS (morpho_align (okE eng0C : Engine Nat Nat Nat Nat Unit) ("spatial") ("align") (some ("iter")) (some ("vec")) ("SN-S")
            [0, 1] st0C).1 (st0C.next + k)).obsm (("align" : String) ++ "_nonrigid")).isSome)
    ∧ (∀ k, k + 1 < ([0, 1] : List Nat).length →
        dictGet (readS (morpho_align_ref (okE eng0C : Engine Nat Nat Nat Nat Unit) baC dsC ("spatial") ("align")
            (some ("iter")) (some ("vec")) ("SN-S") [0, 1] (some [0, 1]) st0C).1
            (st0C.next + ([0, 1] : List Nat).length + (k + 1))).obsm (("align" : String) ++ "_rigid")
          = some (refOut eng0C ("spatial") ("align") (some ("iter")) (some ("vec")) ("SN-S") (([0, 1] : List Nat).map (readS st0C)) k).optimal_RnA
        ∧ dictGet (readS (morpho_align_ref (okE eng0C : Engine Nat Nat Nat Nat Unit) baC dsC ("spatial") ("align")
            (some ("iter")) (some ("vec")) ("SN-S") [0, 1] (some [0, 1]) st0C).1
            (st0C.next + ([0, 1] : List Nat).length + (k + 1))).obsm (("align" : String) ++ "_nonrigid")
          = some (refOut eng0C ("spatial") ("align") (some ("iter")) (some ("vec")) ("SN-S") (([0, 1] : List Nat).map (readS st0C)) k).XAHat)
    ∧ (∀ k, k + 1 < ([0, 1] : List Nat).length →
        dictGet (readS (morpho_align_ref (okE eng0C : Engine Nat Nat Nat Nat Unit) baC dsC ("spatial") ("align")
            (some ("iter")) (some ("vec")) ("SN-S") [0, 1] (some [0, 1]) st0C).1 (st0C.next + (k + 1))).obsm
            (("align" : String) ++ "_rigid")
          = some (baC (refOut eng0C ("spatial") ("align") (some ("iter")) (some ("vec")) ("SN-S") (([0, 1] : List Nat).map (readS st0C)) k).vecfld
              (fullQuery eng0C ("spatial") ("align") (some ("iter")) (some ("vec")) ("SN-S") (([0, 1] : List Nat).map (readS st0C))
                (([0, 1] : List Nat).map (readS st0C)) k)).2.2
        ∧ dictGet (readS (morpho_align_ref (okE eng0C : Engine Nat Nat Nat Nat Unit) baC dsC ("spatial") ("align")
            (some ("iter")) (some ("vec")) ("SN-S") [0, 1] (some [0, 1]) st0C).1 (st0C.next + (k + 1))).obsm
            (("align" : String) ++ "_nonrigid")
          = some (baC (refOut eng0C ("spatial") ("align") (some ("iter")) (some ("vec")) ("SN-S") (([0, 1] : List Nat).map (readS st0C)) k).vecfld
              (fullQuery eng0C ("spatial") ("align") (some ("iter")) (some ("vec")) ("SN-S") (([0, 1] : List Nat).map (readS st0C))
                (([0, 1] : List Nat).map (readS st0C)) k)).1)
    ∧ (∀ k, k < ([0, 1] : List Nat).length →
        ((dictGet (readS (morpho_align_ref (okE eng0C : Engine Nat Nat Nat Nat Unit) baC dsC ("spatial") ("align")
            (some ("iter")) (some ("vec")) ("SN-S") [0, 1] (some [0, 1]) st0C).1 (st0C.next + k)).obsm ("align")).isSome
          ∧ (dictGet (readS (morpho_align_ref (okE eng0C : Engine Nat Nat Nat Nat Unit) baC dsC
              ("spatial") ("align") (some ("iter")) (some ("vec")) ("SN-S") [0, 1] (some [0, 1]) st0C).1 (st0C.next + k)).obsm
              (("align" : String) ++ "_rigid")).isSome
          ∧ (dictGet (readS (morpho_align_ref (okE eng0C : Engine Nat Nat Nat Nat Unit) baC dsC
              ("spatial") ("align") (some ("iter")) (some ("vec")) ("SN-S") [0, 1] (some [0, 1]) st0C).1 (st0C.next + k)).obsm
              (("align" : String) ++ "_nonrigid")).isSome)
        ∧ ((dictGet (readS (morpho_align_ref (okE eng0C : Engine Nat Nat Nat Nat Unit) baC dsC
              ("spatial") ("align") (some ("iter")) (some ("vec")) ("SN-S") [0, 1] (some [0, 1]) st0C).1
              (st0C.next + ([0, 1] : List Nat).length + k)).obsm ("align")).isSome
          ∧ (dictGet (readS (morpho_align_ref (okE eng0C : Engine Nat Nat Nat Nat Unit) baC dsC
              ("spatial") ("align") (some ("iter")) (some ("vec")) ("SN-S") [0, 1] (some [0, 1]) st0C).1
              (st0C.next + ([0, 1] : List Nat).length + k)).obsm (("align" : String) ++ "_rigid")).isSome
          ∧ (dictGet (readS (morpho_align_ref (okE eng0C : Engine Nat Nat Nat Nat Unit) baC dsC
              ("spatial") ("align") (some ("iter")) (some ("vec")) ("SN-S") [0, 1] (some [0, 1]) st0C).1
              (st0C.next + ([0, 1] : List Nat).length + k)).obsm
              (("align" : String) ++ "_nonrigid")).isSome))    ) :=
  ⟨by decide, rfl, by decide,
   @both_orchestrators_attach_both_variants Nat Nat Nat Nat Unit _ eng0C baC dsC
     ("spatial") ("align") (some ("iter")) (some ("vec")) ("SN-S") [0, 1] [0, 1]
     st0C (by decide) rfl (by decide) (by decide)⟩

/-- C7: atomicity of `morpho_align` on error.  If the engine fails at some pair
`j` after succeeding (with the total engine `eng0`'s outputs) on all earlier
pairs, the whole call returns exactly that error — no list of partially aligned
samples or correspondence matrices is produced — and every heap cell that
existed before the call, in particular every input sample, is unchanged. -/
theorem morpho_align_error_atomicity (engine : Engine C T V R E)
    (eng0 : String → SampleData C T V → SampleData C T V → EngineOut C T V R)
    (sk ka : String) (ik vk : Option String) (mode : String)
    (modelAddrs : List Nat) (st0 : Store C T V) (j : Nat) (e : E)
    (hj : j + 1 < modelAddrs.length)
    (hagree : ∀ m, m < j →
      engine ka (initSample sk ka (modelAddrs.map (readS st0)) (m + 1))
          (chainSample eng0 sk ka ik vk mode (modelAddrs.map (readS st0)) m)
        = Except.ok (eng0 ka (initSample sk ka (modelAddrs.map (readS st0)) (m + 1))
            (chainSample eng0 sk ka ik vk mode (modelAddrs.map (readS st0)) m)))
    (herr : engine ka (initSample sk ka (modelAddrs.map (readS st0)) (j + 1))
        (chainSample eng0 sk ka ik vk mode (modelAddrs.map (readS st0)) j)
      = Except.error e) :
    (morpho_align engine sk ka ik vk mode modelAddrs st0).2 = Except.error e
    ∧ (∀ b, b < st0.next →
        readS (morpho_align engine sk ka ik vk mode modelAddrs st0).1 b
          = readS st0 b) :=
  ⟨morpho_align_error engine eng0 sk ka ik vk mode modelAddrs st0 j e hj hagree herr,
   morpho_align_frame engine sk ka ik vk mode modelAddrs st0⟩

/-- Witness for C7: an engine that fails at the first pair. -/
theorem morpho_align_error_atomicity_witness :
    (0 + 1 < ([0, 1] : List Nat).length)
    ∧ (∀ m, m < 0 →
        engFailC ("align")
            (initSample ("spatial") ("align") ([0, 1].map (readS st0C)) (m + 1))
            (chainSample eng0C ("spatial") ("align") (some ("iter")) (some ("vec"))
              ("SN-S") ([0, 1].map (readS st0C)) m)
          = Except.ok (eng0C ("align")
              (initSample ("spatial") ("align") ([0, 1].map (readS st0C)) (m + 1))
              (chainSample eng0C ("spatial") ("align") (some ("iter")) (some ("vec"))
                ("SN-S") ([0, 1].map (readS st0C)) m)))
    ∧ engFailC ("align")
        (initSample ("spatial") ("align") ([0, 1].map (readS st0C)) (0 + 1))
        (chainSample eng0C ("spatial") ("align") (some ("iter")) (some ("vec"))
          ("SN-S") ([0, 1].map (readS st0C)) 0)
      = Except.error ()
    ∧ ((morpho_align engFailC ("spatial") ("align") (some ("iter")) (some ("vec"))
        ("SN-S") [0, 1] st0C).2 = Except.error ()
      ∧ (∀ b, b < st0C.next →
          readS (morpho_align engFailC ("spatial") ("align") (some ("iter"))
            (some ("vec")) ("SN-S") [0, 1] st0C).1 b = readS st0C b)) :=
  ⟨by decide, (fun m hm => absurd hm (Nat.not_lt_zero m)), rfl,
   morpho_align_error_atomicity engFailC eng0C ("spatial") ("align") (some ("iter"))
     (some ("vec")) ("SN-S") [0, 1] st0C 0 () (by decide)
     (fun m hm => absurd hm (Nat.not_lt_zero m)) rfl⟩

/-- C8 counterexample: a `morpho_align_ref` run that performs one pairwise
registration (one recorded engine call) records no cache release at all, so the
cache-clearing collaborator is not invoked after every pairwise call in both
orchestrators. -/
theorem ref_no_cache_release_counterexample :
    (engineCalls (morpho_align_ref (okE eng0C : Engine Nat Nat Nat Nat Unit) baC dsC
      ("spatial") ("align") (some ("iter")) (some ("vec")) ("SN-S") [0, 1]
      (some [0, 1]) st0C).1.events).length = 1
    ∧ cacheCount (morpho_align_ref (okE eng0C : Engine Nat Nat Nat Nat Unit) baC dsC
      ("spatial") ("align") (some ("iter")) (some ("vec")) ("SN-S") [0, 1]
      (some [0, 1]) st0C).1.events = 0 :=
  ⟨rfl, rfl⟩

/-- C8 amended: `morpho_align` releases the device cache exactly once after
every pairwise registration call and before the next pair begins (its event
trace is the per-pair interleaving engine call, cache release, engine call,
cache release, ...), while `morpho_align_ref` never invokes the cache-clearing
collaborator at all, whatever its engine does and whether or not reference
models are supplied. -/
theorem cache_release_schedule
    (eng0 : String → SampleData C T V → SampleData C T V → EngineOut C T V R)
    (engine : Engine C T V R E) (ba : Evaluator C V) (ds : Downsampler C T V)
    (sk ka : String) (ik vk : Option String) (mode : String)
    (modelAddrs : List Nat) (refIn : Option (List Nat)) (st0 : Store C T V)
    (hn : 1 ≤ modelAddrs.length) (hev0 : st0.events = []) :
    (morpho_align (okE eng0 : Engine C T V R E) sk ka ik vk mode
        modelAddrs st0).1.events
      = chainEvents eng0 sk ka ik vk mode (modelAddrs.map (readS st0)) 0
          (modelAddrs.length - 1)
    ∧ (morpho_align (okE eng0 : Engine C T V R E) sk ka ik vk mode
        modelAddrs st0).1.events.length = 2 * (modelAddrs.length - 1)
    ∧ (∀ j, j < modelAddrs.length - 1 →
        (morpho_align (okE eng0 : Engine C T V R E) sk ka ik vk mode
          modelAddrs st0).1.events.getD (2 * j) default
          = Event.engineCall ka
              (initSample sk ka (modelAddrs.map (readS st0)) (j + 1))
              (chainSample eng0 sk ka ik vk mode (modelAddrs.map (readS st0)) j)
        ∧ (morpho_align (okE eng0 : Engine C T V R E) sk ka ik vk mode
            modelAddrs st0).1.events.getD (2 * j + 1) default
          = Event.emptyCache)
    ∧ cacheCount (morpho_align_ref engine ba ds sk ka ik vk mode modelAddrs
        refIn st0).1.events = cacheCount st0.events := by
  obtain ⟨_, _, _, h4, _⟩ :=
    @morpho_align_spec C T V R E _ eng0 sk ka ik vk mode modelAddrs st0 hn
  have hev : (morpho_align (okE eng0 : Engine C T V R E) sk ka ik vk mode
      modelAddrs st0).1.events
      = chainEvents eng0 sk ka ik vk mode (modelAddrs.map (readS st0)) 0
          (modelAddrs.length - 1) := by
    rw [h4, hev0]
    rfl
  refine ⟨hev, ?_, ?_, cacheCount_morpho_align_ref engine ba ds sk ka ik vk mode
    modelAddrs refIn st0⟩
  · rw [hev, chainEvents_length]
  · intro j hj
    constructor
    · rw [hev, chainEvents_getD_even _ _ _ _ _ _ _ _ _ _ hj, Nat.zero_add]
    · rw [hev, chainEvents_getD_odd _ _ _ _ _ _ _ _ _ _ hj]

theorem chainSample_obsm_ka_other_mode
    (eng0 : String → SampleData C T V → SampleData C T V → EngineOut C T V R)
    (sk ka : String) (ik vk : Option String) (mode : String)
    (inits : List (SampleData C T V)) (hm1 : mode ≠ "SN-S") (hm2 : mode ≠ "SN-N")
    (k : Nat) :
    dictGet (chainSample eng0 sk ka ik vk mode inits k).obsm ka
      = some ((dictGet (inits.getD k default).obsm sk).getD default) := by
  cases k with
  | zero => exact initModel_ka sk ka _
  | succ m =>
      have hstep : chainSample eng0 sk ka ik vk mode inits (m + 1)
          = pairWrite ka ik vk mode (initSample sk ka inits (m + 1))
              (eng0 ka (initSample sk ka inits (m + 1))
                (chainSample eng0 sk ka ik vk mode inits m)) := rfl
      rw [hstep, pairWrite_obsm_get, obsmWrite_ka_other ka mode hm1 hm2]
      exact initModel_ka sk ka _

theorem fullFinal_obsm_ka_other_mode
    (eng0 : String → SampleData C T V → SampleData C T V → EngineOut C T V R)
    (ba : Evaluator C V) (sk ka : String) (ik vk : Option String) (mode : String)
    (inits initsR : List (SampleData C T V)) (hm1 : mode ≠ "SN-S")
    (hm2 : mode ≠ "SN-N") (k : Nat) :
    dictGet (fullFinal eng0 ba sk ka ik vk mode inits initsR k).obsm ka
      = some ((dictGet (inits.getD k default).obsm sk).getD default) := by
  cases k with
  | zero => exact initModel_ka sk ka _
  | succ m =>
      have hstep : fullFinal eng0 ba sk ka ik vk mode inits initsR (m + 1)
          = fullWrite ka mode
              (unsWrite ik vk (initSample sk ka inits (m + 1))
                (refOut eng0 sk ka ik vk mode initsR m))
              (ba (refOut eng0 sk ka ik vk mode initsR m).vecfld
                (fullQuery eng0 sk ka ik vk mode inits initsR m)).1
              (ba (refOut eng0 sk ka ik vk mode initsR m).vecfld
                (fullQuery eng0 sk ka ik vk mode inits initsR m)).2.2 := rfl
      rw [hstep, fullWrite_ka_other ka mode hm1 hm2, unsWrite_obsm]
      exact initModel_ka sk ka _

/-- C9: a mode string other than "SN-S" and "SN-N" is never rejected at the
interface: both orchestrators complete without error, the rigid and non-rigid
coordinate variants are still computed and attached for every pair (on the
sequential samples, the reference orchestrator's landmark samples, and its
full-resolution samples), yet every sample's working coordinate silently
retains the initial spatial copy — `cs k` for the full-resolution / sequential
samples and `csR k` for the landmark samples. -/
theorem invalid_mode_silently_accepted
    (eng0 : String → SampleData C T V → SampleData C T V → EngineOut C T V R)
    (ba : Evaluator C V) (ds : Downsampler C T V) (sk ka : String)
    (ik vk : Option String) (mode : String) (modelAddrs ra : List Nat)
    (st0 : Store C T V) (cs csR : Nat → C)
    (hm1 : mode ≠ "SN-S") (hm2 : mode ≠ "SN-N")
    (hn : 1 ≤ modelAddrs.length) (hlenR : ra.length = modelAddrs.length)
    (hvalM : ∀ a ∈ modelAddrs, a < st0.next) (hvalR : ∀ a ∈ ra, a < st0.next)
    (hq : ∀ j, j < modelAddrs.length →
        dictGet (readS st0 (modelAddrs.getD j 0)).obsm sk = some (cs j))
    (hqR : ∀ j, j < modelAddrs.length →
        dictGet (readS st0 (ra.getD j 0)).obsm sk = some (csR j)) :
    (morpho_align (okE eng0 : Engine C T V R E) sk ka ik vk mode modelAddrs st0).2
      = Except.ok (addrSeq st0.next modelAddrs.length,
          chainPis eng0 sk ka ik vk mode (modelAddrs.map (readS st0)) 0
            (modelAddrs.length - 1))
    ∧ (morpho_align_ref (okE eng0 : Engine C T V R E) ba ds sk ka ik vk mode
        modelAddrs (some ra) st0).2
      = Except.ok (addrSeq st0.next modelAddrs.length,
          addrSeq (st0.next + modelAddrs.length) modelAddrs.length,
          refPis eng0 sk ka ik vk mode (ra.map (readS st0)) 0
            (modelAddrs.length - 1),
          refPis eng0 sk ka ik vk mode (ra.map (readS st0)) 0
            (modelAddrs.length - 1))
    ∧ (∀ k, k + 1 < modelAddrs.length →
        dictGet (readS (morpho_align (okE eng0 : Engine C T V R E) sk ka ik vk mode
            modelAddrs st0).1 (st0.next + (k + 1))).obsm (ka ++ "_rigid")
          = some (chainOut eng0 sk ka ik vk mode
              (modelAddrs.map (readS st0)) k).optimal_RnA
        ∧ dictGet (readS (morpho_align (okE eng0 : Engine C T V R E) sk ka ik vk
            mode modelAddrs st0).1 (st0.next + (k + 1))).obsm (ka ++ "_nonrigid")
          = some (chainOut eng0 sk ka ik vk mode
              (modelAddrs.map (readS st0)) k).XAHat)
    ∧ (∀ k, k + 1 < modelAddrs.length →
        dictGet (readS (morpho_align_ref (okE eng0 : Engine C T V R E) ba ds sk ka
            ik vk mode modelAddrs (some ra) st0).1
            (st0.next + modelAddrs.length + (k + 1))).obsm (ka ++ "_rigid")
          = some (refOut eng0 sk ka ik vk mode (ra.map (readS st0)) k).optimal_RnA
        ∧ dictGet (readS (morpho_align_ref (okE eng0 : Engine C T V R E) ba ds sk ka
            ik vk mode modelAddrs (some ra) st0).1
            (st0.next + modelAddrs.length + (k + 1))).obsm (ka ++ "_nonrigid")
          = some (refOut eng0 sk ka ik vk mode (ra.map (readS st0)) k).XAHat
        ∧ (dictGet (readS (morpho_align_ref (okE eng0 : Engine C T V R E) ba ds sk
            ka ik vk mode modelAddrs (some ra) st0).1
            (st0.next + (k + 1))).obsm (ka ++ "_rigid")).isSome
        ∧ (dictGet (readS (morpho_align_ref (okE eng0 : Engine C T V R E) ba ds sk
            ka ik vk mode modelAddrs (some ra) st0).1
            (st0.next + (k + 1))).obsm (ka ++ "_nonrigid")).isSome)
    ∧ (∀ k, k < modelAddrs.length →
        dictGet (readS (morpho_align (okE eng0 : Engine C T V R E) sk ka ik vk mode
            modelAddrs st0).1 (st0.next + k)).obsm ka = some (cs k))
    ∧ (∀ k, k < modelAddrs.length →
        dictGet (readS (morpho_align_ref (okE eng0 : Engine C T V R E) ba ds sk ka
            ik vk mode modelAddrs (some ra) st0).1 (st0.next + k)).obsm ka
          = some (cs k))
    ∧ (∀ k, k < modelAddrs.length →
        dictGet (readS (morpho_align_ref (okE eng0 : Engine C T V R E) ba ds sk ka
            ik vk mode modelAddrs (some ra) st0).1
            (st0.next + modelAddrs.length + k)).obsm ka = some (csR k)) := by
  obtain ⟨h1, h2, _, _, _⟩ :=
    @morpho_align_spec C T V R E _ eng0 sk ka ik vk mode modelAddrs st0 hn
  obtain ⟨r1, r2, r3, _, _, _⟩ :=
    @morpho_align_ref_spec C T V R E _ eng0 ba ds sk ka ik vk mode modelAddrs ra st0
      hn hlenR hvalM hvalR
  have hchain : ∀ k, chainSample eng0 sk ka ik vk mode (modelAddrs.map (readS st0))
      (k + 1)
      = pairWrite ka ik vk mode
          (initSample sk ka (modelAddrs.map (readS st0)) (k + 1))
          (chainOut eng0 sk ka ik vk mode (modelAddrs.map (readS st0)) k) :=
    fun k => rfl
  have hrchain : ∀ k, refChain eng0 sk ka ik vk mode (ra.map (readS st0)) (k + 1)
      = pairWrite ka ik vk mode
          (initSample sk ka (ra.map (readS st0)) (k + 1))
          (refOut eng0 sk ka ik vk mode (ra.map (readS st0)) k) :=
    fun k => rfl
  have hfull : ∀ k, fullFinal eng0 ba sk ka ik vk mode (modelAddrs.map (readS st0))
      (ra.map (readS st0)) (k + 1)
      = fullWrite ka mode
          (unsWrite ik vk (initSample sk ka (modelAddrs.map (readS st0)) (k + 1))
            (refOut eng0 sk ka ik vk mode (ra.map (readS st0)) k))
          (ba (refOut eng0 sk ka ik vk mode (ra.map (readS st0)) k).vecfld
            (fullQuery eng0 sk ka ik vk mode (modelAddrs.map (readS st0))
              (ra.map (readS st0)) k)).1
          (ba (refOut eng0 sk ka ik vk mode (ra.map (readS st0)) k).vecfld
            (fullQuery eng0 sk ka ik vk mode (modelAddrs.map (readS st0))
              (ra.map (readS st0)) k)).2.2 :=
    fun k => rfl
  have hgetM : ∀ k, k < modelAddrs.length →
      (modelAddrs.map (readS st0)).getD k default = readS st0 (modelAddrs.getD k 0) :=
    fun k hk => getD_map_of_lt (readS st0) modelAddrs hk 0 default
  have hgetR : ∀ k, k < modelAddrs.length →
      (ra.map (readS st0)).getD k default = readS st0 (ra.getD k 0) :=
    fun k hk => getD_map_of_lt (readS st0) ra (by rw [hlenR]; exact hk) 0 default
  refine ⟨h1, r1, ?_, ?_, ?_, ?_, ?_⟩
  · intro k hk
    rw [h2 (k + 1) hk, hchain k, pairWrite_obsm_get, pairWrite_obsm_get,
      obsmWrite_rigid, obsmWrite_nonrigid]
    exact ⟨rfl, rfl⟩
  · intro k hk
    rw [r3 (k + 1) hk, hrchain k, r2 (k + 1) hk, hfull k, pairWrite_obsm_get,
      pairWrite_obsm_get, obsmWrite_rigid, obsmWrite_nonrigid, fullWrite_rigid,
      fullWrite_nonrigid]
    exact ⟨rfl, rfl, rfl, rfl⟩
  · intro k hk
    rw [h2 k hk, chainSample_obsm_ka_other_mode eng0 sk ka ik vk mode _ hm1 hm2 k,
      hgetM k hk, hq k hk]
    rfl
  · intro k hk
    rw [r2 k hk, fullFinal_obsm_ka_other_mode eng0 ba sk ka ik vk mode _ _ hm1 hm2 k,
      hgetM k hk, hq k hk]
    rfl
  · intro k hk
    have hrc : refChain eng0 sk ka ik vk mode (ra.map (readS st0)) k
        = chainSample eng0 sk ka ik vk mode (ra.map (readS st0)) k := rfl
    rw [r3 k hk, hrc,
      chainSample_obsm_ka_other_mode eng0 sk ka ik vk mode _ hm1 hm2 k,
      hgetR k hk, hqR k hk]
    rfl

/-- Witness for C9 at the concrete two-sample input with the unrecognised mode
string "X". -/
theorem invalid_mode_silently_accepted_witness :
    (("X" : String) ≠ "SN-S")
    ∧ (("X" : String) ≠ "SN-N")
    ∧ (1 ≤ ([0, 1] : List Nat).length)
    ∧ ([0, 1] : List Nat).length = ([0, 1] : List Nat).length
    ∧ (∀ a ∈ ([0, 1] : List Nat), a < st0C.next)
    ∧ (∀ j, j < ([0, 1] : List Nat).length →
        dictGet (readS st0C (([0, 1] : List Nat).getD j 0)).obsm ("spatial")
          = some (csC j))
    ∧ (

    (morpho_align (okE eng0C : Engine Nat Nat Nat Nat Unit) ("spatial") ("align" : String) (some ("iter")) (some ("vec")) ("X") ([0, 1] : List Nat) st0C).2
      = Except.ok (addrSeq st0C.next ([0, 1] : List Nat).length,
          chainPis eng0C ("spatial") ("align" : String) (some ("iter")) (some ("vec")) ("X") (([0, 1] : List Nat).map (readS st0C)) 0
            (([0, 1] : List Nat).length - 1))
    ∧ (morpho_align_ref (okE eng0C : Engine Nat Nat Nat Nat Unit) baC dsC ("spatial") ("align" : String) (some ("iter")) (some ("vec")) ("X")
        ([0, 1] : List Nat) (some ([0, 1] : List Nat)) st0C).2
      = Except.ok (addrSeq st0C.next ([0, 1] : List Nat).length,
          addrSeq (st0C.next + ([0, 1] : List Nat).length) ([0, 1] : List Nat).length,
          refPis eng0C ("spatial") ("align" : String) (some ("iter")) (some ("vec")) ("X") (([0, 1] : List Nat).map (readS st0C)) 0
            (([0, 1] : List Nat).length - 1),
          refPis eng0C ("spatial") ("align" : String) (some ("iter")) (some ("vec")) ("X") (([0, 1] : List Nat).map (readS st0C)) 0
            (([0, 1] : List Nat).length - 1))
    ∧ (∀ k, k + 1 < ([0, 1] : List Nat).length →
        dictGet (readS (morpho_align (okE eng0C : Engine Nat Nat Nat Nat Unit) ("spatial") ("align" : String) (some ("iter")) (some ("vec")) ("X")
            ([0, 1] : List Nat) st0C).1 (st0C.next + (k + 1))).obsm (("align" : String) ++ "_rigid")
          = some (chainOut eng0C ("spatial") ("align" : String) (some ("iter")) (some ("vec")) ("X")
              (([0, 1] : List Nat).map (readS st0C)) k).optimal_RnA
        ∧ dictGet (readS (morpho_align (okE eng0C : Engine Nat Nat Nat Nat Unit) ("spatial") ("align" : String) (some ("iter")) (some ("vec"))
            ("X") ([0, 1] : List Nat) st0C).1 (st0C.next + (k + 1))).obsm (("align" : String) ++ "_nonrigid")
          = some (chainOut eng0C ("spatial") ("align" : String) (some ("iter")) (some ("vec")) ("X")
              (([0, 1] : List Nat).map (readS st0C)) k).XAHat)
    ∧ (∀ k, k + 1 < ([0, 1] : List Nat).length →
        dictGet (readS (morpho_align_ref (okE eng0C : Engine Nat Nat Nat Nat Unit) baC dsC ("spatial") ("align" : String)
            (some ("iter")) (some ("vec")) ("X") ([0, 1] : List Nat) (some ([0, 1] : List Nat)) st0C).1
            (st0C.next + ([0, 1] : List Nat).length + (k + 1))).obsm (("align" : String) ++ "_rigid")
          = some (refOut eng0C ("spatial") ("align" : String) (some ("iter")) (some ("vec")) ("X") (([0, 1] : List Nat).map (readS st0C)) k).optimal_RnA
        ∧ dictGet (readS (morpho_align_ref (okE eng0C : Engine Nat Nat Nat Nat Unit) baC dsC ("spatial") ("align" : String)
            (some ("iter")) (some ("vec")) ("X") ([0, 1] : List Nat) (some ([0, 1] : List Nat)) st0C).1
            (st0C.next + ([0, 1] : List Nat).length + (k + 1))).obsm (("align" : String) ++ "_nonrigid")
          = some (refOut eng0C ("spatial") ("align" : String) (some ("iter")) (some ("vec")) ("X") (([0, 1] : List Nat).map (readS st0C)) k).XAHat
        ∧ (dictGet (readS (morpho_align_ref (okE eng0C : Engine Nat Nat Nat Nat Unit) baC dsC ("spatial")
            ("align" : String) (some ("iter")) (some ("vec")) ("X") ([0, 1] : List Nat) (some ([0, 1] : List Nat)) st0C).1
            (st0C.next + (k + 1))).obsm (("align" : String) ++ "_rigid")).isSome
        ∧ (dictGet (readS (morpho_align_ref (okE eng0C : Engine Nat Nat Nat Nat Unit) baC dsC ("spatial")
            ("align" : String) (some ("iter")) (some ("vec")) ("X") ([0, 1] : List Nat) (some ([0, 1] : List Nat)) st0C).1
            (st0C.next + (k + 1))).obsm (("align" : String) ++ "_nonrigid")).isSome)
    ∧ (∀ k, k < ([0, 1] : List Nat).length →
        dictGet (readS (morpho_align (okE eng0C : Engine Nat Nat Nat Nat Unit) ("spatial") ("align" : String) (some ("iter")) (some ("vec")) ("X")
            ([0, 1] : List Nat) st0C).1 (st0C.next + k)).obsm ("align" : String) = some (csC k))
    ∧ (∀ k, k < ([0, 1] : List Nat).length →
        dictGet (readS (morpho_align_ref (okE eng0C : Engine Nat Nat Nat Nat Unit) baC dsC ("spatial") ("align" : String)
            (some ("iter")) (some ("vec")) ("X") ([0, 1] : List Nat) (some ([0, 1] : List Nat)) st0C).1 (st0C.next + k)).obsm ("align" : String)
          = some (csC k))
    ∧ (∀ k, k < ([0, 1] : List Nat).length →
        dictGet (readS (morpho_align_ref (okE eng0C : Engine Nat Nat Nat Nat Unit) baC dsC ("spatial") ("align" : String)
            (some ("iter")) (some ("vec")) ("X") ([0, 1] : List Nat) (some ([0, 1] : List Nat)) st0C).1
            (st0C.next + ([0, 1] : List Nat).length + k)).obsm ("align" : String) = some (csC k))
    ) :=
  ⟨by decide, by decide, by decide, rfl, by decide, by decide,
   @invalid_mode_silently_accepted Nat Nat Nat Nat Unit _ eng0C baC dsC ("spatial")
     ("align") (some ("iter")) (some ("vec")) ("X") [0, 1] [0, 1] st0C csC csC
     (by decide) (by decide) (by decide) rfl (by decide) (by decide) (by decide)
     (by decide)⟩

/-- Witness for the amended C8 at the concrete two-sample input. -/
theorem cache_release_schedule_witness :
    (1 ≤ ([0, 1] : List Nat).length)
    ∧ st0C.events = []
    ∧ ((morpho_align (okE eng0C : Engine Nat Nat Nat Nat Unit) ("spatial") ("align")
        (some ("iter")) (some ("vec")) ("SN-S") [0, 1] st0C).1.events
        = chainEvents eng0C ("spatial") ("align") (some ("iter")) (some ("vec"))
            ("SN-S") ([0, 1].map (readS st0C)) 0 (([0, 1] : List Nat).length - 1)
      ∧ (morpho_align (okE eng0C : Engine Nat Nat Nat Nat Unit) ("spatial") ("align")
          (some ("iter")) (some ("vec")) ("SN-S")
          [0, 1] st0C).1.events.length = 2 * (([0, 1] : List Nat).length - 1)
      ∧ (∀ j, j < ([0, 1] : List Nat).length - 1 →
          (morpho_align (okE eng0C : Engine Nat Nat Nat Nat Unit) ("spatial")
            ("align") (some ("iter")) (some ("vec")) ("SN-S")
            [0, 1] st0C).1.events.getD (2 * j) default
            = Event.engineCall ("align")
                (initSample ("spatial") ("align") ([0, 1].map (readS st0C)) (j + 1))
                (chainSample eng0C ("spatial") ("align") (some ("iter"))
                  (some ("vec")) ("SN-S") ([0, 1].map (readS st0C)) j)
          ∧ (morpho_align (okE eng0C : Engine Nat Nat Nat Nat Unit) ("spatial")
              ("align") (some ("iter")) (some ("vec")) ("SN-S")
              [0, 1] st0C).1.events.getD (2 * j + 1) default
            = Event.emptyCache)
      ∧ cacheCount (morpho_align_ref (okE eng0C : Engine Nat Nat Nat Nat Unit) baC
          dsC ("spatial") ("align") (some ("iter")) (some ("vec")) ("SN-S") [0, 1]
          (some [0, 1]) st0C).1.events = cacheCount st0C.events) :=
  ⟨by decide, rfl,
   @cache_release_schedule Nat Nat Nat Nat Unit _ eng0C
     (okE eng0C : Engine Nat Nat Nat Nat Unit) baC dsC ("spatial") ("align")
     (some ("iter")) (some ("vec")) ("SN-S") [0, 1] (some [0, 1]) st0C
     (by decide) rfl⟩

/-- C10 counterexample: with `iter_key_added` and `vecfld_key_added` naming the
same key "k", the later sample's metadata holds only the fitted vector field at
"k" (the field write overwrites the trace), and the per-iteration trace is
attached at no metadata key at all even though `iter_key_added` is not None —
refuting the claimed "if and only if" for the trace. -/
theorem metadata_key_collision_counterexample :
    (readS (morpho_align (okE eng0C : Engine Nat Nat Nat Nat Unit) ("spatial")
        ("align") (some ("k")) (some ("k")) ("SN-S") [0, 1] st0C).1 3).uns
      = [(("k" : String), Sum.inr 8)]
    ∧ ∀ key, dictGet (readS (morpho_align (okE eng0C : Engine Nat Nat Nat Nat Unit)
        ("spatial") ("align") (some ("k")) (some ("k")) ("SN-S") [0, 1]
        st0C).1 3).uns key ≠ some (Sum.inl 7) := by
  have h : (readS (morpho_align (okE eng0C : Engine Nat Nat Nat Nat Unit) ("spatial")
      ("align") (some ("k")) (some ("k")) ("SN-S") [0, 1] st0C).1 3).uns
      = [(("k" : String), Sum.inr 8)] := rfl
  refine ⟨h, ?_⟩
  intro key
  rw [h]
  simp only [dictGet]
  split_ifs <;> simp

/-- C10 amended: in both orchestrators, the later sample's metadata lookup at
any key is the fitted vector field where `vecfld_key_added` names that key,
otherwise the per-iteration trace where `iter_key_added` names that key,
otherwise the input sample's original metadata value (so no other slot is
written, and the trace survives only when `iter_key_added` differs from
`vecfld_key_added`); the first sample's metadata is untouched; and in the
reference orchestrator the identical values are attached to both the landmark
sample and its full-resolution counterpart. -/
theorem metadata_attachment
    (eng0 : String → SampleData C T V → SampleData C T V → EngineOut C T V R)
    (ba : Evaluator C V) (ds : Downsampler C T V) (sk ka : String)
    (ik vk : Option String) (mode : String) (modelAddrs ra : List Nat)
    (st0 : Store C T V)
    (hn : 1 ≤ modelAddrs.length) (hlenR : ra.length = modelAddrs.length)
    (hvalM : ∀ a ∈ modelAddrs, a < st0.next) (hvalR : ∀ a ∈ ra, a < st0.next) :
    (readS (morpho_align (okE eng0 : Engine C T V R E) sk ka ik vk mode
        modelAddrs st0).1 st0.next).uns
      = (readS st0 (modelAddrs.getD 0 0)).uns
    ∧ (∀ k, k + 1 < modelAddrs.length → ∀ key,
        dictGet (readS (morpho_align (okE eng0 : Engine C T V R E) sk ka ik vk mode
            modelAddrs st0).1 (st0.next + (k + 1))).uns key
          = if vk = some key
            then some (Sum.inr (chainOut eng0 sk ka ik vk mode
                (modelAddrs.map (readS st0)) k).vecfld)
            else if ik = some key
            then some (Sum.inl (chainOut eng0 sk ka ik vk mode
                (modelAddrs.map (readS st0)) k).iter_added)
            else dictGet (readS st0 (modelAddrs.getD (k + 1) 0)).uns key)
    ∧ (∀ k, k + 1 < modelAddrs.length → ∀ key,
        dictGet (readS (morpho_align_ref (okE eng0 : Engine C T V R E) ba ds sk ka
            ik vk mode modelAddrs (some ra) st0).1
            (st0.next + modelAddrs.length + (k + 1))).uns key
          = if vk = some key
            then some (Sum.inr (refOut eng0 sk ka ik vk mode
                (ra.map (readS st0)) k).vecfld)
            else if ik = some key
            then some (Sum.inl (refOut eng0 sk ka ik vk mode
                (ra.map (readS st0)) k).iter_added)
            else dictGet (readS st0 (ra.getD (k + 1) 0)).uns key)
    ∧ (∀ k, k + 1 < modelAddrs.length → ∀ key,
        dictGet (readS (morpho_align_ref (okE eng0 : Engine C T V R E) ba ds sk ka
            ik vk mode modelAddrs (some ra) st0).1 (st0.next + (k + 1))).uns key
          = if vk = some key
            then some (Sum.inr (refOut eng0 sk ka ik vk mode
                (ra.map (readS st0)) k).vecfld)
            else if ik = some key
            then some (Sum.inl (refOut eng0 sk ka ik vk mode
                (ra.map (readS st0)) k).iter_added)
            else dictGet (readS st0 (modelAddrs.getD (k + 1) 0)).uns key) := by
  obtain ⟨_, h2, _, _, _⟩ :=
    @morpho_align_spec C T V R E _ eng0 sk ka ik vk mode modelAddrs st0 hn
  obtain ⟨_, r2, r3, _, _, _⟩ :=
    @morpho_align_ref_spec C T V R E _ eng0 ba ds sk ka ik vk mode modelAddrs ra st0
      hn hlenR hvalM hvalR
  have hgetM : ∀ k, k < modelAddrs.length →
      (modelAddrs.map (readS st0)).getD k default = readS st0 (modelAddrs.getD k 0) :=
    fun k hk => getD_map_of_lt (readS st0) modelAddrs hk 0 default
  have hgetR : ∀ k, k < modelAddrs.length →
      (ra.map (readS st0)).getD k default = readS st0 (ra.getD k 0) :=
    fun k hk => getD_map_of_lt (readS st0) ra (by rw [hlenR]; exact hk) 0 default
  have hinitM : ∀ k, k < modelAddrs.length →
      (initSample sk ka (modelAddrs.map (readS st0)) k).uns
        = (readS st0 (modelAddrs.getD k 0)).uns := by
    intro k hk
    rw [initSample, initModel_uns, hgetM k hk]
  have hinitR : ∀ k, k < modelAddrs.length →
      (initSample sk ka (ra.map (readS st0)) k).uns
        = (readS st0 (ra.getD k 0)).uns := by
    intro k hk
    rw [initSample, initModel_uns, hgetR k hk]
  refine ⟨?_, ?_, ?_, ?_⟩
  · have h0 : readS (morpho_align (okE eng0 : Engine C T V R E) sk ka ik vk mode
        modelAddrs st0).1 (st0.next + 0)
        = chainSample eng0 sk ka ik vk mode (modelAddrs.map (readS st0)) 0 :=
      h2 0 hn
    rw [Nat.add_zero] at h0
    rw [h0]
    exact hinitM 0 hn
  · intro k hk key
    have hchain : chainSample eng0 sk ka ik vk mode (modelAddrs.map (readS st0))
        (k + 1)
        = pairWrite ka ik vk mode
            (initSample sk ka (modelAddrs.map (readS st0)) (k + 1))
            (chainOut eng0 sk ka ik vk mode (modelAddrs.map (readS st0)) k) := rfl
    rw [h2 (k + 1) hk, hchain, pairWrite_uns_get, hinitM (k + 1) hk]
  · intro k hk key
    have hrchain : refChain eng0 sk ka ik vk mode (ra.map (readS st0)) (k + 1)
        = pairWrite ka ik vk mode
            (initSample sk ka (ra.map (readS st0)) (k + 1))
            (refOut eng0 sk ka ik vk mode (ra.map (readS st0)) k) := rfl
    rw [r3 (k + 1) hk, hrchain, pairWrite_uns_get, hinitR (k + 1) hk]
  · intro k hk key
    have hfull : fullFinal eng0 ba sk ka ik vk mode (modelAddrs.map (readS st0))
        (ra.map (readS st0)) (k + 1)
        = fullWrite ka mode
            (unsWrite ik vk (initSample sk ka (modelAddrs.map (readS st0)) (k + 1))
              (refOut eng0 sk ka ik vk mode (ra.map (readS st0)) k))
            (ba (refOut eng0 sk ka ik vk mode (ra.map (readS st0)) k).vecfld
              (fullQuery eng0 sk ka ik vk mode (modelAddrs.map (readS st0))
                (ra.map (readS st0)) k)).1
            (ba (refOut eng0 sk ka ik vk mode (ra.map (readS st0)) k).vecfld
              (fullQuery eng0 sk ka ik vk mode (modelAddrs.map (readS st0))
                (ra.map (readS st0)) k)).2.2 := rfl
    rw [r2 (k + 1) hk, hfull]
    have hfw : (fullWrite ka mode
        (unsWrite ik vk (initSample sk ka (modelAddrs.map (readS st0)) (k + 1))
          (refOut eng0 sk ka ik vk mode (ra.map (readS st0)) k))
        (ba (refOut eng0 sk ka ik vk mode (ra.map (readS st0)) k).vecfld
          (fullQuery eng0 sk ka ik vk mode (modelAddrs.map (readS st0))
            (ra.map (readS st0)) k)).1
        (ba (refOut eng0 sk ka ik vk mode (ra.map (readS st0)) k).vecfld
          (fullQuery eng0 sk ka ik vk mode (modelAddrs.map (readS st0))
            (ra.map (readS st0)) k)).2.2).uns
        = (unsWrite ik vk (initSample sk ka (modelAddrs.map (readS st0)) (k + 1))
            (refOut eng0 sk ka ik vk mode (ra.map (readS st0)) k)).uns :=
      fullWrite_uns _ _ _ _ _
    rw [hfw, unsWrite_uns_get, hinitM (k + 1) hk]

/-- Witness for the amended C10 at the concrete two-sample input with distinct
metadata keys. -/
theorem metadata_attachment_witness :
    (1 ≤ ([0, 1] : List Nat).length)
    ∧ ([0, 1] : List Nat).length = ([0, 1] : List Nat).length
    ∧ (∀ a ∈ ([0, 1] : List Nat), a < st0C.next)
    ∧ (

    (readS (morpho_align (okE eng0C : Engine Nat Nat Nat Nat Unit) ("spatial") ("align" : String) (some ("iter")) (some ("vec")) ("SN-S")
        ([0, 1] : List Nat) st0C).1 st0C.next).uns
      = (readS st0C (([0, 1] : List Nat).getD 0 0)).uns
    ∧ (∀ k, k + 1 < ([0, 1] : List Nat).length → ∀ key,
        dictGet (readS (morpho_align (okE eng0C : Engine Nat Nat Nat Nat Unit) ("spatial") ("align" : String) (some ("iter")) (some ("vec")) ("SN-S")
            ([0, 1] : List Nat) st0C).1 (st0C.next + (k + 1))).uns key
          = if (some ("vec")) = some key
            then some (Sum.inr (chainOut eng0C ("spatial") ("align" : String) (some ("iter")) (some ("vec")) ("SN-S")
                (([0, 1] : List Nat).map (readS st0C)) k).vecfld)
            else if (some ("iter")) = some key
            then some (Sum.inl (chainOut eng0C ("spatial") ("align" : String) (some ("iter")) (some ("vec")) ("SN-S")
                (([0, 1] : List Nat).map (readS st0C)) k).iter_added)
            else dictGet (readS st0C (([0, 1] : List Nat).getD (k + 1) 0)).uns key)
    ∧ (∀ k, k + 1 < ([0, 1] : List Nat).length → ∀ key,
        dictGet (readS (morpho_align_ref (okE eng0C : Engine Nat Nat Nat Nat Unit) baC dsC ("spatial") ("align" : String)
            (some ("iter")) (some ("vec")) ("SN-S") ([0, 1] : List Nat) (some ([0, 1] : List Nat)) st0C).1
            (st0C.next + ([0, 1] : List Nat).length + (k + 1))).uns key
          = if (some ("vec")) = some key
            then some (Sum.inr (refOut eng0C ("spatial") ("align" : String) (some ("iter")) (some ("vec")) ("SN-S")
                (([0, 1] : List Nat).map (readS st0C)) k).vecfld)
            else if (some ("iter")) = some key
            then some (Sum.inl (refOut eng0C ("spatial") ("align" : String) (some ("iter")) (some ("vec")) ("SN-S")
                (([0, 1] : List Nat).map (readS st0C)) k).iter_added)
            else dictGet (readS st0C (([0, 1] : List Nat).getD (k + 1) 0)).uns key)
    ∧ (∀ k, k + 1 < ([0, 1] : List Nat).length → ∀ key,
        dictGet (readS (morpho_align_ref (okE eng0C : Engine Nat Nat Nat Nat Unit) baC dsC ("spatial") ("align" : String)
            (some ("iter")) (some ("vec")) ("SN-S") ([0, 1] : List Nat) (some ([0, 1] : List Nat)) st0C).1 (st0C.next + (k + 1))).uns key
          = if (some ("vec")) = some key
            then some (Sum.inr (refOut eng0C ("spatial") ("align" : String) (some ("iter")) (some ("vec")) ("SN-S")
                (([0, 1] : List Nat).map (readS st0C)) k).vecfld)
            else if (some ("iter")) = some key
            then some (Sum.inl (refOut eng0C ("spatial") ("align" : String) (some ("iter")) (some ("vec")) ("SN-S")
                (([0, 1] : List Nat).map (readS st0C)) k).iter_added)
            else dictGet (readS st0C (([0, 1] : List Nat).getD (k + 1) 0)).uns key)
    ) :=
  ⟨by decide, rfl, by decide,
   @metadata_attachment Nat Nat Nat Nat Unit _ eng0C baC dsC ("spatial") ("align")
     (some ("iter")) (some ("vec")) ("SN-S") [0, 1] [0, 1] st0C (by decide) rfl
     (by decide) (by decide)⟩

end Spateo
